import Mathlib

/-!
# Release Radar: detection-and-delivery pipeline

A shallow embedding of the worker process of the repository
(`cmd/worker/main.go` wiring `usecase.PollReleases`, `usecase.EnqueueDeliveries`,
`usecase.Notify`, `idempotency.Manager.Do`, `retry.Do`, the GitHub and Telegram
adapters and the Postgres/Redis stores), followed by theorems about it.

Conventions of the embedding.

* Stateful Go code is a function `World → result × World`.  The `World` holds the
  five tables of the Postgres store, the Redis key space, the wall clock and a
  chronological `trace` of every effect performed (statements sent to the
  database, calls of the go-github API, `bot.Send`, `SETNX`, `uuid.New`,
  `time.Sleep`).
* Everything the code cannot decide is an oracle in `Env`, indexed by the position
  in the trace at which the effect happens: the driver error (if any) of a
  database statement, the answer of the GitHub API, the outcome of `bot.Send`, the
  value of `uuid.New()`.  A theorem quantified over `Env` holds for every behaviour
  of the outside world.
* `crypto/sha256` followed by `hex.EncodeToString` is the oracle `Env.sha256hex`.
* Calls of `logger` have no effect on the state and are left out.
* `time.Duration` and Go `int` are 64-bit integers: the doubling of the delay in
  `retry.Do` and the increment of the attempt counter in `Notify` wrap around
  (`wrapInt64`).  Instants of `time.Time` are unbounded integers of nanoseconds;
  the clock moves only when the program sleeps.
-/

namespace RR

/-! ## Basic types -/

/-- Go `time.Duration`: a signed 64-bit count of nanoseconds. -/
abbrev Duration := Int

/-- Go `time.Time`, as nanoseconds on the wall clock. -/
abbrev Time := Int

/-- Two's-complement wrap-around of 64-bit signed arithmetic. -/
def wrapInt64 (x : Int) : Int := (x + 2 ^ 63) % 2 ^ 64 - 2 ^ 63

def Millisecond : Duration := 1000000

def Second : Duration := 1000000000

def Minute : Duration := 60 * Second

def Hour : Duration := 60 * Minute

/-- Go `uuid.UUID` (`[16]byte`), as the 128-bit number the bytes spell big-endian. -/
structure UUID where
  val : Fin (2 ^ 128)
deriving DecidableEq

/-- One lower-case hexadecimal digit. -/
def hexDigit (n : Nat) : Char :=
  Char.ofNat (if n % 16 < 10 then 48 + n % 16 else 87 + n % 16)

/-- The `k` low hexadecimal digits of `n`, most significant first. -/
def hexDigits : Nat → Nat → List Char
  | 0, _ => []
  | k + 1, n => hexDigits k (n / 16) ++ [hexDigit n]

/-- Go `uuid.UUID.String`: the 36-character form `xxxxxxxx-xxxx-xxxx-xxxx-xxxxxxxxxxxx`. -/
def UUID.String (u : UUID) : String :=
  let h := hexDigits 32 u.val.val
  String.mk (h.take 8 ++ '-' :: (h.drop 8).take 4 ++ '-' :: (h.drop 12).take 4 ++ '-' ::
    (h.drop 16).take 4 ++ '-' :: h.drop 20)

/-- Go `error` values: the text reported by `Error()` and whether `errors.Is(err,
persistence.ErrNotFound)` holds.  Wrapping with `%w` keeps the second. -/
structure Error where
  text : String
  notFound : Bool
deriving DecidableEq

/-- Go `fmt.Errorf(pre + "%w", err)`. -/
def Error.wrap (pre : String) (err : Error) : Error :=
  { text := pre ++ err.text, notFound := err.notFound }

/-- Modelled from the spec: the sentinel `persistence.ErrNotFound`, which the use cases
test with `errors.Is` but whose declaration is not among the sources; the spec does
not give its text, which no use case inspects. -/
def ErrNotFound : Error := { text := "not found", notFound := true }

namespace domain

structure User where
  ID : UUID
  Email : String
  CreatedAt : Time
  UpdatedAt : Time
deriving DecidableEq

structure Repo where
  ID : UUID
  UserID : UUID
  Owner : String
  Name : String
  ETag : String
  LastCheckedAt : Time
  CreatedAt : Time
  UpdatedAt : Time
deriving DecidableEq

structure Subscription where
  ID : UUID
  RepoID : UUID
  UserID : UUID
  Channel : String
  CreatedAt : Time
  UpdatedAt : Time
deriving DecidableEq

structure Release where
  ID : UUID
  RepoID : UUID
  Tag : String
  Title : String
  URL : String
  PublishedAt : Time
  Hash : String
  CreatedAt : Time
  UpdatedAt : Time
deriving DecidableEq

structure Delivery where
  ID : UUID
  ReleaseID : UUID
  UserID : UUID
  Channel : String
  Status : String
  Attempt : Int
  LastError : String
  CreatedAt : Time
  UpdatedAt : Time
deriving DecidableEq

end domain

namespace github

/-- The adapter's `github.Release`. -/
structure Release where
  Tag : String
  Title : String
  URL : String
  PublishedAt : Time
  Body : String
deriving DecidableEq

/-- What the adapter reads of go-github's `*Response`. -/
structure Response where
  StatusCode : Int
  Etag : String
deriving DecidableEq

/-- The triple `rel, resp, err` returned by go-github's `Repositories.GetLatestRelease`;
`rel` holds the values of the getters `GetTagName`, `GetName`, `GetHTMLURL`,
`GetPublishedAt().Time` and `GetBody`. -/
structure ApiResult where
  rel : Option Release
  resp : Option Response
  err : Option Error
deriving DecidableEq

end github

/-! ## World, effects and oracles -/

/-- One effect performed on the outside world. -/
inductive Event where
  | uuidNew (u : UUID)
  | sleep (d : Duration)
  | apiGetLatestRelease (owner repo : String)
  | botSend (chatID text : String)
  | setNX (key : String) (expiration : Duration)
  | txBegin
  | txCommit
  | txRollback
  | createUser (u : domain.User)
  | getUserByID (id : UUID)
  | createRepo (r : domain.Repo)
  | updateRepo (r : domain.Repo)
  | listRepos (userID : UUID)
  | listSubscriptionsByRepoID (repoID : UUID)
  | createRelease (r : domain.Release)
  | getReleaseByID (id : UUID)
  | getReleaseByRepoIDAndTag (repoID : UUID) (tag : String)
  | createDelivery (d : domain.Delivery)
  | updateDeliveryStatus (id : UUID) (status lastError : String) (attempt : Int)
  | listPendingDeliveries
deriving DecidableEq

/-- The state of the outside world. -/
structure World where
  users : List domain.User
  repos : List domain.Repo
  subscriptions : List domain.Subscription
  releases : List domain.Release
  deliveries : List domain.Delivery
  /-- Redis keys with the instant at which each expires (`none`: never). -/
  redis : List (String × Option Time)
  /-- The wall clock read by `time.Now()`. -/
  now : Time
  trace : List Event

/-- The behaviour of everything outside the program; the `Nat` argument is the length
of the trace when the effect happens. -/
structure Env where
  /-- Hex encoding of the SHA-256 digest of a string. -/
  sha256hex : String → String
  /-- The value returned by `uuid.New()`. -/
  uuid : Nat → UUID
  /-- The driver error of a database statement, if it fails. -/
  db : Nat → Option Error
  /-- The client error of a Redis command, if it fails. -/
  redis : Nat → Option Error
  /-- The answer of go-github's `Repositories.GetLatestRelease(ctx, owner, repo)`. -/
  api : Nat → String → String → github.ApiResult
  /-- The error of `bot.Send(msg)`, if it fails. -/
  botSend : Nat → Option Error

def World.emit (w : World) (e : Event) : World :=
  { w with trace := w.trace ++ [e] }

/-- Rollback: the tables of `saved`, everything else (clock, trace, Redis) kept. -/
def World.restoreTables (w saved : World) : World :=
  { w with users := saved.users, repos := saved.repos, subscriptions := saved.subscriptions,
           releases := saved.releases, deliveries := saved.deliveries }

namespace time

def Now (w : World) : Time := w.now

/-- Go `time.Sleep`: returns at once for `d ≤ 0`, otherwise after `d`. -/
def Sleep (d : Duration) (w : World) : World :=
  { w with now := w.now + max d 0, trace := w.trace ++ [Event.sleep d] }

end time

namespace uuid

def Nil : UUID := ⟨0⟩

def New (env : Env) (w : World) : UUID × World :=
  (env.uuid w.trace.length, w.emit (Event.uuidNew (env.uuid w.trace.length)))

end uuid

/-! ## pkg/retry -/

namespace retry

/-- The `for` loop of `retry.Do`: `n` iterations remain, `i` is the loop counter,
`err` the local variable; `a` stands for the variables captured by the closure `fn`. -/
def loop {α : Type} (fn : α → World → Option Error × α × World) :
    Nat → Nat → Duration → Option Error → α → World → Option Error × α × World
  | 0, _, _, err, a, w => (err, a, w)
  | n + 1, i, sleep, _, a, w =>
    let w1 := if 0 < i then time.Sleep sleep w else w
    let sleep1 := if 0 < i then wrapInt64 (sleep * 2) else sleep
    match fn a w1 with
    | (none, a2, w2) => (none, a2, w2)
    | (some e, a2, w2) => loop fn n (i + 1) sleep1 (some e) a2 w2

/-- Go `retry.Do(attempts, sleep, fn)`. -/
def Do {α : Type} (attempts : Int) (sleep : Duration)
    (fn : α → World → Option Error × α × World) (a : α) (w : World) :
    Option Error × α × World :=
  loop fn attempts.toNat 0 sleep none a w

end retry

/-! ## pkg/idempotency -/

namespace idempotency

/-- The interface `idempotency.Storage`. -/
structure Storage where
  CheckAndSet : String → Duration → World → (Bool × Option Error) × World

structure Manager where
  storage : Storage

def NewManager (storage : Storage) : Manager := { storage := storage }

/-- Go `(*Manager).Do`. -/
def Manager.Do (m : Manager) (key : String) (expiration : Duration)
    (fn : World → Option Error × World) (w : World) : Option Error × World :=
  match m.storage.CheckAndSet key expiration w with
  | ((_, some err), w1) => (some (Error.wrap "idempotency check failed: " err), w1)
  | ((false, none), w1) => (none, w1)
  | ((true, none), w1) => fn w1

end idempotency

/-! ## internal/adapter/persistence

The tables are lists in insertion order.  `Create` appends a row, `Find` returns the
matching rows in list order, `First` returns the matching row with the least primary
key (gorm orders `First` by primary key), `Save` rewrites the row with the same
primary key and `Updates` rewrites the named columns.  Postgres promises no order for
a `Find` without `ORDER BY`: the list order stands for the order in which it happens
to answer, taken to be the same before and after a row is rewritten in place; only
statements about the first repo listed depend on it.  Constraint violations are,
like every other driver failure, the answer of the oracle `Env.db`: a statement
that fails changes nothing. -/

namespace persistence

/-! The go-redis client turns the expiration of `SetNX` into a command: `SETNX key value`
for a zero expiration, `SET key value KEEPTTL NX` for `KeepTTL`, and otherwise
`SET key value PX ms NX` or `SET key value EX s NX`, the expiration being cut down
to whole milliseconds or seconds.  Redis rejects a `PX` or `EX` that is not
positive. -/

/-- The go-redis constant `KeepTTL`. -/
def redis.KeepTTL : Duration := -1

/-- The go-redis function `usePrecise`: the expiration is sent in milliseconds. -/
def redis.usePrecise (dur : Duration) : Bool :=
  decide (dur < Second ∨ dur % Second ≠ 0)

/-- The go-redis function `formatMs`: whole milliseconds, one for a positive expiration
below a millisecond (Go division truncates towards zero). -/
def redis.formatMs (dur : Duration) : Int :=
  if 0 < dur ∧ dur < Millisecond then 1 else Int.tdiv dur Millisecond

/-- The go-redis function `formatSec`: whole seconds, one for a positive expiration below a
second. -/
def redis.formatSec (dur : Duration) : Int :=
  if 0 < dur ∧ dur < Second then 1 else Int.tdiv dur Second

/-- The time to live that the command carries, in nanoseconds. -/
def redis.ttlSent (dur : Duration) : Duration :=
  if redis.usePrecise dur then redis.formatMs dur * Millisecond
  else redis.formatSec dur * Second

/-- The answer of Redis to a `SET` whose `PX` or `EX` is not positive. -/
def redis.invalidExpire : Error :=
  { text := "ERR invalid expire time in \x27set\x27 command", notFound := false }

/-- Go `RedisIdempotencyStorage.CheckAndSet`, that is go-redis `SetNX`: the key is set when
it is absent or has expired, with the time to live the command carries, or with none
for a zero expiration and for `KeepTTL`.  A command that carries a time to live that
is not positive (a negative expiration other than `KeepTTL`) is answered by an error
and sets nothing.  Redis and the program are taken to read the same clock. -/
def RedisIdempotencyStorage.CheckAndSet (env : Env) (key : String) (expiration : Duration)
    (w : World) : (Bool × Option Error) × World :=
  let w1 := w.emit (Event.setNX key expiration)
  match env.redis w.trace.length with
  | some err => ((false, some (Error.wrap "failed to setnx key in redis: " err)), w1)
  | none =>
    if expiration ≠ 0 ∧ expiration ≠ redis.KeepTTL ∧ redis.ttlSent expiration ≤ 0 then
      ((false, some (Error.wrap "failed to setnx key in redis: " redis.invalidExpire)), w1)
    else if w.redis.any (fun e => e.1 == key && (match e.2 with
        | none => true
        | some t => decide (w.now < t))) then
      ((false, none), w1)
    else
      ((true, none),
        { w1 with redis := w.redis.filter (fun e => !(e.1 == key)) ++
            [(key, if expiration = 0 ∨ expiration = redis.KeepTTL then none
              else some (w.now + redis.ttlSent expiration))] })

def NewRedisIdempotencyStorage (env : Env) : idempotency.Storage :=
  { CheckAndSet := RedisIdempotencyStorage.CheckAndSet env }

/-- The row of least primary key, the earliest such row on a tie. -/
def leastBy {α : Type} (key : α → Nat) : List α → Option α
  | [] => none
  | a :: l =>
    match leastBy key l with
    | none => some a
    | some b => if key b < key a then some b else some a

namespace PostgresStore

/-- Go `WithinTransaction`: `BEGIN`, the function, then `COMMIT`, or `ROLLBACK` when the
function fails; `a` stands for the variables the closure captures. -/
def WithinTransaction {α : Type} (env : Env) (txFunc : α → World → Option Error × α × World)
    (a : α) (w : World) : Option Error × α × World :=
  match env.db w.trace.length with
  | some err => (some err, a, w.emit Event.txBegin)
  | none =>
    match txFunc a (w.emit Event.txBegin) with
    | (some err, a1, w1) => (some err, a1, (w1.restoreTables w).emit Event.txRollback)
    | (none, a1, w1) =>
      match env.db w1.trace.length with
      | some err => (some err, a1, (w1.restoreTables w).emit Event.txCommit)
      | none => (none, a1, w1.emit Event.txCommit)

def CreateUser (env : Env) (user : domain.User) (w : World) : Option Error × World :=
  match env.db w.trace.length with
  | some err => (some err, w.emit (Event.createUser user))
  | none => (none, { w.emit (Event.createUser user) with users := w.users ++ [user] })

def GetUserByID (env : Env) (id : UUID) (w : World) :
    (Option domain.User × Option Error) × World :=
  match env.db w.trace.length with
  | some err => ((none, some err), w.emit (Event.getUserByID id))
  | none => ((w.users.find? (fun u => u.ID == id), none), w.emit (Event.getUserByID id))

def CreateRepo (env : Env) (repo : domain.Repo) (w : World) : Option Error × World :=
  match env.db w.trace.length with
  | some err => (some err, w.emit (Event.createRepo repo))
  | none => (none, { w.emit (Event.createRepo repo) with repos := w.repos ++ [repo] })

/-- Go `UpdateRepo`, that is gorm `Save`: with a zero primary key it inserts; otherwise it
updates every column of the row with that primary key, `updated_at` being set to the
current time, and inserts when there is no such row. -/
def UpdateRepo (env : Env) (repo : domain.Repo) (w : World) : Option Error × World :=
  match env.db w.trace.length with
  | some err => (some err, w.emit (Event.updateRepo repo))
  | none =>
    if repo.ID = uuid.Nil then
      (none, { w.emit (Event.updateRepo repo) with repos := w.repos ++ [repo] })
    else if w.repos.any (fun r => r.ID == repo.ID) then
      (none, { w.emit (Event.updateRepo repo) with
        repos := w.repos.map (fun r =>
          if r.ID = repo.ID then { repo with UpdatedAt := time.Now w } else r) })
    else
      (none, { w.emit (Event.updateRepo repo) with
        repos := w.repos ++ [{ repo with UpdatedAt := time.Now w }] })

def ListRepos (env : Env) (userID : UUID) (w : World) :
    (List domain.Repo × Option Error) × World :=
  match env.db w.trace.length with
  | some err => (([], some err), w.emit (Event.listRepos userID))
  | none => ((w.repos.filter (fun r => r.UserID == userID), none),
      w.emit (Event.listRepos userID))

def ListSubscriptionsByRepoID (env : Env) (repoID : UUID) (w : World) :
    (List domain.Subscription × Option Error) × World :=
  match env.db w.trace.length with
  | some err => (([], some err), w.emit (Event.listSubscriptionsByRepoID repoID))
  | none => ((w.subscriptions.filter (fun s => s.RepoID == repoID), none),
      w.emit (Event.listSubscriptionsByRepoID repoID))

def CreateRelease (env : Env) (release : domain.Release) (w : World) : Option Error × World :=
  match env.db w.trace.length with
  | some err => (some err, w.emit (Event.createRelease release))
  | none => (none, { w.emit (Event.createRelease release) with
      releases := w.releases ++ [release] })

def GetReleaseByID (env : Env) (id : UUID) (w : World) :
    (Option domain.Release × Option Error) × World :=
  match env.db w.trace.length with
  | some err => ((none, some err), w.emit (Event.getReleaseByID id))
  | none => ((w.releases.find? (fun r => r.ID == id), none), w.emit (Event.getReleaseByID id))

/-- Go `GetReleaseByRepoIDAndTag`: `WHERE repo_id = ? AND tag = ?` then `First`, which
orders by primary key. -/
def GetReleaseByRepoIDAndTag (env : Env) (repoID : UUID) (tag : String) (w : World) :
    (Option domain.Release × Option Error) × World :=
  match env.db w.trace.length with
  | some err => ((none, some err), w.emit (Event.getReleaseByRepoIDAndTag repoID tag))
  | none =>
    ((leastBy (fun r => r.ID.val.val)
        (w.releases.filter (fun r => r.RepoID == repoID && r.Tag == tag)), none),
      w.emit (Event.getReleaseByRepoIDAndTag repoID tag))

def CreateDelivery (env : Env) (delivery : domain.Delivery) (w : World) :
    Option Error × World :=
  match env.db w.trace.length with
  | some err => (some err, w.emit (Event.createDelivery delivery))
  | none => (none, { w.emit (Event.createDelivery delivery) with
      deliveries := w.deliveries ++ [delivery] })

/-- Go `UpdateDeliveryStatus`: `Updates` of the columns `status`, `last_error`, `attempt`
and `updated_at` of the rows with that id. -/
def UpdateDeliveryStatus (env : Env) (id : UUID) (status lastError : String) (attempt : Int)
    (w : World) : Option Error × World :=
  match env.db w.trace.length with
  | some err => (some err, w.emit (Event.updateDeliveryStatus id status lastError attempt))
  | none => (none, { w.emit (Event.updateDeliveryStatus id status lastError attempt) with
      deliveries := w.deliveries.map (fun d =>
        if d.ID = id then
          { d with Status := status, LastError := lastError, Attempt := attempt,
                   UpdatedAt := time.Now w }
        else d) })

def ListPendingDeliveries (env : Env) (w : World) :
    (List domain.Delivery × Option Error) × World :=
  match env.db w.trace.length with
  | some err => (([], some err), w.emit Event.listPendingDeliveries)
  | none => ((w.deliveries.filter (fun d => d.Status == "pending"), none),
      w.emit Event.listPendingDeliveries)

end PostgresStore

end persistence

/-! ## internal/adapter/github and internal/adapter/telegram -/

namespace github

/-- The closure passed to `retry.Do` in `GetLatestRelease`; `cap` holds the captured
variables `latestRelease` and `newETag`. -/
def githubClient.GetLatestRelease.fn (env : Env) (owner repo : String)
    (cap : Option Release × String) (w : World) :
    Option Error × (Option Release × String) × World :=
  let r := env.api w.trace.length owner repo
  let w1 := w.emit (Event.apiGetLatestRelease owner repo)
  match r.err with
  | some err =>
    match r.resp with
    | some resp =>
      if resp.StatusCode = 304 then (none, cap, w1)
      else (some (Error.wrap "github client error: " err), cap, w1)
    | none => (some (Error.wrap "github client error: " err), cap, w1)
  | none =>
    let newETag := match r.resp with
      | some resp => resp.Etag
      | none => cap.2
    let latestRelease := match r.rel with
      | some rel => some rel
      | none => cap.1
    (none, (latestRelease, newETag), w1)

/-- Go `(*githubClient).GetLatestRelease`; the argument `etag` is not used by the code. -/
def githubClient.GetLatestRelease (env : Env) (owner repo : String) (_etag : String)
    (w : World) : (Option Release × String × Option Error) × World :=
  match retry.Do 3 (2 * Second) (githubClient.GetLatestRelease.fn env owner repo)
      (none, "") w with
  | (some err, _, w1) => ((none, "", some err), w1)
  | (none, cap, w1) => ((cap.1, cap.2, none), w1)

end github

namespace telegram

/-- Go `(*telegramClient).SendMessage`: `bot.Send`, retried three times from two
seconds. -/
def telegramClient.SendMessage (env : Env) (chatID text : String) (w : World) :
    Option Error × World :=
  let r := retry.Do 3 (2 * Second)
    (fun (_ : Unit) (w0 : World) =>
      match env.botSend w0.trace.length with
      | some sendErr =>
        (some (Error.wrap "telegram client error: " sendErr), (),
          w0.emit (Event.botSend chatID text))
      | none => (none, (), w0.emit (Event.botSend chatID text)))
    () w
  (r.1, r.2.2)

end telegram

/-! ## internal/usecase -/

namespace usecase

open persistence

/-- The `domain.Delivery` built in the loop of `EnqueueDeliveries` for one subscription. -/
def EnqueueDeliveries.delivery (env : Env) (release : domain.Release) (w : World)
    (sub : domain.Subscription) : domain.Delivery :=
  { ID := (uuid.New env w).1, ReleaseID := release.ID, UserID := sub.UserID,
    Channel := sub.Channel, Status := "pending", Attempt := 0, LastError := "",
    CreatedAt := time.Now (uuid.New env w).2, UpdatedAt := time.Now (uuid.New env w).2 }

/-- Go `(*pollerUseCase).EnqueueDeliveries`, the body of the loop over the subscriptions.
The idempotency key and the manager built over a nil storage are computed and
dropped by the code (`_ = deliveryKey`), so only the key is kept here, unused; an
error of `CreateDelivery` is only logged. -/
def EnqueueDeliveries.body (env : Env) (release : domain.Release) (w : World)
    (sub : domain.Subscription) : World :=
  let _deliveryKey := "delivery:" ++ release.ID.String ++ ":" ++ sub.UserID.String ++ ":" ++
    sub.Channel
  (PostgresStore.CreateDelivery env (EnqueueDeliveries.delivery env release w sub)
    (uuid.New env w).2).2

/-- Go `(*pollerUseCase).EnqueueDeliveries`. -/
def EnqueueDeliveries (env : Env) (release : domain.Release) (w : World) :
    Option Error × World :=
  match PostgresStore.ListSubscriptionsByRepoID env release.RepoID w with
  | ((_, some err), w1) =>
    (some (Error.wrap ("PollerUseCase.EnqueueDeliveries: failed to get subscriptions for repo "
      ++ release.RepoID.String ++ ": ") err), w1)
  | ((subscriptions, none), w1) =>
    (none, subscriptions.foldl (EnqueueDeliveries.body env release) w1)

/-- Lines 55 to 89 of `PollReleases`: the repo to poll when `ListRepos` returned `repos`,
the first one, or a dummy user and repo created in a transaction when there is
none. -/
def PollReleases.stub (env : Env) (repos : List domain.Repo) (w : World) :
    Option Error × Option domain.Repo × World :=
  match repos with
  | [] =>
    let id := uuid.New env w
    let user : domain.User :=
      { ID := id.1, Email := "dummy@example.com", CreatedAt := time.Now id.2,
        UpdatedAt := time.Now id.2 }
    match PostgresStore.WithinTransaction env
      (fun (repo : Option domain.Repo) (tx : World) =>
        match PostgresStore.CreateUser env user tx with
        | (some err, tx1) =>
          (some (Error.wrap "PollerUseCase.PollReleases: failed to create dummy user: " err),
            repo, tx1)
        | (none, tx1) =>
          let rid := uuid.New env tx1
          let dummyRepo : domain.Repo :=
            { ID := rid.1, UserID := user.ID, Owner := "golang", Name := "go", ETag := "",
              LastCheckedAt := time.Now rid.2 + (-24) * Hour,
              CreatedAt := time.Now rid.2, UpdatedAt := time.Now rid.2 }
          match PostgresStore.CreateRepo env dummyRepo rid.2 with
          | (some err, tx2) =>
            (some (Error.wrap "PollerUseCase.PollReleases: failed to create dummy repo: " err),
              repo, tx2)
          | (none, tx2) => (none, some dummyRepo, tx2))
      none id.2 with
    | (some err, repo, w1) =>
      (some (Error.wrap
        "PollerUseCase.PollReleases: failed to set up dummy repo for polling: " err), repo, w1)
    | (none, repo, w1) => (none, repo, w1)
  | r :: _ => (none, some r, w)

/-- The `domain.Release` built at lines 114 to 124 of `PollReleases` for the upstream release
`gr` of `repo`, in the world `w` reached after the lookup of the existing release. -/
def PollReleases.newRelease (env : Env) (repo : domain.Repo) (gr : github.Release)
    (w : World) : domain.Release :=
  { ID := (uuid.New env w).1, RepoID := repo.ID, Tag := gr.Tag, Title := gr.Title,
    URL := gr.URL, PublishedAt := gr.PublishedAt,
    Hash := env.sha256hex (gr.Body ++ gr.Tag ++ gr.Title ++ gr.URL),
    CreatedAt := time.Now (uuid.New env w).2, UpdatedAt := time.Now (uuid.New env w).2 }

/-- Lines 99 to 137 of `PollReleases`: what is done with the release returned by the
release source.  An error of `EnqueueDeliveries` is only logged. -/
def PollReleases.detect (env : Env) (repo : domain.Repo) (githubRelease : Option github.Release)
    (w : World) : Option Error × World :=
  match githubRelease with
  | none => (none, w)
  | some gr =>
    let releaseHash := env.sha256hex (gr.Body ++ gr.Tag ++ gr.Title ++ gr.URL)
    match PostgresStore.GetReleaseByRepoIDAndTag env repo.ID gr.Tag w with
    | ((existingRelease, err), w1) =>
      if err.any (fun e => !e.notFound) then
        (err.map (Error.wrap "PollerUseCase.PollReleases: failed to check for existing release: "),
          w1)
      else if existingRelease.all (fun e => e.Hash != releaseHash) then
        match PostgresStore.CreateRelease env (PollReleases.newRelease env repo gr w1)
            (uuid.New env w1).2 with
        | (some err2, w2) =>
          (some (Error.wrap "PollerUseCase.PollReleases: failed to create new release: " err2), w2)
        | (none, w2) =>
          (none, (EnqueueDeliveries env (PollReleases.newRelease env repo gr w1) w2).2)
      else (none, w1)

/-- The repo as `PollReleases` writes it back (lines 140 to 143): the validator replaced by
the new one when that is not empty and differs, `LastCheckedAt` set to the current
time. -/
def PollReleases.written (repo : domain.Repo) (newETag : String) (w : World) : domain.Repo :=
  { (if newETag != "" && newETag != repo.ETag then { repo with ETag := newETag } else repo) with
    LastCheckedAt := time.Now w }

/-- Lines 139 to 150 of `PollReleases`: the repo is written back. -/
def PollReleases.finish (env : Env) (repo : domain.Repo) (newETag : String) (w : World) :
    Option Error × World :=
  match PostgresStore.UpdateRepo env (PollReleases.written repo newETag w) w with
  | (some err, w1) =>
    (some (Error.wrap ("PollerUseCase.PollReleases: failed to update repo " ++ repo.ID.String
      ++ " ETag/LastCheckedAt: ") err), w1)
  | (none, w1) => (none, w1)

/-- Lines 92 to 150 of `PollReleases`: the poll of the selected repo. -/
def PollReleases.poll (env : Env) (repo : domain.Repo) (w : World) : Option Error × World :=
  match github.githubClient.GetLatestRelease env repo.Owner repo.Name repo.ETag w with
  | ((_, _, some err), w1) =>
    (some (Error.wrap ("PollerUseCase.PollReleases: failed to get latest release from GitHub for "
      ++ repo.Owner ++ "/" ++ repo.Name ++ ": ") err), w1)
  | ((githubRelease, newETag, none), w1) =>
    match PollReleases.detect env repo githubRelease w1 with
    | (some err, w2) => (some err, w2)
    | (none, w2) => PollReleases.finish env repo newETag w2

/-- Go `(*pollerUseCase).PollReleases`. -/
def PollReleases (env : Env) (w : World) : Option Error × World :=
  match PostgresStore.ListRepos env uuid.Nil w with
  | ((repos, err), w1) =>
    if err.any (fun e => !e.notFound) then
      (err.map (Error.wrap "PollerUseCase.PollReleases: failed to list repos: "), w1)
    else
      match PollReleases.stub env repos w1 with
      | (some err2, _, w2) => (some err2, w2)
      | (none, none, w2) => (none, w2)
      | (none, some repo, w2) => PollReleases.poll env repo w2

/-- The idempotency key of a delivery in `Notify`. -/
def Notify.idempotencyKey (delivery : domain.Delivery) : String :=
  "notify:" ++ delivery.ReleaseID.String ++ ":" ++ delivery.UserID.String ++ ":" ++
    delivery.Channel

/-- The message sent for a release in `Notify`. -/
def Notify.message (release : domain.Release) : String :=
  "New release for " ++ release.RepoID.String ++ "/" ++ "" ++ ": <b>" ++ release.Title ++
    "</b> (" ++ release.Tag ++ ")\n" ++ release.URL

/-- The closure that `Notify` passes to `idempotencyManager.Do` for one delivery. -/
def Notify.fn (env : Env) (delivery : domain.Delivery) (w : World) : Option Error × World :=
  match PostgresStore.GetReleaseByID env delivery.ReleaseID w with
  | ((_, some err), w1) =>
    (some (Error.wrap ("NotifierUseCase.Notify: failed to get release " ++
      delivery.ReleaseID.String ++ " for delivery " ++ delivery.ID.String ++ ": ") err), w1)
  | ((none, none), w1) =>
    PostgresStore.UpdateDeliveryStatus env delivery.ID "skipped" "release not found"
      (wrapInt64 (delivery.Attempt + 1)) w1
  | ((some release, none), w1) =>
    match PostgresStore.GetUserByID env delivery.UserID w1 with
    | ((_, some err), w2) =>
      (some (Error.wrap ("NotifierUseCase.Notify: failed to get user " ++
        delivery.UserID.String ++ " for delivery " ++ delivery.ID.String ++ ": ") err), w2)
    | ((none, none), w2) =>
      PostgresStore.UpdateDeliveryStatus env delivery.ID "skipped" "user not found"
        (wrapInt64 (delivery.Attempt + 1)) w2
    | ((some _, none), w2) =>
      match telegram.telegramClient.SendMessage env delivery.Channel (Notify.message release)
          w2 with
      | (some sendErr, w3) =>
        PostgresStore.UpdateDeliveryStatus env delivery.ID "failed" sendErr.text
          (wrapInt64 (delivery.Attempt + 1)) w3
      | (none, w3) =>
        PostgresStore.UpdateDeliveryStatus env delivery.ID "sent" ""
          (wrapInt64 (delivery.Attempt + 1)) w3

/-- One iteration of the loop of `Notify`: the delivery is processed under its
idempotency key with a time to live of ten minutes; the error, if any, is only
logged. -/
def Notify.body (env : Env) (m : idempotency.Manager) (w : World)
    (delivery : domain.Delivery) : World :=
  (m.Do (Notify.idempotencyKey delivery) (10 * Minute) (Notify.fn env delivery) w).2

/-- Go `(*notifierUseCase).Notify`, for a notifier whose manager is `m`. -/
def Notify (env : Env) (m : idempotency.Manager) (w : World) : Option Error × World :=
  match PostgresStore.ListPendingDeliveries env w with
  | ((_, some err), w1) =>
    (some (Error.wrap "NotifierUseCase.Notify: failed to list pending deliveries: " err), w1)
  | ((deliveries, none), w1) =>
    if deliveries.length = 0 then (none, w1)
    else (none, deliveries.foldl (Notify.body env m) w1)

end usecase

/-! ## cmd/worker -/

namespace worker

/-- The manager built in `main`: `idempotency.NewManager` over the Redis storage. -/
def idempotencyManager (env : Env) : idempotency.Manager :=
  idempotency.NewManager (persistence.NewRedisIdempotencyStorage env)

end worker

/-! ## Observations on worlds and traces -/

/-- The two worlds hold the same tables and the same Redis keys. -/
def World.sameStores (a b : World) : Prop :=
  a.users = b.users ∧ a.repos = b.repos ∧ a.subscriptions = b.subscriptions ∧
  a.releases = b.releases ∧ a.deliveries = b.deliveries ∧ a.redis = b.redis

/-- The messages that `bot.Send` delivered among the events `tr`, the first of which is at
position `k` of the trace: the `botSend` events whose call returned no error. -/
def sentFrom (env : Env) : Nat → List Event → List (String × String)
  | _, [] => []
  | k, Event.botSend chatID text :: tr =>
    if (env.botSend k).isNone then (chatID, text) :: sentFrom env (k + 1) tr
    else sentFrom env (k + 1) tr
  | k, _ :: tr => sentFrom env (k + 1) tr

/-- The messages delivered in the whole trace of a world. -/
def World.sent (env : Env) (w : World) : List (String × String) :=
  sentFrom env 0 w.trace

/-! ## The retry policy as the specification words it

The specification describes `retry.Do` call by call: the first call is made at once;
before each later call the policy sleeps for the current delay, then doubles it.  The
definitions below follow these words; the theorems compare them with the loop of the
code.  `logged` is an instrumentation of the retried function, used to count its calls
and to observe the world in which each call starts. -/

namespace retry

/-- The function `fn` with a log of its calls: each call appends to the log the world in
which it starts, and is otherwise the call of `fn`. -/
def logged {α : Type} (fn : α → World → Option Error × α × World) :
    List World × α → World → Option Error × (List World × α) × World :=
  fun la w => ((fn la.2 w).1, (la.1 ++ [w], (fn la.2 w).2.1), (fn la.2 w).2.2)

namespace Spec

/-- The delay after `j` doublings of the base delay, in 64-bit arithmetic: the sleep before
call number `j + 2`. -/
def delay (sleep : Duration) : Nat → Duration
  | 0 => sleep
  | j + 1 => wrapInt64 (delay sleep j * 2)

/-- The outcome of call number `j + 1` of `fn` (error, captured variables, world) when every
earlier call has failed: the first call is made at once, each later one after a sleep of
the current delay in the world the call before it left. -/
def call {α : Type} (fn : α → World → Option Error × α × World) (sleep : Duration) (a : α)
    (w : World) : Nat → Option Error × α × World
  | 0 => fn a w
  | j + 1 => fn (call fn sleep a w j).2.1
      (time.Sleep (delay sleep j) (call fn sleep a w j).2.2)

/-- The world in which call number `j + 1` starts. -/
def start {α : Type} (fn : α → World → Option Error × α × World) (sleep : Duration) (a : α)
    (w : World) : Nat → World
  | 0 => w
  | j + 1 => time.Sleep (delay sleep j) (call fn sleep a w j).2.2

end Spec

end retry

/-- The durations of the sleeps among the events `tr`, in order. -/
def sleeps : List Event → List Duration
  | [] => []
  | Event.sleep d :: tr => d :: sleeps tr
  | _ :: tr => sleeps tr

/-- The key is held in Redis: it is present and has not expired.  This is the test made by
`RedisIdempotencyStorage.CheckAndSet`. -/
def World.holds (w : World) (key : String) : Bool :=
  w.redis.any (fun e => e.1 == key && (match e.2 with
    | none => true
    | some t => decide (w.now < t)))

/-- The repos passed to `UpdateRepo` among the events `tr`, in order. -/
def repoWrites : List Event → List domain.Repo
  | [] => []
  | Event.updateRepo r :: tr => r :: repoWrites tr
  | _ :: tr => repoWrites tr

/-- The repositories asked of the GitHub API among the events `tr`, in order. -/
def apiCalls : List Event → List (String × String)
  | [] => []
  | Event.apiGetLatestRelease owner repo :: tr => (owner, repo) :: apiCalls tr
  | _ :: tr => apiCalls tr

/-- The period of the poller loop in `main`: the default of `POLLER_INTERVAL_MINUTES`, five
minutes.  `PollReleases` itself never reads it. -/
def worker.pollerInterval : Duration := 5 * Minute

/-- The idempotency claims attempted among the events `tr`: the key and the time to live
of every `SETNX`, in order. -/
def guardCalls : List Event → List (String × Duration)
  | [] => []
  | Event.setNX key ttl :: tr => (key, ttl) :: guardCalls tr
  | _ :: tr => guardCalls tr

/-- The status updates issued among the events `tr`: the id and the status passed to every
`UpdateDeliveryStatus`, in order. -/
def statusWrites : List Event → List (UUID × String)
  | [] => []
  | Event.updateDeliveryStatus id status _ _ :: tr => (id, status) :: statusWrites tr
  | _ :: tr => statusWrites tr

/-- The statuses other than pending: sent, failed, skipped. -/
def terminalStatus (s : String) : Prop :=
  s = "sent" ∨ s = "failed" ∨ s = "skipped"

/-- The four statuses of a delivery: pending, sent, failed, skipped. -/
def knownStatus (s : String) : Prop :=
  s = "pending" ∨ terminalStatus s

/-- The world `b` was reached from `a` by steps that touch no store, claim no key and
update no status, the clock never going back: lookups, sends and sleeps. -/
def World.quiet (a b : World) : Prop :=
  b.sameStores a ∧ guardCalls b.trace = guardCalls a.trace ∧
  statusWrites b.trace = statusWrites a.trace ∧ a.now ≤ b.now

/-- The deliveries of `b` are those of `a` followed by newly created rows, all of them
pending. -/
def World.addsPending (a b : World) : Prop :=
  ∃ created : List domain.Delivery,
    b.deliveries = a.deliveries ++ created ∧ ∀ x ∈ created, x.Status = "pending"

instance terminalStatus.decidable (s : String) : Decidable (terminalStatus s) := by
  unfold terminalStatus
  exact inferInstance

instance knownStatus.decidable (s : String) : Decidable (knownStatus s) := by
  unfold knownStatus
  exact inferInstance

/-! ## Concrete worlds

A small store used to evaluate the definitions: the repo `acme/widget` with validator
"v1", one user subscribed to it on one channel, and an outside world in which nothing
fails.  The stand-in for the hash is the identity, which is injective. -/

namespace Example

def uuidOf (n : Nat) : UUID :=
  ⟨⟨n % 2 ^ 128, Nat.mod_lt _ (Nat.pos_of_ne_zero (by decide))⟩⟩

def user : domain.User :=
  { ID := uuidOf 3, Email := "dev@example.com", CreatedAt := 0, UpdatedAt := 0 }

def repo : domain.Repo :=
  { ID := uuidOf 7, UserID := uuid.Nil, Owner := "acme", Name := "widget", ETag := "v1",
    LastCheckedAt := 0, CreatedAt := 0, UpdatedAt := 0 }

def subscription : domain.Subscription :=
  { ID := uuidOf 9, RepoID := uuidOf 7, UserID := uuidOf 3, Channel := "chan",
    CreatedAt := 0, UpdatedAt := 0 }

def world : World :=
  { users := [user], repos := [repo], subscriptions := [subscription], releases := [],
    deliveries := [], redis := [], now := 100, trace := [] }

def upstream : github.Release :=
  { Tag := "2.0.0", Title := "title", URL := "url", PublishedAt := 5, Body := "notes" }

/-- Nothing fails; the API always answers with `upstream` and the validator "v2". -/
def env : Env :=
  { sha256hex := fun s => s, uuid := fun k => uuidOf (1000 + k), db := fun _ => none,
    redis := fun _ => none,
    api := fun _ _ _ =>
      { rel := some upstream, resp := some { StatusCode := 200, Etag := "v2" }, err := none },
    botSend := fun _ => none }

/-- The world in which the release source has just been asked about `acme/widget`. -/
def asked : World :=
  (world.emit (Event.listRepos uuid.Nil)).emit (Event.apiGetLatestRelease "acme" "widget")

/-- The API answers 304 with an error, as go-github does for a not-modified response. -/
def envNotModified : Env :=
  { env with api := fun _ _ _ =>
      { rel := none, resp := some { StatusCode := 304, Etag := "" },
        err := some { text := "304 Not Modified", notFound := false } } }

def contentA : github.Release :=
  { Tag := "1", Title := "1y", URL := "u", PublishedAt := 5, Body := "x" }

def contentB : github.Release :=
  { Tag := "1", Title := "y", URL := "u", PublishedAt := 5, Body := "x1" }

/-- The API answers with `contentA` at the first poll and with `contentB` afterwards. -/
def envAB : Env :=
  { env with api := fun k _ _ =>
      { rel := some (if k < 5 then contentA else contentB),
        resp := some { StatusCode := 200, Etag := "v2" }, err := none } }

def release : domain.Release :=
  { ID := uuidOf 60, RepoID := uuidOf 7, Tag := "2.0.0", Title := "title", URL := "url",
    PublishedAt := 5, Hash := "notes2.0.0titleurl", CreatedAt := 50, UpdatedAt := 50 }

def delivery : domain.Delivery :=
  { ID := uuidOf 50, ReleaseID := uuidOf 60, UserID := uuidOf 3, Channel := "chan",
    Status := "pending", Attempt := 0, LastError := "", CreatedAt := 60, UpdatedAt := 60 }

/-- A pending delivery whose release and user are stored. -/
def notifyWorld : World :=
  { world with releases := [release], deliveries := [delivery] }

/-- A pending delivery whose release is not stored. -/
def orphanWorld : World :=
  { world with releases := [], deliveries := [delivery] }

/-- The world `w` in which the idempotency key of `delivery` is held for another 900
nanoseconds. -/
def held (w : World) : World :=
  { w with redis := [(usecase.Notify.idempotencyKey delivery, some 1000)] }

/-- The world after the idempotency key of `delivery` has been claimed in `w`. -/
def claimed (w : World) : World :=
  (persistence.RedisIdempotencyStorage.CheckAndSet env (usecase.Notify.idempotencyKey delivery)
    (10 * Minute) w).2

def sendError : Error := { text := "chat not found", notFound := false }

/-- Every `bot.Send` fails. -/
def envSendFails : Env :=
  { env with botSend := fun _ => some sendError }

/-- A closure that would leave a mark in the trace if it were run. -/
def mark (w : World) : Option Error × World :=
  (some { text := "ran", notFound := false }, w.emit Event.txBegin)

/-- The world in which, after the key of `delivery` has been claimed in `w` and the marking
closure has run under it, another key has been claimed. -/
def later (w : World) : World :=
  (persistence.RedisIdempotencyStorage.CheckAndSet env "notify:other" (10 * Minute)
    (mark (claimed w)).2).2

/-- A retried function that fails at each call and leaves the world alone. -/
def failing (_ : Unit) (w : World) : Option Error × Unit × World :=
  (some sendError, (), w)

/-- A retried closure that counts its calls in its captured variable, leaves a mark in the
trace at each call, fails at the first two calls and succeeds at the third. -/
def thirdTime (calls : Nat) (w : World) : Option Error × Nat × World :=
  (if calls < 2 then some sendError else none, calls + 1, w.emit Event.txBegin)

/-- Redis fails at the command issued at position 1 of the trace and works otherwise. -/
def envRedisDownOnce : Env :=
  { env with redis := fun k =>
      if k = 1 then some { text := "connection refused", notFound := false } else none }

def dbError : Error := { text := "connection reset", notFound := false }

/-- The database statement issued at position `k` of the trace fails, the others work. -/
def envDbFailsAt (k : Nat) : Env :=
  { env with db := fun j => if j = k then some dbError else none }

def gadget : domain.Repo :=
  { ID := uuidOf 8, UserID := uuid.Nil, Owner := "acme", Name := "gadget", ETag := "g1",
    LastCheckedAt := 0, CreatedAt := 0, UpdatedAt := 0 }

/-- Ten minutes after both repos were last checked: `acme/widget` and `acme/gadget` are due. -/
def twoDue : World :=
  { world with repos := [repo, gadget], now := 10 * Minute }

/-- The only repo was checked one minute ago: it is not due. -/
def notDue : World :=
  { world with repos := [{ repo with LastCheckedAt := 9 * Minute }], now := 10 * Minute }

/-- The only repo belongs to the example user, as a repo added through `AddRepo` does, and
is due. -/
def owned : World :=
  { world with repos := [{ repo with UserID := user.ID }], now := 10 * Minute }

/-- A second pending delivery of `release`, to the same user on another channel. -/
def second : domain.Delivery :=
  { delivery with ID := uuidOf 51, Channel := "other" }

/-- Two pending deliveries whose release and user are stored. -/
def twoPending : World :=
  { world with releases := [release], deliveries := [delivery, second] }

/-- An older release row of `acme/widget` with the tag of `upstream`: another hash, an
earlier creation time, and an id below that of `release` and below every id the
example environment draws. -/
def older : domain.Release :=
  { release with ID := uuidOf 59, Hash := "old", CreatedAt := 10, UpdatedAt := 10 }

/-- The tag 2.0.0 of `acme/widget` has two rows: `older`, then the more recent `release`,
whose hash is that of `upstream`. -/
def tagReused : World :=
  { world with releases := [older, release] }

/-- The same two rows when the older one has the greater id. -/
def tagReusedGreaterId : World :=
  { world with releases := [{ older with ID := uuidOf 61 }, release] }

/-- Only the older row is stored for the tag 2.0.0 of `acme/widget`. -/
def tagSeen : World :=
  { world with releases := [older] }

/-- One pending delivery and one already sent, with different ids. -/
def oneSent : World :=
  { world with releases := [release],
               deliveries := [delivery, { second with Status := "sent", Attempt := 1 }] }

/-- A second pending delivery with the release, the user and the channel of `delivery`,
under another id. -/
def duplicate : domain.Delivery :=
  { delivery with ID := uuidOf 52 }

/-- The pending delivery number `i` of a long queue: the release and the user of
`delivery`, a channel of its own (the letter q written `i + 1` times). -/
def queued (i : Nat) : domain.Delivery :=
  { delivery with ID := uuidOf (200 + i), Channel := String.mk (List.replicate (i + 1) 'q') }

/-- The pending deliveries are `delivery`, then `n` others, then `duplicate`. -/
def queue (n : Nat) : World :=
  { world with releases := [release],
               deliveries := delivery :: (List.range n).map queued ++ [duplicate] }

end Example

/-! # Theorems -/

open usecase persistence

/-! ## Frame lemmas -/

@[simp] theorem World.emit_trace (w : World) (e : Event) : (w.emit e).trace = w.trace ++ [e] := rfl

@[simp] theorem World.emit_releases (w : World) (e : Event) : (w.emit e).releases = w.releases := rfl

@[simp] theorem World.emit_deliveries (w : World) (e : Event) :
    (w.emit e).deliveries = w.deliveries := rfl

@[simp] theorem World.emit_repos (w : World) (e : Event) : (w.emit e).repos = w.repos := rfl

@[simp] theorem World.emit_users (w : World) (e : Event) : (w.emit e).users = w.users := rfl

@[simp] theorem World.emit_subscriptions (w : World) (e : Event) :
    (w.emit e).subscriptions = w.subscriptions := rfl

@[simp] theorem World.emit_redis (w : World) (e : Event) : (w.emit e).redis = w.redis := rfl

@[simp] theorem World.emit_now (w : World) (e : Event) : (w.emit e).now = w.now := rfl

/-- What one iteration of the enqueue loop leaves alone. -/
theorem enqueue_body_frame (env : Env) (release : domain.Release) (w : World)
    (sub : domain.Subscription) :
    (EnqueueDeliveries.body env release w sub).releases = w.releases ∧
    (EnqueueDeliveries.body env release w sub).repos = w.repos ∧
    (EnqueueDeliveries.body env release w sub).users = w.users ∧
    (EnqueueDeliveries.body env release w sub).subscriptions = w.subscriptions ∧
    (EnqueueDeliveries.body env release w sub).redis = w.redis ∧
    (EnqueueDeliveries.body env release w sub).now = w.now := by
  unfold EnqueueDeliveries.body PostgresStore.CreateDelivery
  simp only [uuid.New]
  split <;> simp

theorem enqueue_loop_frame (env : Env) (release : domain.Release)
    (subs : List domain.Subscription) (w : World) :
    (subs.foldl (EnqueueDeliveries.body env release) w).releases = w.releases ∧
    (subs.foldl (EnqueueDeliveries.body env release) w).repos = w.repos ∧
    (subs.foldl (EnqueueDeliveries.body env release) w).users = w.users ∧
    (subs.foldl (EnqueueDeliveries.body env release) w).subscriptions = w.subscriptions ∧
    (subs.foldl (EnqueueDeliveries.body env release) w).redis = w.redis ∧
    (subs.foldl (EnqueueDeliveries.body env release) w).now = w.now := by
  induction subs generalizing w with
  | nil => simp
  | cons s t ih =>
    have h := enqueue_body_frame env release w s
    have h2 := ih (EnqueueDeliveries.body env release w s)
    simp only [List.foldl_cons]
    refine ⟨h2.1.trans h.1, h2.2.1.trans h.2.1, h2.2.2.1.trans h.2.2.1,
      h2.2.2.2.1.trans h.2.2.2.1, h2.2.2.2.2.1.trans h.2.2.2.2.1,
      h2.2.2.2.2.2.trans h.2.2.2.2.2⟩

theorem enqueue_frame (env : Env) (release : domain.Release) (w : World) :
    (EnqueueDeliveries env release w).2.releases = w.releases ∧
    (EnqueueDeliveries env release w).2.repos = w.repos ∧
    (EnqueueDeliveries env release w).2.users = w.users ∧
    (EnqueueDeliveries env release w).2.subscriptions = w.subscriptions ∧
    (EnqueueDeliveries env release w).2.redis = w.redis ∧
    (EnqueueDeliveries env release w).2.now = w.now := by
  unfold EnqueueDeliveries PostgresStore.ListSubscriptionsByRepoID
  split
  · rename_i h
    split at h
    · cases h; simp
    · cases h
  · rename_i h
    split at h
    · cases h
    · cases h
      simpa using enqueue_loop_frame env release _ (w.emit (Event.listSubscriptionsByRepoID release.RepoID))

/-! ## EnqueueDeliveries and Manager.Do -/

/-- The deliveries appended by the enqueue loop, one per subscription, in order. -/
theorem enqueue_loop_deliveries (env : Env) (release : domain.Release)
    (hdb : ∀ k, env.db k = none) (subs : List domain.Subscription) (w : World) :
    ∃ ds : List domain.Delivery,
      (subs.foldl (EnqueueDeliveries.body env release) w).deliveries = w.deliveries ++ ds ∧
      List.Forall₂ (fun d s => d.ReleaseID = release.ID ∧ d.UserID = s.UserID ∧
        d.Channel = s.Channel ∧ d.Status = "pending" ∧ d.Attempt = 0) ds subs := by
  induction subs generalizing w with
  | nil => exact ⟨[], by simp⟩
  | cons s t ih =>
    obtain ⟨ds, h1, h2⟩ := ih (EnqueueDeliveries.body env release w s)
    refine ⟨EnqueueDeliveries.delivery env release w s :: ds, ?_, List.Forall₂.cons ?_ h2⟩
    · rw [List.foldl_cons, h1]
      simp [EnqueueDeliveries.body, PostgresStore.CreateDelivery, hdb, uuid.New]
    · simp [EnqueueDeliveries.delivery]

/-- C5. For every release and world, when no database statement fails, `EnqueueDeliveries`
returns nil and appends to the deliveries table exactly one row per subscription of
the release's repo (in the order listed) and nothing else; each new row carries the
release's id, the subscription's user and channel, status "pending" and attempt 0. -/
theorem C5_enqueue_one_pending_delivery_per_subscription (env : Env)
    (release : domain.Release) (w : World) (hdb : ∀ k, env.db k = none) :
    (EnqueueDeliveries env release w).1 = none ∧
    ∃ ds : List domain.Delivery,
      (EnqueueDeliveries env release w).2.deliveries = w.deliveries ++ ds ∧
      List.Forall₂ (fun d s => d.ReleaseID = release.ID ∧ d.UserID = s.UserID ∧
        d.Channel = s.Channel ∧ d.Status = "pending" ∧ d.Attempt = 0) ds
        (w.subscriptions.filter (fun s => s.RepoID == release.RepoID)) := by
  obtain ⟨ds, h1, h2⟩ := enqueue_loop_deliveries env release hdb
    (w.subscriptions.filter (fun s => s.RepoID == release.RepoID))
    (w.emit (Event.listSubscriptionsByRepoID release.RepoID))
  refine ⟨?_, ds, ?_, h2⟩
  · simp [EnqueueDeliveries, PostgresStore.ListSubscriptionsByRepoID, hdb]
  · simpa [EnqueueDeliveries, PostgresStore.ListSubscriptionsByRepoID, hdb] using h1

/-- C10. If `CheckAndSet` reports that the key was not claimed (false, no error),
`Manager.Do` returns nil and the world is the one `CheckAndSet` left, whatever `fn`
is: `fn` is not run. -/
theorem C10_do_not_claimed_returns_nil (m : idempotency.Manager) (key : String)
    (ttl : Duration) (fn : World → Option Error × World) (w w1 : World)
    (h : m.storage.CheckAndSet key ttl w = ((false, none), w1)) :
    m.Do key ttl fn w = (none, w1) := by
  simp [idempotency.Manager.Do, h]

/-! ## The retry loop and the adapters touch no store -/

theorem World.sameStores_refl (w : World) : w.sameStores w :=
  ⟨rfl, rfl, rfl, rfl, rfl, rfl⟩

theorem World.sameStores_trans {a b c : World} (h1 : a.sameStores b) (h2 : b.sameStores c) :
    a.sameStores c :=
  ⟨h1.1.trans h2.1, h1.2.1.trans h2.2.1, h1.2.2.1.trans h2.2.2.1, h1.2.2.2.1.trans h2.2.2.2.1,
    h1.2.2.2.2.1.trans h2.2.2.2.2.1, h1.2.2.2.2.2.trans h2.2.2.2.2.2⟩

theorem World.sameStores_emit (w : World) (e : Event) : (w.emit e).sameStores w :=
  ⟨rfl, rfl, rfl, rfl, rfl, rfl⟩

theorem time_Sleep_sameStores (d : Duration) (w : World) : (time.Sleep d w).sameStores w :=
  ⟨rfl, rfl, rfl, rfl, rfl, rfl⟩

/-- The retry loop touches no store when the retried function touches none. -/
theorem retry_loop_sameStores {α : Type} (fn : α → World → Option Error × α × World)
    (hfn : ∀ a w, (fn a w).2.2.sameStores w) (n i : Nat) (sleep : Duration)
    (err : Option Error) (a : α) (w : World) :
    (retry.loop fn n i sleep err a w).2.2.sameStores w := by
  induction n generalizing i sleep err a w with
  | zero => exact World.sameStores_refl w
  | succ n ih =>
    unfold retry.loop
    have hw1 : (if 0 < i then time.Sleep sleep w else w).sameStores w := by
      split
      · exact time_Sleep_sameStores sleep w
      · exact World.sameStores_refl w
    have h2 := hfn a (if 0 < i then time.Sleep sleep w else w)
    simp only []
    split
    · rename_i heq
      rw [heq] at h2
      exact World.sameStores_trans h2 hw1
    · rename_i heq
      rw [heq] at h2
      exact World.sameStores_trans (ih _ _ _ _ _) (World.sameStores_trans h2 hw1)

theorem github_fn_sameStores (env : Env) (owner repo : String)
    (cap : Option github.Release × String) (w : World) :
    (github.githubClient.GetLatestRelease.fn env owner repo cap w).2.2.sameStores w := by
  unfold github.githubClient.GetLatestRelease.fn
  simp only []
  split
  · split
    · split <;> exact World.sameStores_emit _ _
    · exact World.sameStores_emit _ _
  · exact World.sameStores_emit _ _

/-- The GitHub adapter touches no store. -/
theorem getLatestRelease_sameStores (env : Env) (owner repo etag : String) (w : World) :
    (github.githubClient.GetLatestRelease env owner repo etag w).2.sameStores w := by
  have h := retry_loop_sameStores (github.githubClient.GetLatestRelease.fn env owner repo)
    (github_fn_sameStores env owner repo) (3 : Int).toNat 0 (2 * Second) none (none, "") w
  unfold github.githubClient.GetLatestRelease retry.Do
  split
  · rename_i heq
    rw [heq] at h
    exact h
  · rename_i heq
    rw [heq] at h
    exact h

/-- When the API answers with a release and no error, the adapter returns it at the first
attempt, with the `Etag` header of the response. -/
theorem getLatestRelease_ok (env : Env) (owner repo etag : String) (w : World)
    (gr : github.Release) (hrel : (env.api w.trace.length owner repo).rel = some gr)
    (herr : (env.api w.trace.length owner repo).err = none) :
    github.githubClient.GetLatestRelease env owner repo etag w =
      ((some gr, (match (env.api w.trace.length owner repo).resp with
          | some resp => resp.Etag
          | none => ""), none), w.emit (Event.apiGetLatestRelease owner repo)) := by
  simp [github.githubClient.GetLatestRelease, retry.Do, retry.loop,
    github.githubClient.GetLatestRelease.fn, hrel, herr]

/-! ## Selection and write-back of the polled repo -/

theorem leastBy_mem {α : Type} (key : α → Nat) (l : List α) (a : α)
    (h : leastBy key l = some a) : a ∈ l := by
  induction l generalizing a with
  | nil => simp [leastBy] at h
  | cons x t ih =>
    unfold leastBy at h
    cases hl : leastBy key t with
    | none =>
      rw [hl] at h
      cases h
      simp
    | some b =>
      rw [hl] at h
      simp only [] at h
      split at h
      · cases h; exact List.mem_cons_of_mem _ (ih _ hl)
      · cases h; simp

/-- Under a working database the selection of the repo to poll is the first repo listed
for the nil user id. -/
theorem pollReleases_selects (env : Env) (w : World) (repo : domain.Repo)
    (rest : List domain.Repo) (hdb : ∀ k, env.db k = none)
    (hrepo : w.repos.filter (fun r => r.UserID == uuid.Nil) = repo :: rest) :
    PollReleases env w = PollReleases.poll env repo (w.emit (Event.listRepos uuid.Nil)) := by
  simp [PollReleases, PostgresStore.ListRepos, hdb, hrepo, PollReleases.stub]

/-- The statement `UpdateRepo` fails exactly when the driver fails. -/
theorem updateRepo_fst (env : Env) (repo : domain.Repo) (w : World) :
    (PostgresStore.UpdateRepo env repo w).1 = env.db w.trace.length := by
  unfold PostgresStore.UpdateRepo
  cases env.db w.trace.length with
  | some err => rfl
  | none =>
    simp only []
    split
    · rfl
    · split <;> rfl

/-- The statement `UpdateRepo` changes the repos table only and adds one event. -/
theorem updateRepo_frame (env : Env) (repo : domain.Repo) (w : World) :
    (PostgresStore.UpdateRepo env repo w).2.releases = w.releases ∧
    (PostgresStore.UpdateRepo env repo w).2.deliveries = w.deliveries ∧
    (PostgresStore.UpdateRepo env repo w).2.now = w.now ∧
    (PostgresStore.UpdateRepo env repo w).2.trace = w.trace ++ [Event.updateRepo repo] := by
  unfold PostgresStore.UpdateRepo
  cases env.db w.trace.length with
  | some err => exact ⟨rfl, rfl, rfl, rfl⟩
  | none =>
    simp only []
    split
    · exact ⟨rfl, rfl, rfl, rfl⟩
    · split <;> exact ⟨rfl, rfl, rfl, rfl⟩

theorem finish_snd (env : Env) (repo : domain.Repo) (newETag : String) (w : World) :
    (PollReleases.finish env repo newETag w).2 =
      (PostgresStore.UpdateRepo env (PollReleases.written repo newETag w) w).2 := by
  unfold PollReleases.finish
  split <;> rename_i h <;> rw [h]

theorem finish_fst (env : Env) (repo : domain.Repo) (newETag : String) (w : World)
    (hdb : env.db w.trace.length = none) :
    (PollReleases.finish env repo newETag w).1 = none := by
  have h := updateRepo_fst env (PollReleases.written repo newETag w) w
  rw [hdb] at h
  unfold PollReleases.finish
  split
  · rename_i h2
    rw [h2] at h
    cases h
  · rfl

/-! ## Detection of a new release -/

/-- The lookup finds no release with the computed hash: a release is created and its
deliveries are enqueued. -/
theorem detect_new (env : Env) (repo : domain.Repo) (gr : github.Release) (w : World)
    (hdb : ∀ k, env.db k = none)
    (hnew : ∀ r ∈ w.releases, r.RepoID = repo.ID → r.Tag = gr.Tag →
      r.Hash ≠ env.sha256hex (gr.Body ++ gr.Tag ++ gr.Title ++ gr.URL)) :
    PollReleases.detect env repo (some gr) w =
      (none, (EnqueueDeliveries env
        (PollReleases.newRelease env repo gr (w.emit (Event.getReleaseByRepoIDAndTag repo.ID gr.Tag)))
        (PostgresStore.CreateRelease env
          (PollReleases.newRelease env repo gr
            (w.emit (Event.getReleaseByRepoIDAndTag repo.ID gr.Tag)))
          (uuid.New env (w.emit (Event.getReleaseByRepoIDAndTag repo.ID gr.Tag))).2).2).2) := by
  have hall : (leastBy (fun r : domain.Release => r.ID.val.val)
      (w.releases.filter (fun r => r.RepoID == repo.ID && r.Tag == gr.Tag))).all
      (fun e => e.Hash != env.sha256hex (gr.Body ++ gr.Tag ++ gr.Title ++ gr.URL)) = true := by
    cases hl : leastBy (fun r : domain.Release => r.ID.val.val)
      (w.releases.filter (fun r => r.RepoID == repo.ID && r.Tag == gr.Tag)) with
    | none => rfl
    | some e =>
      have hm := leastBy_mem _ _ _ hl
      simp only [List.mem_filter, Bool.and_eq_true, beq_iff_eq] at hm
      simpa using hnew e hm.1 hm.2.1 hm.2.2
  simp only [PollReleases.detect, PostgresStore.GetReleaseByRepoIDAndTag, hdb, Option.any_none,
    Bool.false_eq_true, if_false, hall, if_true, PostgresStore.CreateRelease]

/-- Creating a release appends it to the releases table. -/
theorem createRelease_ok (env : Env) (release : domain.Release) (w : World)
    (hdb : ∀ k, env.db k = none) :
    (PostgresStore.CreateRelease env release w).2.releases = w.releases ++ [release] ∧
    (PostgresStore.CreateRelease env release w).2.deliveries = w.deliveries ∧
    (PostgresStore.CreateRelease env release w).2.trace =
      w.trace ++ [Event.createRelease release] := by
  simp [PostgresStore.CreateRelease, hdb]

/-- When the polled repo's release source returns a release `gr` and no stored release of
the repo with that tag has the hash of `gr`, `PollReleases` persists exactly one new
release: repo id of the polled repo, tag, title, URL and publication time copied from
`gr`, hash the hex SHA-256 of body ++ tag ++ title ++ url; it then runs
`EnqueueDeliveries` on that release, and writes the repo back. -/
theorem pollReleases_new (env : Env) (w w1 : World)
    (repo : domain.Repo) (rest : List domain.Repo) (gr : github.Release) (newETag : String)
    (hdb : ∀ k, env.db k = none)
    (hrepo : w.repos.filter (fun r => r.UserID == uuid.Nil) = repo :: rest)
    (hsrc : github.githubClient.GetLatestRelease env repo.Owner repo.Name repo.ETag
      (w.emit (Event.listRepos uuid.Nil)) = ((some gr, newETag, none), w1))
    (hnew : ∀ r ∈ w.releases, r.RepoID = repo.ID → r.Tag = gr.Tag →
      r.Hash ≠ env.sha256hex (gr.Body ++ gr.Tag ++ gr.Title ++ gr.URL)) :
    ∃ (newRelease : domain.Release) (wc : World),
      newRelease.RepoID = repo.ID ∧ newRelease.Tag = gr.Tag ∧ newRelease.Title = gr.Title ∧
      newRelease.URL = gr.URL ∧ newRelease.PublishedAt = gr.PublishedAt ∧
      newRelease.Hash = env.sha256hex (gr.Body ++ gr.Tag ++ gr.Title ++ gr.URL) ∧
      wc.releases = w.releases ++ [newRelease] ∧
      wc.deliveries = w.deliveries ∧
      wc.repos = w.repos ∧
      wc.trace = w1.trace ++ [Event.getReleaseByRepoIDAndTag repo.ID gr.Tag,
        Event.uuidNew newRelease.ID, Event.createRelease newRelease] ∧
      PollReleases env w =
        PollReleases.finish env repo newETag (EnqueueDeliveries env newRelease wc).2 ∧
      (PollReleases env w).2.releases = w.releases ++ [newRelease] := by
  have hs := getLatestRelease_sameStores env repo.Owner repo.Name repo.ETag
    (w.emit (Event.listRepos uuid.Nil))
  rw [hsrc] at hs
  have hrel : w1.releases = w.releases := hs.2.2.2.1
  have hdel : w1.deliveries = w.deliveries := hs.2.2.2.2.1
  have hrep : w1.repos = w.repos := hs.2.1
  have hnew1 : ∀ r ∈ w1.releases, r.RepoID = repo.ID → r.Tag = gr.Tag →
      r.Hash ≠ env.sha256hex (gr.Body ++ gr.Tag ++ gr.Title ++ gr.URL) := by
    rw [hrel]; exact hnew
  have hd := detect_new env repo gr w1 hdb hnew1
  have hc := createRelease_ok env
    (PollReleases.newRelease env repo gr (w1.emit (Event.getReleaseByRepoIDAndTag repo.ID gr.Tag)))
    (uuid.New env (w1.emit (Event.getReleaseByRepoIDAndTag repo.ID gr.Tag))).2 hdb
  have hpoll : PollReleases env w = PollReleases.finish env repo newETag
      (EnqueueDeliveries env
        (PollReleases.newRelease env repo gr (w1.emit (Event.getReleaseByRepoIDAndTag repo.ID gr.Tag)))
        (PostgresStore.CreateRelease env
          (PollReleases.newRelease env repo gr
            (w1.emit (Event.getReleaseByRepoIDAndTag repo.ID gr.Tag)))
          (uuid.New env (w1.emit (Event.getReleaseByRepoIDAndTag repo.ID gr.Tag))).2).2).2 := by
    rw [pollReleases_selects env w repo rest hdb hrepo]
    simp only [PollReleases.poll, hsrc, hd]
  refine ⟨_, _, rfl, rfl, rfl, rfl, rfl, rfl, ?_, ?_, ?_, ?_, hpoll, ?_⟩
  · rw [hc.1]; simp [uuid.New, hrel]
  · rw [hc.2.1]; simp [uuid.New, hdel]
  · simp [PostgresStore.CreateRelease, hdb, uuid.New, hrep]
  · rw [hc.2.2]; simp [uuid.New, PollReleases.newRelease]
  · rw [hpoll, (finish_snd _ _ _ _), (updateRepo_frame _ _ _).1, (enqueue_frame _ _ _).1, hc.1]
    simp [uuid.New, hrel]

/-! ## Detection of a release already seen -/

/-- The lookup finds a release with the computed hash: nothing is created. -/
theorem detect_seen (env : Env) (repo : domain.Repo) (gr : github.Release) (w : World)
    (e : domain.Release) (hdb : ∀ k, env.db k = none)
    (hl : leastBy (fun r : domain.Release => r.ID.val.val)
      (w.releases.filter (fun r => r.RepoID == repo.ID && r.Tag == gr.Tag)) = some e)
    (hh : e.Hash = env.sha256hex (gr.Body ++ gr.Tag ++ gr.Title ++ gr.URL)) :
    PollReleases.detect env repo (some gr) w =
      (none, w.emit (Event.getReleaseByRepoIDAndTag repo.ID gr.Tag)) := by
  simp [PollReleases.detect, PostgresStore.GetReleaseByRepoIDAndTag, hdb, hl, hh]

theorem filter_update_head (p : domain.Repo → Bool) (repo row : domain.Repo)
    (hrow : p row = true) (l : List domain.Repo) (rest : List domain.Repo)
    (h : l.filter p = repo :: rest) :
    ∃ rest2, (l.map (fun r => if r.ID = repo.ID then row else r)).filter p = row :: rest2 := by
  induction l with
  | nil => simp at h
  | cons a t ih =>
    by_cases ha : a.ID = repo.ID
    · exact ⟨(t.map (fun r => if r.ID = repo.ID then row else r)).filter p, by simp [ha, hrow]⟩
    · by_cases hp : p a = true
      · rw [List.filter_cons_of_pos hp] at h
        have : a = repo := (List.cons.inj h).1
        exact absurd (by rw [this]) ha
      · rw [List.filter_cons_of_neg hp] at h
        obtain ⟨rest2, h2⟩ := ih h
        exact ⟨rest2, by simp [ha, hp, h2]⟩

/-- After the repo is written back, the first repo listed for the nil user id is still a
row of the same repo: same id, owner and name. -/
theorem updateRepo_head (env : Env) (repo row : domain.Repo) (rest : List domain.Repo)
    (w : World) (hrepo : w.repos.filter (fun r => r.UserID == uuid.Nil) = repo :: rest)
    (hid : row.ID = repo.ID) (hu : row.UserID = repo.UserID) (ho : row.Owner = repo.Owner)
    (hn : row.Name = repo.Name) :
    ∃ r2 rest2, (PostgresStore.UpdateRepo env row w).2.repos.filter
        (fun r => r.UserID == uuid.Nil) = r2 :: rest2 ∧
      r2.ID = repo.ID ∧ r2.Owner = repo.Owner ∧ r2.Name = repo.Name := by
  have hmem : repo ∈ w.repos.filter (fun r => r.UserID == uuid.Nil) := by
    rw [hrepo]; simp
  have hnil : repo.UserID = uuid.Nil := by
    simpa using (List.mem_filter.mp hmem).2
  unfold PostgresStore.UpdateRepo
  cases env.db w.trace.length with
  | some err => exact ⟨repo, rest, hrepo, rfl, rfl, rfl⟩
  | none =>
    simp only []
    split
    · exact ⟨repo, rest ++ [row].filter (fun r => r.UserID == uuid.Nil),
        by simp [List.filter_append, hrepo], rfl, rfl, rfl⟩
    · split
      · have hrow : (fun r : domain.Repo => r.UserID == uuid.Nil)
            { row with UpdatedAt := time.Now w } = true := by
          simp [hu, hnil]
        obtain ⟨rest2, h2⟩ := filter_update_head (fun r => r.UserID == uuid.Nil) repo
          { row with UpdatedAt := time.Now w } hrow w.repos rest hrepo
        refine ⟨{ row with UpdatedAt := time.Now w }, rest2, ?_, hid, ho, hn⟩
        simpa [hid] using h2
      · exact ⟨repo, rest ++ [{ row with UpdatedAt := time.Now w }].filter
          (fun r => r.UserID == uuid.Nil), by simp [List.filter_append, hrepo], rfl, rfl, rfl⟩

/-! ## Two polls of unchanged content -/

/-- When the polled repo's release source returns a release whose hash is the hash of the
release found by the lookup, `PollReleases` creates no release and no delivery. -/
theorem pollReleases_seen (env : Env) (w : World) (repo : domain.Repo)
    (rest : List domain.Repo) (gr : github.Release) (e : domain.Release)
    (hdb : ∀ k, env.db k = none)
    (hrel : (env.api (w.trace.length + 1) repo.Owner repo.Name).rel = some gr)
    (herr : (env.api (w.trace.length + 1) repo.Owner repo.Name).err = none)
    (hrepo : w.repos.filter (fun r => r.UserID == uuid.Nil) = repo :: rest)
    (hl : leastBy (fun r : domain.Release => r.ID.val.val)
      (w.releases.filter (fun r => r.RepoID == repo.ID && r.Tag == gr.Tag)) = some e)
    (hh : e.Hash = env.sha256hex (gr.Body ++ gr.Tag ++ gr.Title ++ gr.URL)) :
    (PollReleases env w).1 = none ∧ (PollReleases env w).2.releases = w.releases ∧
    (PollReleases env w).2.deliveries = w.deliveries := by
  have hg := getLatestRelease_ok env repo.Owner repo.Name repo.ETag
    (w.emit (Event.listRepos uuid.Nil)) gr (by simpa using hrel) (by simpa using herr)
  have hd := detect_seen env repo gr
    ((w.emit (Event.listRepos uuid.Nil)).emit (Event.apiGetLatestRelease repo.Owner repo.Name))
    e hdb (by simpa using hl) hh
  rw [pollReleases_selects env w repo rest hdb hrepo]
  simp only [PollReleases.poll, hg, hd]
  refine ⟨finish_fst _ _ _ _ (hdb _), ?_, ?_⟩
  · rw [finish_snd, (updateRepo_frame _ _ _).1]; rfl
  · rw [finish_snd, (updateRepo_frame _ _ _).2.1]; rfl

/-- Two polls of a repo that is listed first for the nil user id.  Starting from a store
with no release for (repo, tag), with a working database and a release source that
answers every request for that repo with the same release, two runs of
`PollReleases` in succession both return nil and leave exactly one release row for
(repo, tag): the second run creates no release and no delivery. -/
theorem two_polls_of_listed_repo (env : Env) (w : World)
    (repo : domain.Repo) (rest : List domain.Repo) (gr : github.Release)
    (hdb : ∀ k, env.db k = none)
    (hapi : ∀ k, (env.api k repo.Owner repo.Name).rel = some gr ∧
      (env.api k repo.Owner repo.Name).err = none)
    (hrepo : w.repos.filter (fun r => r.UserID == uuid.Nil) = repo :: rest)
    (hnone : ∀ r ∈ w.releases, ¬ (r.RepoID = repo.ID ∧ r.Tag = gr.Tag)) :
    (PollReleases env w).1 = none ∧
    (PollReleases env (PollReleases env w).2).1 = none ∧
    ((PollReleases env (PollReleases env w).2).2.releases.filter
      (fun r => r.RepoID == repo.ID && r.Tag == gr.Tag)).length = 1 ∧
    (PollReleases env (PollReleases env w).2).2.releases = (PollReleases env w).2.releases ∧
    (PollReleases env (PollReleases env w).2).2.deliveries =
      (PollReleases env w).2.deliveries := by
  have hg := getLatestRelease_ok env repo.Owner repo.Name repo.ETag
    (w.emit (Event.listRepos uuid.Nil)) gr (hapi _).1 (hapi _).2
  obtain ⟨newRelease, wc, h1, h2, -, -, -, h6, h7, -, h8, -, h9, h10⟩ :=
    pollReleases_new env w _ repo rest gr _ hdb hrepo hg
      (fun r hr hid htag _ => hnone r hr ⟨hid, htag⟩)
  have hfilter : (w.releases ++ [newRelease]).filter
      (fun r => r.RepoID == repo.ID && r.Tag == gr.Tag) = [newRelease] := by
    rw [List.filter_append]
    have hnil : w.releases.filter (fun r => r.RepoID == repo.ID && r.Tag == gr.Tag) = [] := by
      rw [List.filter_eq_nil_iff]
      intro r hr
      simpa using fun hid => (fun htag => hnone r hr ⟨hid, htag⟩)
    rw [hnil]
    simp [h1, h2]
  -- the repo selected by the second run
  have hrepos : (EnqueueDeliveries env newRelease wc).2.repos.filter
      (fun r => r.UserID == uuid.Nil) = repo :: rest := by
    rw [(enqueue_frame _ _ _).2.1, h8]; exact hrepo
  obtain ⟨r2, rest2, hr2, hid2, ho2, hn2⟩ := updateRepo_head env repo
    (PollReleases.written repo
      (match (env.api (w.emit (Event.listRepos uuid.Nil)).trace.length repo.Owner repo.Name).resp
        with
        | some resp => resp.Etag
        | none => "") (EnqueueDeliveries env newRelease wc).2)
    rest (EnqueueDeliveries env newRelease wc).2 hrepos
    (by unfold PollReleases.written; split <;> rfl)
    (by unfold PollReleases.written; split <;> rfl)
    (by unfold PollReleases.written; split <;> rfl)
    (by unfold PollReleases.written; split <;> rfl)
  rw [← finish_snd, ← h9] at hr2
  have hseen := pollReleases_seen env (PollReleases env w).2 r2 rest2 gr newRelease hdb
    (by rw [ho2, hn2]; exact (hapi _).1) (by rw [ho2, hn2]; exact (hapi _).2) hr2
    (by rw [h10, hid2, hfilter]; rfl) h6
  refine ⟨?_, hseen.1, ?_, hseen.2.1, hseen.2.2⟩
  · rw [h9]; exact finish_fst _ _ _ _ (hdb _)
  · rw [hseen.2.1, h10, hfilter]; rfl

/-! ## Messages delivered -/

theorem sentFrom_append (env : Env) (a b : List Event) (k : Nat) :
    sentFrom env k (a ++ b) = sentFrom env k a ++ sentFrom env (k + a.length) b := by
  induction a generalizing k with
  | nil => simp [sentFrom]
  | cons e t ih =>
    have hk : k + (e :: t).length = k + 1 + t.length := by simp; omega
    rw [hk]
    cases e with
    | botSend c x =>
      simp only [List.cons_append, sentFrom]
      split <;> simp [ih]
    | _ => simp [sentFrom, ih]

/-- Under a claimed key, one iteration of the loop of `Notify` is the guarded closure. -/
theorem notify_body_claimed (env : Env) (m : idempotency.Manager) (w w1 : World)
    (d : domain.Delivery)
    (hclaim : m.storage.CheckAndSet (Notify.idempotencyKey d) (10 * Minute) w =
      ((true, none), w1)) :
    Notify.body env m w d = (Notify.fn env d w1).2 := by
  simp [Notify.body, idempotency.Manager.Do, hclaim]

/-- When `bot.Send` fails at each of the three attempts, `SendMessage` makes exactly three
attempts, sleeping two then four seconds between them, and returns the error of the
third attempt wrapped by the adapter. -/
theorem sendMessage_all_fail (env : Env) (chatID text : String) (w : World)
    (e1 e2 e3 : Error) (h1 : env.botSend w.trace.length = some e1)
    (h2 : env.botSend (w.trace.length + 2) = some e2)
    (h3 : env.botSend (w.trace.length + 4) = some e3) :
    telegram.telegramClient.SendMessage env chatID text w =
      (some (Error.wrap "telegram client error: " e3),
        { w with now := w.now + 6000000000,
                 trace := w.trace ++ [Event.botSend chatID text, Event.sleep 2000000000,
                   Event.botSend chatID text, Event.sleep 4000000000,
                   Event.botSend chatID text] }) := by
  have hs : (2 : Int) * Second = 2000000000 := by decide
  have hw : wrapInt64 4000000000 = 4000000000 := by decide
  have hw2 : wrapInt64 8000000000 = 8000000000 := by decide
  simp [telegram.telegramClient.SendMessage, retry.Do, retry.loop, h1, h2, h3, time.Sleep,
    World.emit, hs, hw, hw2, add_assoc]

/-! ## The loop body of Notify -/

/-- C9 (amended). One iteration of the loop of `Notify` on a delivery whose idempotency key
is claimed and whose release and user are found, the database working, when
`bot.Send` fails at each attempt: the send is attempted exactly three times (with
sleeps of two and four seconds), and the rows of the delivery get status "failed",
attempt = previous attempt + 1 (as a 64-bit integer) and as last error the text of
the error `SendMessage` returned for the third attempt. -/
theorem C9_failed_after_three_attempts (env : Env) (m : idempotency.Manager) (w w1 : World)
    (d : domain.Delivery) (release : domain.Release) (user : domain.User)
    (e1 e2 e3 : Error)
    (hclaim : m.storage.CheckAndSet (Notify.idempotencyKey d) (10 * Minute) w =
      ((true, none), w1))
    (hdb : ∀ k, env.db k = none)
    (hrel : w1.releases.find? (fun r => r.ID == d.ReleaseID) = some release)
    (husr : w1.users.find? (fun u => u.ID == d.UserID) = some user)
    (h1 : env.botSend (w1.trace.length + 2) = some e1)
    (h2 : env.botSend (w1.trace.length + 4) = some e2)
    (h3 : env.botSend (w1.trace.length + 6) = some e3) :
    (Notify.body env m w d).trace = w1.trace ++
      [Event.getReleaseByID d.ReleaseID, Event.getUserByID d.UserID,
       Event.botSend d.Channel (Notify.message release), Event.sleep 2000000000,
       Event.botSend d.Channel (Notify.message release), Event.sleep 4000000000,
       Event.botSend d.Channel (Notify.message release),
       Event.updateDeliveryStatus d.ID "failed" ("telegram client error: " ++ e3.text)
         (wrapInt64 (d.Attempt + 1))] ∧
    (Notify.body env m w d).deliveries = w1.deliveries.map (fun x =>
      if x.ID = d.ID then
        { x with Status := "failed", LastError := "telegram client error: " ++ e3.text,
                 Attempt := wrapInt64 (d.Attempt + 1), UpdatedAt := w1.now + 6000000000 }
      else x) ∧
    (-2 ^ 63 ≤ d.Attempt + 1 → d.Attempt + 1 < 2 ^ 63 →
      wrapInt64 (d.Attempt + 1) = d.Attempt + 1) ∧
    World.sent env (Notify.body env m w d) = World.sent env w1 := by
  have hf := sendMessage_all_fail env d.Channel (Notify.message release)
    ((w1.emit (Event.getReleaseByID d.ReleaseID)).emit (Event.getUserByID d.UserID)) e1 e2 e3
    (by simpa using h1) (by simpa [add_assoc] using h2) (by simpa [add_assoc] using h3)
  rw [notify_body_claimed env m w w1 d hclaim]
  simp only [Notify.fn, PostgresStore.GetReleaseByID, PostgresStore.GetUserByID, hdb, hrel,
    husr, World.emit_releases, World.emit_users, hf, PostgresStore.UpdateDeliveryStatus,
    World.emit_trace]
  refine ⟨by simp [World.emit, Error.wrap], by simp [World.emit, Error.wrap, time.Now], ?_, ?_⟩
  · intro hlo hhi
    unfold wrapInt64
    omega
  · have hb1 : (env.botSend (w1.trace.length + 1 + 1)).isNone = false := by
      rw [show w1.trace.length + 1 + 1 = w1.trace.length + 2 from rfl, h1]; rfl
    have hb2 : (env.botSend (w1.trace.length + 1 + 1 + 1 + 1)).isNone = false := by
      rw [show w1.trace.length + 1 + 1 + 1 + 1 = w1.trace.length + 4 from rfl, h2]; rfl
    have hb3 : (env.botSend (w1.trace.length + 1 + 1 + 1 + 1 + 1 + 1)).isNone = false := by
      rw [show w1.trace.length + 1 + 1 + 1 + 1 + 1 + 1 = w1.trace.length + 6 from rfl, h3]; rfl
    simp [World.sent, World.emit, sentFrom_append, sentFrom, hb1, hb2, hb3]

/-- C7 (amended). One iteration of the loop of `Notify` on a delivery whose idempotency key
is claimed, the database working: when the release is not found, or the release is
found and the user is not, no send is attempted (the only effects are the lookups
and one `UpdateDeliveryStatus`) and the rows of the delivery get status "skipped",
the error "release not found" respectively "user not found", and attempt =
previous attempt + 1 (as a 64-bit integer). -/
theorem C7_skipped_when_release_or_user_missing (env : Env) (m : idempotency.Manager)
    (w w1 : World) (d : domain.Delivery)
    (hclaim : m.storage.CheckAndSet (Notify.idempotencyKey d) (10 * Minute) w =
      ((true, none), w1))
    (hdb : ∀ k, env.db k = none)
    (hmiss : w1.releases.find? (fun r => r.ID == d.ReleaseID) = none ∨
      w1.users.find? (fun u => u.ID == d.UserID) = none) :
    ∃ (reason : String) (lookups : List Event),
      (reason = "release not found" ∨ reason = "user not found") ∧
      (lookups = [Event.getReleaseByID d.ReleaseID] ∨
        lookups = [Event.getReleaseByID d.ReleaseID, Event.getUserByID d.UserID]) ∧
      (Notify.body env m w d).trace = w1.trace ++ lookups ++
        [Event.updateDeliveryStatus d.ID "skipped" reason (wrapInt64 (d.Attempt + 1))] ∧
      (Notify.body env m w d).deliveries = w1.deliveries.map (fun x =>
        if x.ID = d.ID then
          { x with Status := "skipped", LastError := reason,
                   Attempt := wrapInt64 (d.Attempt + 1), UpdatedAt := w1.now }
        else x) ∧
      (-2 ^ 63 ≤ d.Attempt + 1 → d.Attempt + 1 < 2 ^ 63 →
        wrapInt64 (d.Attempt + 1) = d.Attempt + 1) ∧
      World.sent env (Notify.body env m w d) = World.sent env w1 := by
  have hwrap : -2 ^ 63 ≤ d.Attempt + 1 → d.Attempt + 1 < 2 ^ 63 →
      wrapInt64 (d.Attempt + 1) = d.Attempt + 1 := by
    intro hlo hhi
    unfold wrapInt64
    omega
  rw [notify_body_claimed env m w w1 d hclaim]
  cases hrel : w1.releases.find? (fun r => r.ID == d.ReleaseID) with
  | none =>
    refine ⟨"release not found", [Event.getReleaseByID d.ReleaseID], Or.inl rfl, Or.inl rfl,
      ?_, ?_, hwrap, ?_⟩
    · simp [Notify.fn, PostgresStore.GetReleaseByID, hdb, hrel,
        PostgresStore.UpdateDeliveryStatus]
    · simp [Notify.fn, PostgresStore.GetReleaseByID, hdb, hrel,
        PostgresStore.UpdateDeliveryStatus, time.Now]
    · simp [Notify.fn, PostgresStore.GetReleaseByID, hdb, hrel,
        PostgresStore.UpdateDeliveryStatus, World.sent, sentFrom_append, sentFrom]
  | some release =>
    have husr : w1.users.find? (fun u => u.ID == d.UserID) = none := by
      rcases hmiss with h | h
      · rw [hrel] at h; cases h
      · exact h
    refine ⟨"user not found", [Event.getReleaseByID d.ReleaseID, Event.getUserByID d.UserID],
      Or.inr rfl, Or.inr rfl, ?_, ?_, hwrap, ?_⟩
    · simp [Notify.fn, PostgresStore.GetReleaseByID, PostgresStore.GetUserByID, hdb, hrel, husr,
        PostgresStore.UpdateDeliveryStatus]
    · simp [Notify.fn, PostgresStore.GetReleaseByID, PostgresStore.GetUserByID, hdb, hrel, husr,
        PostgresStore.UpdateDeliveryStatus, time.Now]
    · simp [Notify.fn, PostgresStore.GetReleaseByID, PostgresStore.GetUserByID, hdb, hrel, husr,
        PostgresStore.UpdateDeliveryStatus, World.sent, sentFrom_append, sentFrom]

/-! ## A not-modified answer -/

/-- The repo written back carries the returned validator when that is neither empty nor
the stored one, the stored validator otherwise. -/
theorem written_eq (repo : domain.Repo) (newETag : String) (w : World) :
    PollReleases.written repo newETag w =
      { repo with ETag := if newETag = "" ∨ newETag = repo.ETag then repo.ETag else newETag,
                  LastCheckedAt := w.now } := by
  unfold PollReleases.written
  by_cases h1 : newETag = ""
  · simp [h1, time.Now]
  · by_cases h2 : newETag = repo.ETag
    · simp [h2, time.Now]
    · simp [h1, h2, time.Now]

/-- With a working driver, `UpdateRepo` of a stored repo with a non-zero id rewrites the
rows of that id. -/
theorem updateRepo_rows (env : Env) (row : domain.Repo) (w : World)
    (hdb : env.db w.trace.length = none) (hid : row.ID ≠ uuid.Nil)
    (hmem : ∃ r ∈ w.repos, r.ID = row.ID) :
    (PostgresStore.UpdateRepo env row w).2.repos =
      w.repos.map (fun r => if r.ID = row.ID then { row with UpdatedAt := w.now } else r) := by
  have hany : (w.repos.any (fun r => r.ID == row.ID)) = true := by
    simpa using hmem
  simp [PostgresStore.UpdateRepo, hdb, hid, hany, time.Now]

/-! ## The whole of Notify, and evaluations on the concrete worlds -/

/-- When the listing works, `Notify` runs the loop body on the pending deliveries in the
order listed and returns nil. -/
theorem notify_loop (env : Env) (m : idempotency.Manager) (w : World)
    (hdb : env.db w.trace.length = none) :
    Notify env m w = (none, (w.deliveries.filter (fun d => d.Status == "pending")).foldl
      (Notify.body env m) (w.emit Event.listPendingDeliveries)) := by
  simp only [Notify, PostgresStore.ListPendingDeliveries, hdb]
  split
  · rename_i h
    rw [List.length_eq_zero] at h
    rw [h]
    rfl
  · rfl

/-- The position of a delivery in the loop of `Notify`: when the pending deliveries are
`pre ++ d :: post`, the loop body runs on `d` in the world reached after `pre`, and
the rest of the loop continues from the world it leaves. -/
theorem notify_split (env : Env) (m : idempotency.Manager) (w : World)
    (pre post : List domain.Delivery) (d : domain.Delivery)
    (hdb : env.db w.trace.length = none)
    (hlist : w.deliveries.filter (fun x => x.Status == "pending") = pre ++ d :: post) :
    Notify env m w = (none, post.foldl (Notify.body env m)
      (Notify.body env m
        (pre.foldl (Notify.body env m) (w.emit Event.listPendingDeliveries)) d)) := by
  rw [notify_loop env m w hdb, hlist, List.foldl_append, List.foldl_cons]

/-- Two polls of `acme/widget` in the example world, where it is listed for the nil user
id. -/
theorem two_polls_of_listed_repo_example :
    (PollReleases Example.env Example.world).1 = none ∧
    (PollReleases Example.env (PollReleases Example.env Example.world).2).1 = none ∧
    ((PollReleases Example.env (PollReleases Example.env Example.world).2).2.releases.filter
      (fun r => r.RepoID == Example.repo.ID && r.Tag == Example.upstream.Tag)).length = 1 ∧
    (PollReleases Example.env (PollReleases Example.env Example.world).2).2.releases =
      (PollReleases Example.env Example.world).2.releases ∧
    (PollReleases Example.env (PollReleases Example.env Example.world).2).2.deliveries =
      (PollReleases Example.env Example.world).2.deliveries :=
  two_polls_of_listed_repo Example.env Example.world Example.repo []
    Example.upstream (fun _ => rfl) (fun _ => ⟨rfl, rfl⟩) (by decide) (by decide)

/-- C5 (witness). The theorem applied to the example release and its one subscription. -/
theorem C5_witness :
    (EnqueueDeliveries Example.env Example.release Example.world).1 = none ∧
    ∃ ds : List domain.Delivery,
      (EnqueueDeliveries Example.env Example.release Example.world).2.deliveries =
        Example.world.deliveries ++ ds ∧
      List.Forall₂ (fun d s => d.ReleaseID = Example.release.ID ∧ d.UserID = s.UserID ∧
        d.Channel = s.Channel ∧ d.Status = "pending" ∧ d.Attempt = 0) ds
        (Example.world.subscriptions.filter (fun s => s.RepoID == Example.release.RepoID)) :=
  C5_enqueue_one_pending_delivery_per_subscription Example.env Example.release Example.world
    (fun _ => rfl)

/-- C10 (witness). The theorem applied to the Redis-backed manager when the key of the
example delivery is held: the marking closure is not run. -/
theorem C10_witness :
    (worker.idempotencyManager Example.env).Do (Notify.idempotencyKey Example.delivery)
      (10 * Minute) Example.mark (Example.held Example.notifyWorld) =
      (none, (Example.held Example.notifyWorld).emit
        (Event.setNX (Notify.idempotencyKey Example.delivery) (10 * Minute))) :=
  C10_do_not_claimed_returns_nil (worker.idempotencyManager Example.env)
    (Notify.idempotencyKey Example.delivery) (10 * Minute) Example.mark
    (Example.held Example.notifyWorld) _ (by rfl)

/-- C2 (evaluation). The two contents have the same tag and differ in title and body, yet
concatenate to the same string: after the first content is stored, the source
returns the second and `PollReleases` creates no second release row, although the
stand-in for the hash is injective. -/
theorem C2_changed_content_same_concatenation_no_new_row :
    Example.contentA.Tag = Example.contentB.Tag ∧
    Example.contentA.Title ≠ Example.contentB.Title ∧
    Example.contentA.Body ≠ Example.contentB.Body ∧
    (github.githubClient.GetLatestRelease Example.envAB "acme" "widget" "v1"
      (Example.world.emit (Event.listRepos uuid.Nil))).1 =
      (some Example.contentA, "v2", none) ∧
    (PollReleases Example.envAB Example.world).2.releases.map
      (fun r => (r.RepoID, r.Tag, r.Title, r.Hash)) =
      [(Example.repo.ID, "1", "1y", "x11yu")] ∧
    (github.githubClient.GetLatestRelease Example.envAB "acme" "widget" "v2"
      ((PollReleases Example.envAB Example.world).2.emit (Event.listRepos uuid.Nil))).1 =
      (some Example.contentB, "v2", none) ∧
    (PollReleases Example.envAB (PollReleases Example.envAB Example.world).2).1 = none ∧
    (PollReleases Example.envAB (PollReleases Example.envAB Example.world).2).2.releases =
      (PollReleases Example.envAB Example.world).2.releases := by
  decide

/-- The hashes the code computes for the two contents coincide whatever the hash function
is, since the strings hashed are equal. -/
theorem contentA_contentB_same_hash (env : Env) :
    env.sha256hex (Example.contentA.Body ++ Example.contentA.Tag ++ Example.contentA.Title ++
      Example.contentA.URL) =
    env.sha256hex (Example.contentB.Body ++ Example.contentB.Tag ++ Example.contentB.Title ++
      Example.contentB.URL) :=
  congrArg env.sha256hex (by decide)

/-- C6 (evaluation). Running `EnqueueDeliveries` twice for the same release, with the same
single subscription and a working database, leaves two deliveries for the same
(release, user, channel), with different ids. -/
theorem C6_second_enqueue_duplicates_delivery :
    (EnqueueDeliveries Example.env Example.release Example.world).2.deliveries.map
      (fun d => (d.ID, d.ReleaseID, d.UserID, d.Channel, d.Status)) =
      [(Example.uuidOf 1001, Example.release.ID, Example.user.ID, "chan", "pending")] ∧
    (EnqueueDeliveries Example.env Example.release
      (EnqueueDeliveries Example.env Example.release Example.world).2).2.deliveries.map
      (fun d => (d.ID, d.ReleaseID, d.UserID, d.Channel, d.Status)) =
      [(Example.uuidOf 1001, Example.release.ID, Example.user.ID, "chan", "pending"),
       (Example.uuidOf 1004, Example.release.ID, Example.user.ID, "chan", "pending")] := by
  decide

/-- C7 (counterexample). A pending delivery whose release is not stored, its idempotency key
being held: `Notify` leaves the delivery as it was, pending. -/
theorem C7_counterexample_key_held :
    (PostgresStore.ListPendingDeliveries Example.env (Example.held Example.orphanWorld)).1 =
      ([Example.delivery], none) ∧
    (PostgresStore.GetReleaseByID Example.env Example.delivery.ReleaseID
      (Example.held Example.orphanWorld)).1 = (none, none) ∧
    (Notify Example.env (worker.idempotencyManager Example.env)
      (Example.held Example.orphanWorld)).2.deliveries = [Example.delivery] ∧
    Example.delivery.Status = "pending" := by
  decide

/-- C7 (witness). The amended theorem applied to the example delivery whose release is not
stored, its key being free. -/
theorem C7_witness :
    ∃ (reason : String) (lookups : List Event),
      (reason = "release not found" ∨ reason = "user not found") ∧
      (lookups = [Event.getReleaseByID Example.delivery.ReleaseID] ∨
        lookups = [Event.getReleaseByID Example.delivery.ReleaseID,
          Event.getUserByID Example.delivery.UserID]) ∧
      (Notify.body Example.env (worker.idempotencyManager Example.env) Example.orphanWorld
        Example.delivery).trace = (Example.claimed Example.orphanWorld).trace ++ lookups ++
        [Event.updateDeliveryStatus Example.delivery.ID "skipped" reason
          (wrapInt64 (Example.delivery.Attempt + 1))] ∧
      (Notify.body Example.env (worker.idempotencyManager Example.env) Example.orphanWorld
        Example.delivery).deliveries = (Example.claimed Example.orphanWorld).deliveries.map
        (fun x =>
          if x.ID = Example.delivery.ID then
            { x with Status := "skipped", LastError := reason,
                     Attempt := wrapInt64 (Example.delivery.Attempt + 1),
                     UpdatedAt := (Example.claimed Example.orphanWorld).now }
          else x) ∧
      (-2 ^ 63 ≤ Example.delivery.Attempt + 1 → Example.delivery.Attempt + 1 < 2 ^ 63 →
        wrapInt64 (Example.delivery.Attempt + 1) = Example.delivery.Attempt + 1) ∧
      World.sent Example.env (Notify.body Example.env (worker.idempotencyManager Example.env)
        Example.orphanWorld Example.delivery) =
        World.sent Example.env (Example.claimed Example.orphanWorld) :=
  C7_skipped_when_release_or_user_missing Example.env (worker.idempotencyManager Example.env)
    Example.orphanWorld (Example.claimed Example.orphanWorld) Example.delivery (by rfl)
    (fun _ => rfl) (Or.inl (by decide))

/-- C9 (counterexample). A pending delivery whose release and user are stored and whose
channel would fail at every attempt, its idempotency key being held: `Notify`
attempts no send and leaves the delivery as it was, pending. -/
theorem C9_counterexample_key_held :
    (PostgresStore.ListPendingDeliveries Example.envSendFails
      (Example.held Example.notifyWorld)).1 = ([Example.delivery], none) ∧
    (PostgresStore.GetReleaseByID Example.envSendFails Example.delivery.ReleaseID
      (Example.held Example.notifyWorld)).1 = (some Example.release, none) ∧
    (PostgresStore.GetUserByID Example.envSendFails Example.delivery.UserID
      (Example.held Example.notifyWorld)).1 = (some Example.user, none) ∧
    (Notify Example.envSendFails (worker.idempotencyManager Example.envSendFails)
      (Example.held Example.notifyWorld)).2.trace =
      [Event.listPendingDeliveries,
       Event.setNX (Notify.idempotencyKey Example.delivery) (10 * Minute)] ∧
    (Notify Example.envSendFails (worker.idempotencyManager Example.envSendFails)
      (Example.held Example.notifyWorld)).2.deliveries = [Example.delivery] ∧
    Example.delivery.Status = "pending" := by
  decide

/-- C9 (witness). The amended theorem applied to the example delivery, its key being free
and every `bot.Send` failing. -/
theorem C9_witness :
    (Notify.body Example.envSendFails (worker.idempotencyManager Example.envSendFails)
      Example.notifyWorld Example.delivery).trace =
      (Example.claimed Example.notifyWorld).trace ++
      [Event.getReleaseByID Example.delivery.ReleaseID,
       Event.getUserByID Example.delivery.UserID,
       Event.botSend Example.delivery.Channel (Notify.message Example.release),
       Event.sleep 2000000000,
       Event.botSend Example.delivery.Channel (Notify.message Example.release),
       Event.sleep 4000000000,
       Event.botSend Example.delivery.Channel (Notify.message Example.release),
       Event.updateDeliveryStatus Example.delivery.ID "failed"
         ("telegram client error: " ++ Example.sendError.text)
         (wrapInt64 (Example.delivery.Attempt + 1))] ∧
    (Notify.body Example.envSendFails (worker.idempotencyManager Example.envSendFails)
      Example.notifyWorld Example.delivery).deliveries =
      (Example.claimed Example.notifyWorld).deliveries.map (fun x =>
        if x.ID = Example.delivery.ID then
          { x with Status := "failed",
                   LastError := "telegram client error: " ++ Example.sendError.text,
                   Attempt := wrapInt64 (Example.delivery.Attempt + 1),
                   UpdatedAt := (Example.claimed Example.notifyWorld).now + 6000000000 }
        else x) ∧
    (-2 ^ 63 ≤ Example.delivery.Attempt + 1 → Example.delivery.Attempt + 1 < 2 ^ 63 →
      wrapInt64 (Example.delivery.Attempt + 1) = Example.delivery.Attempt + 1) ∧
    World.sent Example.envSendFails (Notify.body Example.envSendFails
      (worker.idempotencyManager Example.envSendFails) Example.notifyWorld Example.delivery) =
      World.sent Example.envSendFails (Example.claimed Example.notifyWorld) :=
  C9_failed_after_three_attempts Example.envSendFails
    (worker.idempotencyManager Example.envSendFails) Example.notifyWorld
    (Example.claimed Example.notifyWorld) Example.delivery Example.release Example.user
    Example.sendError Example.sendError Example.sendError (by rfl) (fun _ => rfl) (by decide)
    (by decide) (by rfl) (by rfl) (by rfl)

/-! ## The retry policy, call by call -/

theorem range_map_succ {β : Type} (f : Nat → β) (m : Nat) :
    (List.range m).map f ++ [f m] = (List.range (m + 1)).map f := by
  rw [List.range_succ, List.map_append]
  rfl

/-- The instrumentation does not change what the loop returns, the captured variables or
the world. -/
theorem retry_loop_logged_proj {α : Type} (fn : α → World → Option Error × α × World)
    (n : Nat) :
    ∀ (i : Nat) (sleep : Duration) (err : Option Error) (l : List World) (a : α) (w : World),
      (retry.loop (retry.logged fn) n i sleep err (l, a) w).1 =
        (retry.loop fn n i sleep err a w).1 ∧
      (retry.loop (retry.logged fn) n i sleep err (l, a) w).2.1.2 =
        (retry.loop fn n i sleep err a w).2.1 ∧
      (retry.loop (retry.logged fn) n i sleep err (l, a) w).2.2 =
        (retry.loop fn n i sleep err a w).2.2 := by
  induction n with
  | zero => intro i sleep err l a w; exact ⟨rfl, rfl, rfl⟩
  | succ n ih =>
    intro i sleep err l a w
    unfold retry.loop
    simp only [retry.logged]
    cases h : fn a (if 0 < i then time.Sleep sleep w else w) with
    | mk e r =>
      cases e with
      | none => exact ⟨rfl, rfl, rfl⟩
      | some e1 => exact ih _ _ _ _ _ _

/-- The loop of the code from its iteration `m + 1`, when the calls made so far were those
of the specification: the first success among the later calls ends the loop. -/
theorem retry_loop_first_success {α : Type} (fn : α → World → Option Error × α × World)
    (sleep : Duration) (a : α) (w : World) (n : Nat) :
    ∀ (m p : Nat) (err : Option Error), m < p → p < m + 1 + n →
      (∀ j, m < j → j < p → (retry.Spec.call fn sleep a w j).1 ≠ none) →
      (retry.Spec.call fn sleep a w p).1 = none →
      retry.loop (retry.logged fn) n (m + 1) (retry.Spec.delay sleep m) err
        ((List.range (m + 1)).map (retry.Spec.start fn sleep a w),
          (retry.Spec.call fn sleep a w m).2.1) (retry.Spec.call fn sleep a w m).2.2 =
      (none, ((List.range (p + 1)).map (retry.Spec.start fn sleep a w),
        (retry.Spec.call fn sleep a w p).2.1), (retry.Spec.call fn sleep a w p).2.2) := by
  induction n with
  | zero =>
    intro m p err hmp hp _ _
    omega
  | succ n ih =>
    intro m p err hmp hp hfail hok
    unfold retry.loop
    simp only [Nat.succ_pos, if_true, retry.logged]
    have hcall : fn (retry.Spec.call fn sleep a w m).2.1
        (time.Sleep (retry.Spec.delay sleep m) (retry.Spec.call fn sleep a w m).2.2) =
        retry.Spec.call fn sleep a w (m + 1) := rfl
    have hstart : time.Sleep (retry.Spec.delay sleep m) (retry.Spec.call fn sleep a w m).2.2 =
        retry.Spec.start fn sleep a w (m + 1) := rfl
    rw [hcall, hstart, range_map_succ]
    by_cases hpm : p = m + 1
    · subst hpm
      rw [hok]
    · have hsome : (retry.Spec.call fn sleep a w (m + 1)).1 ≠ none :=
        hfail (m + 1) (by omega) (by omega)
      cases hc : (retry.Spec.call fn sleep a w (m + 1)).1 with
      | none => exact absurd hc hsome
      | some e =>
        simp only []
        exact ih (m + 1) p (some e) (by omega) (by omega)
          (fun j h1 h2 => hfail j (by omega) h2) hok

/-- The loop of the code from its iteration `m + 1`, when the calls made so far were those
of the specification and every later call fails: the loop makes all the remaining
calls and returns the outcome of the last. -/
theorem retry_loop_all_fail {α : Type} (fn : α → World → Option Error × α × World)
    (sleep : Duration) (a : α) (w : World) (n : Nat) :
    ∀ (m : Nat),
      (∀ j, m < j → j < m + 1 + n → (retry.Spec.call fn sleep a w j).1 ≠ none) →
      retry.loop (retry.logged fn) n (m + 1) (retry.Spec.delay sleep m)
        (retry.Spec.call fn sleep a w m).1
        ((List.range (m + 1)).map (retry.Spec.start fn sleep a w),
          (retry.Spec.call fn sleep a w m).2.1) (retry.Spec.call fn sleep a w m).2.2 =
      ((retry.Spec.call fn sleep a w (m + n)).1,
        ((List.range (m + 1 + n)).map (retry.Spec.start fn sleep a w),
          (retry.Spec.call fn sleep a w (m + n)).2.1),
        (retry.Spec.call fn sleep a w (m + n)).2.2) := by
  induction n with
  | zero => intro m _; rfl
  | succ n ih =>
    intro m hfail
    unfold retry.loop
    simp only [Nat.succ_pos, if_true, retry.logged]
    have hcall : fn (retry.Spec.call fn sleep a w m).2.1
        (time.Sleep (retry.Spec.delay sleep m) (retry.Spec.call fn sleep a w m).2.2) =
        retry.Spec.call fn sleep a w (m + 1) := rfl
    have hstart : time.Sleep (retry.Spec.delay sleep m) (retry.Spec.call fn sleep a w m).2.2 =
        retry.Spec.start fn sleep a w (m + 1) := rfl
    rw [hcall, hstart, range_map_succ]
    have hsome : (retry.Spec.call fn sleep a w (m + 1)).1 ≠ none :=
      hfail (m + 1) (by omega) (by omega)
    cases hc : (retry.Spec.call fn sleep a w (m + 1)).1 with
    | none => exact absurd hc hsome
    | some e =>
      simp only []
      have h := ih (m + 1) (fun j h1 h2 => hfail j (by omega) (by omega))
      rw [hc] at h
      rw [show m + (n + 1) = m + 1 + n by omega, show m + 1 + (n + 1) = m + 1 + 1 + n by omega]
      exact h

/-- The loop of the code from its iteration `m + 1`, when the calls made so far were those
of the specification: every call it makes starts in the world the specification
gives, and it makes at most `n` more calls. -/
theorem retry_loop_log {α : Type} (fn : α → World → Option Error × α × World)
    (sleep : Duration) (a : α) (w : World) (n : Nat) :
    ∀ (m : Nat) (err : Option Error),
      (retry.loop (retry.logged fn) n (m + 1) (retry.Spec.delay sleep m) err
        ((List.range (m + 1)).map (retry.Spec.start fn sleep a w),
          (retry.Spec.call fn sleep a w m).2.1) (retry.Spec.call fn sleep a w m).2.2).2.1.1 =
      (List.range (retry.loop (retry.logged fn) n (m + 1) (retry.Spec.delay sleep m) err
        ((List.range (m + 1)).map (retry.Spec.start fn sleep a w),
          (retry.Spec.call fn sleep a w m).2.1)
          (retry.Spec.call fn sleep a w m).2.2).2.1.1.length).map
        (retry.Spec.start fn sleep a w) ∧
      (retry.loop (retry.logged fn) n (m + 1) (retry.Spec.delay sleep m) err
        ((List.range (m + 1)).map (retry.Spec.start fn sleep a w),
          (retry.Spec.call fn sleep a w m).2.1)
          (retry.Spec.call fn sleep a w m).2.2).2.1.1.length ≤ m + 1 + n := by
  induction n with
  | zero =>
    intro m err
    simp [retry.loop]
  | succ n ih =>
    intro m err
    unfold retry.loop
    simp only [Nat.succ_pos, if_true, retry.logged]
    have hcall : fn (retry.Spec.call fn sleep a w m).2.1
        (time.Sleep (retry.Spec.delay sleep m) (retry.Spec.call fn sleep a w m).2.2) =
        retry.Spec.call fn sleep a w (m + 1) := rfl
    have hstart : time.Sleep (retry.Spec.delay sleep m) (retry.Spec.call fn sleep a w m).2.2 =
        retry.Spec.start fn sleep a w (m + 1) := rfl
    rw [hcall, hstart, range_map_succ]
    cases hc : (retry.Spec.call fn sleep a w (m + 1)).1 with
    | none =>
      simp only []
      refine ⟨by simp, by simp⟩
    | some e =>
      simp only []
      have h := ih (m + 1) (some e)
      exact ⟨h.1, Nat.le_trans h.2 (by omega)⟩

/-- What `retry.Do` returns is what it returns on the instrumented function. -/
theorem retry_do_logged_proj {α : Type} (attempts : Int) (sleep : Duration)
    (fn : α → World → Option Error × α × World) (a : α) (w : World) :
    retry.Do attempts sleep fn a w =
      ((retry.Do attempts sleep (retry.logged fn) ([], a) w).1,
        (retry.Do attempts sleep (retry.logged fn) ([], a) w).2.1.2,
        (retry.Do attempts sleep (retry.logged fn) ([], a) w).2.2) := by
  have h := retry_loop_logged_proj fn attempts.toNat 0 sleep none [] a w
  unfold retry.Do
  rw [h.1, h.2.1, h.2.2]

/-- When call number `p + 1` is the first to succeed and `p + 1 ≤ attempts`, `retry.Do`
makes exactly the calls number 1 to `p + 1` and returns nil. -/
theorem retry_do_first_success {α : Type} (attempts : Int) (sleep : Duration)
    (fn : α → World → Option Error × α × World) (a : α) (w : World) (p : Nat)
    (hp : p < attempts.toNat)
    (hfail : ∀ j, j < p → (retry.Spec.call fn sleep a w j).1 ≠ none)
    (hok : (retry.Spec.call fn sleep a w p).1 = none) :
    retry.Do attempts sleep (retry.logged fn) ([], a) w =
      (none, ((List.range (p + 1)).map (retry.Spec.start fn sleep a w),
        (retry.Spec.call fn sleep a w p).2.1), (retry.Spec.call fn sleep a w p).2.2) := by
  unfold retry.Do
  obtain ⟨n, hn⟩ : ∃ n, attempts.toNat = n + 1 := ⟨attempts.toNat - 1, by omega⟩
  rw [hn]
  unfold retry.loop
  simp only [Nat.lt_irrefl, if_false, retry.logged, List.nil_append]
  have hcall : fn a w = retry.Spec.call fn sleep a w 0 := rfl
  rw [hcall]
  by_cases hp0 : p = 0
  · subst hp0
    rw [hok]
    rfl
  · have hsome : (retry.Spec.call fn sleep a w 0).1 ≠ none := hfail 0 (by omega)
    cases hc : (retry.Spec.call fn sleep a w 0).1 with
    | none => exact absurd hc hsome
    | some e =>
      simp only []
      exact retry_loop_first_success fn sleep a w n 0 p (some e) (by omega) (by omega)
        (fun j _ h2 => hfail j h2) hok

/-- When each of the `attempts ≥ 1` calls fails, `retry.Do` makes them all and returns the
outcome of the last. -/
theorem retry_do_all_fail {α : Type} (attempts : Int) (sleep : Duration)
    (fn : α → World → Option Error × α × World) (a : α) (w : World)
    (h1 : 1 ≤ attempts)
    (hfail : ∀ j, j < attempts.toNat → (retry.Spec.call fn sleep a w j).1 ≠ none) :
    retry.Do attempts sleep (retry.logged fn) ([], a) w =
      ((retry.Spec.call fn sleep a w (attempts.toNat - 1)).1,
        ((List.range attempts.toNat).map (retry.Spec.start fn sleep a w),
          (retry.Spec.call fn sleep a w (attempts.toNat - 1)).2.1),
        (retry.Spec.call fn sleep a w (attempts.toNat - 1)).2.2) := by
  unfold retry.Do
  obtain ⟨n, hn⟩ : ∃ n, attempts.toNat = n + 1 := ⟨attempts.toNat - 1, by omega⟩
  rw [hn] at hfail ⊢
  unfold retry.loop
  simp only [Nat.lt_irrefl, if_false, retry.logged, List.nil_append]
  have hcall : fn a w = retry.Spec.call fn sleep a w 0 := rfl
  rw [hcall]
  have hsome : (retry.Spec.call fn sleep a w 0).1 ≠ none := hfail 0 (by omega)
  cases hc : (retry.Spec.call fn sleep a w 0).1 with
  | none => exact absurd hc hsome
  | some e =>
    simp only []
    have h := retry_loop_all_fail fn sleep a w n 0 (fun j _ h2 => hfail j (by omega))
    rw [hc] at h
    simp only [Nat.zero_add] at h
    rw [Nat.add_comm 1 n] at h
    exact h

/-- Every call `retry.Do` makes starts in the world the specification gives for it, and
there are at most `attempts` calls. -/
theorem retry_do_log {α : Type} (attempts : Int) (sleep : Duration)
    (fn : α → World → Option Error × α × World) (a : α) (w : World) :
    (retry.Do attempts sleep (retry.logged fn) ([], a) w).2.1.1 =
      (List.range (retry.Do attempts sleep (retry.logged fn) ([], a) w).2.1.1.length).map
        (retry.Spec.start fn sleep a w) ∧
    (retry.Do attempts sleep (retry.logged fn) ([], a) w).2.1.1.length ≤ attempts.toNat := by
  unfold retry.Do
  cases hn : attempts.toNat with
  | zero => simp [retry.loop]
  | succ n =>
    unfold retry.loop
    simp only [Nat.lt_irrefl, if_false, retry.logged, List.nil_append]
    have hcall : fn a w = retry.Spec.call fn sleep a w 0 := rfl
    rw [hcall]
    cases hc : (retry.Spec.call fn sleep a w 0).1 with
    | none =>
      simp only []
      exact ⟨rfl, by simp⟩
    | some e =>
      simp only []
      have h := retry_loop_log fn sleep a w n 0 (some e)
      exact ⟨h.1, Nat.le_trans h.2 (by omega)⟩

/-- Absent overflow, the delay after `j` doublings is the base delay times `2 ^ j`. -/
theorem retry_delay_eq (sleep : Int) (j : Nat) (hlo : -2 ^ 63 ≤ sleep * 2 ^ j)
    (hhi : sleep * 2 ^ j < 2 ^ 63) : retry.Spec.delay sleep j = sleep * 2 ^ j := by
  induction j with
  | zero => simp [retry.Spec.delay]
  | succ j ih =>
    have hpos : (0 : Int) < 2 ^ j := by positivity
    have e : sleep * 2 ^ (j + 1) = sleep * 2 ^ j * 2 := by ring
    rw [e] at hlo hhi
    have h := ih (by nlinarith) (by nlinarith)
    unfold retry.Spec.delay
    rw [h, e]
    unfold wrapInt64
    clear h ih hpos e
    generalize sleep * 2 ^ j = x at hlo hhi ⊢
    rw [Int.emod_eq_of_lt (by omega) (by omega)]
    ring

/-- C13. For `attempts ≥ 1`, `retry.Do` calls `fn` at most `attempts` times; and when call
number `k ≤ attempts` is the first to return nil (the calls before it, each made
after the failures of the earlier ones, return errors), `fn` is called exactly `k`
times and `retry.Do` returns nil, with the captured variables and the world that
call number `k` left. -/
theorem C13_retry_stops_at_first_success {α : Type} (attempts : Int) (sleep : Duration)
    (fn : α → World → Option Error × α × World) (a : α) (w : World) (h1 : 1 ≤ attempts) :
    ((retry.Do attempts sleep (retry.logged fn) ([], a) w).2.1.1.length : Int) ≤ attempts ∧
    ∀ k : Nat, 1 ≤ k → (k : Int) ≤ attempts →
      (∀ j, j + 1 < k → (retry.Spec.call fn sleep a w j).1 ≠ none) →
      (retry.Spec.call fn sleep a w (k - 1)).1 = none →
      (retry.Do attempts sleep (retry.logged fn) ([], a) w).2.1.1.length = k ∧
      retry.Do attempts sleep fn a w = (none, (retry.Spec.call fn sleep a w (k - 1)).2) := by
  refine ⟨?_, ?_⟩
  · have h := (retry_do_log attempts sleep fn a w).2
    omega
  · intro k hk1 hk hfail hok
    have h := retry_do_first_success attempts sleep fn a w (k - 1) (by omega)
      (fun j hj => hfail j (by omega)) hok
    refine ⟨?_, ?_⟩
    · rw [h]
      simp
      omega
    · rw [retry_do_logged_proj, h]

/-- C14. For `attempts ≥ 1`, when each of the `attempts` calls of `fn` returns an error,
`retry.Do` calls `fn` exactly `attempts` times and returns the error of the last
call, which is not nil, with the captured variables and the world that call left. -/
theorem C14_retry_returns_last_error {α : Type} (attempts : Int) (sleep : Duration)
    (fn : α → World → Option Error × α × World) (a : α) (w : World) (h1 : 1 ≤ attempts)
    (hfail : ∀ j, j < attempts.toNat → (retry.Spec.call fn sleep a w j).1 ≠ none) :
    ((retry.Do attempts sleep (retry.logged fn) ([], a) w).2.1.1.length : Int) = attempts ∧
    retry.Do attempts sleep fn a w = retry.Spec.call fn sleep a w (attempts.toNat - 1) ∧
    (retry.Do attempts sleep fn a w).1 ≠ none := by
  have h := retry_do_all_fail attempts sleep fn a w h1 hfail
  have hlast := hfail (attempts.toNat - 1) (by omega)
  refine ⟨?_, ?_, ?_⟩
  · rw [h]
    simp
    omega
  · rw [retry_do_logged_proj, h]
  · rw [retry_do_logged_proj, h]
    exact hlast

/-- C15. Every call `retry.Do` makes starts in the world the specification gives: the first
call in the initial world, with no sleep before it; call number `k + 1` in the world
the call before it left, after exactly one sleep, of the base delay doubled `k - 1`
times, which absent overflow is the base delay times `2 ^ (k - 1)`.  With three
attempts, a base delay of two seconds and a function that always fails, the calls
start after no sleep, a sleep of two seconds and a sleep of four seconds. -/
theorem C15_retry_sleeps_between_calls {α : Type} (attempts : Int) (sleep : Duration)
    (fn : α → World → Option Error × α × World) (a : α) (w : World) :
    (retry.Do attempts sleep (retry.logged fn) ([], a) w).2.1.1 =
      (List.range (retry.Do attempts sleep (retry.logged fn) ([], a) w).2.1.1.length).map
        (retry.Spec.start fn sleep a w) ∧
    retry.Spec.start fn sleep a w 0 = w ∧
    (∀ k : Nat, 1 ≤ k → retry.Spec.start fn sleep a w k =
      time.Sleep (retry.Spec.delay sleep (k - 1)) (retry.Spec.call fn sleep a w (k - 1)).2.2) ∧
    (∀ k : Nat, 1 ≤ k → -2 ^ 63 ≤ sleep * 2 ^ (k - 1) → sleep * 2 ^ (k - 1) < 2 ^ 63 →
      retry.Spec.delay sleep (k - 1) = sleep * 2 ^ (k - 1)) ∧
    ((∀ j, j < 3 → (retry.Spec.call fn (2 * Second) a w j).1 ≠ none) →
      (retry.Do 3 (2 * Second) (retry.logged fn) ([], a) w).2.1.1 =
        [w, time.Sleep 2000000000 (retry.Spec.call fn (2 * Second) a w 0).2.2,
          time.Sleep 4000000000 (retry.Spec.call fn (2 * Second) a w 1).2.2]) ∧
    sleeps (retry.Do 3 (2 * Second) Example.failing () Example.world).2.2.trace =
      [2000000000, 4000000000] := by
  refine ⟨(retry_do_log attempts sleep fn a w).1, rfl, ?_, ?_, ?_, by decide⟩
  · intro k hk
    obtain ⟨j, rfl⟩ : ∃ j, k = j + 1 := ⟨k - 1, by omega⟩
    rfl
  · intro k _ hlo hhi
    exact retry_delay_eq sleep (k - 1) hlo hhi
  · intro hfail
    have h := retry_do_all_fail 3 (2 * Second) fn a w (by decide) (fun j hj => hfail j hj)
    rw [h]
    rfl

/-- C13 (witness). A closure that fails twice and succeeds at the third call, retried three
times: three calls. -/
theorem C13_witness :
    (retry.Do 3 (2 * Second) (retry.logged Example.thirdTime) ([], 0)
      Example.world).2.1.1.length = 3 ∧
    retry.Do 3 (2 * Second) Example.thirdTime 0 Example.world =
      (none, (retry.Spec.call Example.thirdTime (2 * Second) 0 Example.world (3 - 1)).2) :=
  (C13_retry_stops_at_first_success 3 (2 * Second) Example.thirdTime 0 Example.world
    (by decide)).2 3 (by decide) (by decide)
    (fun j hj => by
      have hj2 : j < 2 := by omega
      interval_cases j <;> decide)
    (by decide)

/-- C14 (witness). A function that always fails, retried three times: three calls and the
error of the third. -/
theorem C14_witness :
    ((retry.Do 3 (2 * Second) (retry.logged Example.failing) ([], ())
      Example.world).2.1.1.length : Int) = 3 ∧
    retry.Do 3 (2 * Second) Example.failing () Example.world =
      retry.Spec.call Example.failing (2 * Second) () Example.world ((3 : Int).toNat - 1) ∧
    (retry.Do 3 (2 * Second) Example.failing () Example.world).1 ≠ none :=
  C14_retry_returns_last_error 3 (2 * Second) Example.failing () Example.world (by decide)
    (fun j hj => by
      have hj3 : j < 3 := hj
      interval_cases j <;> decide)

/-! ## The idempotency guard over Redis -/

/-- A positive expiration is sent as a positive time to live. -/
theorem ttlSent_pos (ttl : Int) (h : 0 < ttl) : 0 < redis.ttlSent ttl := by
  unfold redis.ttlSent redis.usePrecise redis.formatMs redis.formatSec Millisecond Second
  have e1 : Int.tdiv ttl 1000000 = ttl / 1000000 := Int.tdiv_eq_ediv (by omega) (by omega)
  have e2 : Int.tdiv ttl 1000000000 = ttl / 1000000000 :=
    Int.tdiv_eq_ediv (by omega) (by omega)
  rw [e1, e2]
  have k1 : (0 : Int) < 1 * 1000000 := by decide
  have k2 : ¬ (0 < ttl ∧ ttl < 1000000) → (0 : Int) < ttl / 1000000 * 1000000 := by omega
  have k4 : ¬ (0 < ttl ∧ ttl < 1000000000) → (0 : Int) < ttl / 1000000000 * 1000000000 := by
    omega
  by_cases hp : ttl < 1000000000 ∨ ttl % 1000000000 ≠ 0
  · by_cases hms : 0 < ttl ∧ ttl < 1000000
    · simp only [hp, hms, decide_True, and_self, if_true]
      exact k1
    · simp only [hp, hms, decide_True, if_true, if_false]
      exact k2 hms
  · have hs : ¬ (0 < ttl ∧ ttl < 1000000000) := fun hc => hp (Or.inl hc.2)
    simp only [hp, hs, decide_False, if_false]
    exact k4 hs

/-- A positive expiration of whole milliseconds is sent as it is. -/
theorem ttlSent_whole (ttl : Int) (h : 0 < ttl) (hm : ttl % Millisecond = 0) :
    redis.ttlSent ttl = ttl := by
  have hm2 : ttl % 1000000 = 0 := hm
  unfold redis.ttlSent redis.usePrecise redis.formatMs redis.formatSec Millisecond Second
  have e1 : Int.tdiv ttl 1000000 = ttl / 1000000 := Int.tdiv_eq_ediv (by omega) (by omega)
  have e2 : Int.tdiv ttl 1000000000 = ttl / 1000000000 :=
    Int.tdiv_eq_ediv (by omega) (by omega)
  rw [e1, e2]
  have k2 : ttl / 1000000 * 1000000 = ttl := by omega
  have k4 : ¬ (ttl < 1000000000 ∨ ttl % 1000000000 ≠ 0) →
      ttl / 1000000000 * 1000000000 = ttl := by omega
  by_cases hp : ttl < 1000000000 ∨ ttl % 1000000000 ≠ 0
  · by_cases hms : 0 < ttl ∧ ttl < 1000000
    · omega
    · simp only [hp, hms, decide_True, if_true, if_false]
      exact k2
  · have hs : ¬ (0 < ttl ∧ ttl < 1000000000) := fun hc => hp (Or.inl hc.2)
    simp only [hp, hs, decide_False, if_false]
    exact k4 hp

/-- A negative expiration is sent as a time to live that is not positive. -/
theorem ttlSent_nonpos (ttl : Int) (h : ttl < 0) : redis.ttlSent ttl ≤ 0 := by
  unfold redis.ttlSent redis.usePrecise redis.formatMs redis.formatSec Millisecond Second
  have e1 : Int.tdiv ttl 1000000 = -((-ttl) / 1000000) := by
    have := Int.neg_tdiv (-ttl) 1000000
    rw [neg_neg] at this
    rw [this, Int.tdiv_eq_ediv (by omega) (by omega)]
  have hp : ttl < 1000000000 ∨ ttl % 1000000000 ≠ 0 := Or.inl (by omega)
  have hms : ¬ (0 < ttl ∧ ttl < 1000000) := by omega
  have k : -((-ttl) / 1000000) * 1000000 ≤ (0 : Int) := by omega
  simp only [hp, hms, decide_True, if_true, if_false, e1]
  exact k

/-- The commands Redis rejects are those of the negative expirations other than
`KeepTTL`. -/
theorem redis_rejects_iff (ttl : Int) :
    (ttl ≠ 0 ∧ ttl ≠ redis.KeepTTL ∧ redis.ttlSent ttl ≤ 0) ↔
      (ttl < 0 ∧ ttl ≠ redis.KeepTTL) := by
  constructor
  · rintro ⟨h0, hk, hs⟩
    refine ⟨?_, hk⟩
    by_contra hneg
    have hpos : 0 < ttl := by omega
    have := ttlSent_pos ttl hpos
    exact absurd hs (not_le.mpr this)
  · rintro ⟨hneg, hk⟩
    exact ⟨by omega, hk, ttlSent_nonpos ttl hneg⟩

/-- A held key is not claimed. -/
theorem checkAndSet_held (env : Env) (key : String) (ttl : Duration) (w : World)
    (hr : env.redis w.trace.length = none) (hv : ¬ (ttl < 0 ∧ ttl ≠ redis.KeepTTL))
    (hheld : w.holds key = true) :
    RedisIdempotencyStorage.CheckAndSet env key ttl w =
      ((false, none), w.emit (Event.setNX key ttl)) := by
  unfold World.holds at hheld
  unfold RedisIdempotencyStorage.CheckAndSet
  rw [← redis_rejects_iff] at hv
  simp only [hr, hv, hheld, if_true, if_false]

/-- A free key is claimed, with its expiry. -/
theorem checkAndSet_free (env : Env) (key : String) (ttl : Duration) (w : World)
    (hr : env.redis w.trace.length = none) (hv : ¬ (ttl < 0 ∧ ttl ≠ redis.KeepTTL))
    (hfree : w.holds key = false) :
    RedisIdempotencyStorage.CheckAndSet env key ttl w =
      ((true, none), { w.emit (Event.setNX key ttl) with
        redis := w.redis.filter (fun e => !(e.1 == key)) ++
          [(key, if ttl = 0 ∨ ttl = redis.KeepTTL then none
            else some (w.now + redis.ttlSent ttl))] }) := by
  unfold World.holds at hfree
  unfold RedisIdempotencyStorage.CheckAndSet
  rw [← redis_rejects_iff] at hv
  simp only [hr, hv, hfree, Bool.false_eq_true, if_false]

/-- The claim of the notifier: a free key is claimed for ten minutes. -/
theorem checkAndSet_free_ten (env : Env) (key : String) (w : World)
    (hr : env.redis w.trace.length = none) (hfree : w.holds key = false) :
    RedisIdempotencyStorage.CheckAndSet env key (10 * Minute) w =
      ((true, none), { w.emit (Event.setNX key (10 * Minute)) with
        redis := w.redis.filter (fun e => !(e.1 == key)) ++
          [(key, some (w.now + 10 * Minute))] }) := by
  rw [checkAndSet_free env key (10 * Minute) w hr (by decide) hfree]
  have h1 : ¬ ((10 * Minute : Duration) = 0 ∨ (10 * Minute : Duration) = redis.KeepTTL) := by
    decide
  have h2 : redis.ttlSent (10 * Minute) = 10 * Minute := by decide
  simp only [h1, if_false, h2]

/-- A failing Redis command claims nothing and changes nothing. -/
theorem checkAndSet_error (env : Env) (key : String) (ttl : Duration) (w : World)
    (err : Error) (hr : env.redis w.trace.length = some err) :
    RedisIdempotencyStorage.CheckAndSet env key ttl w =
      ((false, some (Error.wrap "failed to setnx key in redis: " err)),
        w.emit (Event.setNX key ttl)) := by
  unfold RedisIdempotencyStorage.CheckAndSet
  simp only [hr]

/-- A command with a negative expiration other than `KeepTTL` is rejected: nothing is
claimed and nothing changes. -/
theorem checkAndSet_rejected (env : Env) (key : String) (ttl : Duration) (w : World)
    (hr : env.redis w.trace.length = none) (hbad : ttl < 0 ∧ ttl ≠ redis.KeepTTL) :
    RedisIdempotencyStorage.CheckAndSet env key ttl w =
      ((false, some (Error.wrap "failed to setnx key in redis: " redis.invalidExpire)),
        w.emit (Event.setNX key ttl)) := by
  unfold RedisIdempotencyStorage.CheckAndSet
  rw [← redis_rejects_iff] at hbad
  simp only [hr]
  rw [if_pos hbad]

/-- Whatever its answer, `CheckAndSet` leaves the world it started in but for the command
issued and, when it claims, the Redis keys. -/
theorem checkAndSet_world (env : Env) (key : String) (ttl : Duration) (w : World) :
    (RedisIdempotencyStorage.CheckAndSet env key ttl w).1.1 = false →
      (RedisIdempotencyStorage.CheckAndSet env key ttl w).2 = w.emit (Event.setNX key ttl) := by
  unfold RedisIdempotencyStorage.CheckAndSet
  cases env.redis w.trace.length with
  | some err => intro _; rfl
  | none =>
    simp only []
    split
    · intro _; rfl
    · split
      · intro _; rfl
      · intro h; cases h

/-- A successful claim: Redis answered, the expiration was accepted, the key was free, and
the world left is the one with the key set. -/
theorem checkAndSet_claimed (env : Env) (key : String) (ttl : Duration) (w w1 : World)
    (h : RedisIdempotencyStorage.CheckAndSet env key ttl w = ((true, none), w1)) :
    env.redis w.trace.length = none ∧ ¬ (ttl < 0 ∧ ttl ≠ redis.KeepTTL) ∧
    w.holds key = false ∧
    w1 = { w.emit (Event.setNX key ttl) with
      redis := w.redis.filter (fun e => !(e.1 == key)) ++
        [(key, if ttl = 0 ∨ ttl = redis.KeepTTL then none
          else some (w.now + redis.ttlSent ttl))] } := by
  cases hr : env.redis w.trace.length with
  | some err =>
    rw [checkAndSet_error env key ttl w err hr] at h
    cases h
  | none =>
    by_cases hv : ttl < 0 ∧ ttl ≠ redis.KeepTTL
    · rw [checkAndSet_rejected env key ttl w hr hv] at h
      cases h
    · cases hh : w.holds key with
      | true =>
        rw [checkAndSet_held env key ttl w hr hv hh] at h
        cases h
      | false =>
        rw [checkAndSet_free env key ttl w hr hv hh] at h
        exact ⟨rfl, hv, rfl, ((Prod.mk.inj h).2).symm⟩

/-- The expiry set by an accepted claim is after every clock that is before the end of the
time to live sent. -/
theorem live_of_claimed (ttl : Int) (now now2 : Int)
    (hv : ¬ (ttl < 0 ∧ ttl ≠ redis.KeepTTL))
    (hl : 0 < ttl → now2 < now + redis.ttlSent ttl) :
    ∀ t, (if ttl = 0 ∨ ttl = redis.KeepTTL then none
      else some (now + redis.ttlSent ttl)) = some t → now2 < t := by
  intro t ht
  by_cases h0 : ttl = 0 ∨ ttl = redis.KeepTTL
  · rw [if_pos h0] at ht
    cases ht
  · rw [if_neg h0] at ht
    have hv2 : ¬ (ttl < 0 ∧ ttl ≠ -1) := hv
    have h02 : ¬ (ttl = 0 ∨ ttl = -1) := h0
    have hpos : 0 < ttl := by omega
    cases ht
    exact hl hpos

/-- A key that is in Redis with no expiry, or with an expiry after the clock, is held. -/
theorem holds_of_kept (key : String) (exp : Option Time) (w2 : World)
    (hmem : (key, exp) ∈ w2.redis) (hlive : ∀ t, exp = some t → w2.now < t) :
    w2.holds key = true := by
  unfold World.holds
  refine List.any_eq_true.mpr ⟨(key, exp), hmem, ?_⟩
  cases exp with
  | none => simp
  | some t => simpa using hlive t rfl

/-- A claim, of any key, keeps every entry of Redis that has not expired. -/
theorem checkAndSet_keeps (env : Env) (key key3 : String) (ttl3 : Duration)
    (exp : Option Time) (w3 : World) (hmem : (key, exp) ∈ w3.redis)
    (hlive : ∀ t, exp = some t → w3.now < t) :
    (key, exp) ∈ (RedisIdempotencyStorage.CheckAndSet env key3 ttl3 w3).2.redis := by
  have hheld := holds_of_kept key exp w3 hmem hlive
  unfold RedisIdempotencyStorage.CheckAndSet
  cases env.redis w3.trace.length with
  | some err => exact hmem
  | none =>
    simp only []
    split
    · exact hmem
    · split
      · exact hmem
      · rename_i hfree
        refine List.mem_append.mpr (Or.inl (List.mem_filter.mpr ⟨hmem, ?_⟩))
        by_cases hk : key = key3
        · exfalso
          apply hfree
          rw [← hk]
          exact hheld
        · simp [hk]

/-- When `CheckAndSet` returns an error, `Manager.Do` returns it wrapped and `fn` is not
run. -/
theorem do_storage_error (m : idempotency.Manager) (key : String) (ttl : Duration)
    (fn : World → Option Error × World) (w w1 : World) (b : Bool) (err : Error)
    (h : m.storage.CheckAndSet key ttl w = ((b, some err), w1)) :
    m.Do key ttl fn w = (some (Error.wrap "idempotency check failed: " err), w1) := by
  simp [idempotency.Manager.Do, h]

/-- C11. When the claim succeeds, `Manager.Do` is one run of `fn` in the world `CheckAndSet`
left: it returns exactly the result of `fn` and does nothing after it.  Over the
Redis storage the claim is the single `SETNX` of the trace, and the key is held in
the world `Do` returns, whether `fn` succeeded or failed, as long as `fn` did not
touch the Redis keys and the time to live has not run out.  The time to live is the
one the command carries, which is `ttl` itself when `ttl` is a whole number of
milliseconds. -/
theorem C11_do_runs_fn_once_and_keeps_key (m : idempotency.Manager) (key : String)
    (ttl : Duration) (fn : World → Option Error × World) (w w1 : World)
    (hclaim : m.storage.CheckAndSet key ttl w = ((true, none), w1)) :
    m.Do key ttl fn w = fn w1 ∧
    ∀ env : Env, m.storage.CheckAndSet = RedisIdempotencyStorage.CheckAndSet env →
      w1.trace = w.trace ++ [Event.setNX key ttl] ∧
      w1.holds key = true ∧
      ((fn w1).2.redis = w1.redis → (0 < ttl → (fn w1).2.now < w.now + redis.ttlSent ttl) →
        (m.Do key ttl fn w).2.holds key = true) ∧
      (0 < ttl → ttl % Millisecond = 0 → redis.ttlSent ttl = ttl) := by
  have hdo : m.Do key ttl fn w = fn w1 := by
    simp [idempotency.Manager.Do, hclaim]
  refine ⟨hdo, ?_⟩
  intro env hst
  rw [hst] at hclaim
  obtain ⟨-, hv, -, hw1⟩ := checkAndSet_claimed env key ttl w w1 hclaim
  have hmem : (key, if ttl = 0 ∨ ttl = redis.KeepTTL then none
      else some (w.now + redis.ttlSent ttl)) ∈ w1.redis := by
    rw [hw1]
    exact List.mem_append.mpr (Or.inr (List.mem_singleton.mpr rfl))
  have hlive : ∀ now2 : Time, (0 < ttl → now2 < w.now + redis.ttlSent ttl) →
      ∀ t, (if ttl = 0 ∨ ttl = redis.KeepTTL then none
        else some (w.now + redis.ttlSent ttl)) = some t → now2 < t :=
    fun now2 hl => live_of_claimed ttl w.now now2 hv hl
  refine ⟨by rw [hw1]; rfl, ?_, ?_, fun h0 hm => ttlSent_whole ttl h0 hm⟩
  · refine holds_of_kept key _ w1 hmem (hlive w1.now (fun h => ?_))
    rw [hw1]
    exact lt_add_of_pos_right _ (ttlSent_pos ttl h)
  · intro hkeys hl
    rw [hdo]
    exact holds_of_kept key _ (fn w1).2 (by rw [hkeys]; exact hmem) (hlive _ hl)

/-- C12. Over the Redis storage, two invocations of `Manager.Do` with the same key.  The one
whose claim succeeds runs its function once, in the world the claim left, where the
key is set with the expiry of the claim.  The other, reaching the store in any later
world in which that entry is still in Redis and the clock is before its expiry, does
not run its function, whatever its own expiration is, and returns nil when Redis
answers and that expiration is one Redis accepts.  No claim made in between, of this
or of another key, removes the entry before its expiry. -/
theorem C12_two_invocations_run_fn_once (env : Env) (key : String) (ttl1 : Duration)
    (fn1 fn2 : World → Option Error × World) (w w1 w2 : World)
    (hclaim : RedisIdempotencyStorage.CheckAndSet env key ttl1 w = ((true, none), w1))
    (hkept : (key, if ttl1 = 0 ∨ ttl1 = redis.KeepTTL then none
      else some (w.now + redis.ttlSent ttl1)) ∈ w2.redis)
    (hlive : 0 < ttl1 → w2.now < w.now + redis.ttlSent ttl1) :
    (worker.idempotencyManager env).Do key ttl1 fn1 w = fn1 w1 ∧
    (key, if ttl1 = 0 ∨ ttl1 = redis.KeepTTL then none
      else some (w.now + redis.ttlSent ttl1)) ∈ w1.redis ∧
    (∀ ttl2 : Duration, ((worker.idempotencyManager env).Do key ttl2 fn2 w2).2 =
      w2.emit (Event.setNX key ttl2)) ∧
    (∀ ttl2 : Duration, env.redis w2.trace.length = none →
      ¬ (ttl2 < 0 ∧ ttl2 ≠ redis.KeepTTL) →
      (worker.idempotencyManager env).Do key ttl2 fn2 w2 =
        (none, w2.emit (Event.setNX key ttl2))) ∧
    (∀ (key3 : String) (ttl3 : Duration) (w3 : World),
      (key, if ttl1 = 0 ∨ ttl1 = redis.KeepTTL then none
        else some (w.now + redis.ttlSent ttl1)) ∈ w3.redis →
      (0 < ttl1 → w3.now < w.now + redis.ttlSent ttl1) →
      (key, if ttl1 = 0 ∨ ttl1 = redis.KeepTTL then none
        else some (w.now + redis.ttlSent ttl1)) ∈
        (RedisIdempotencyStorage.CheckAndSet env key3 ttl3 w3).2.redis) := by
  obtain ⟨-, hv, -, hw1⟩ := checkAndSet_claimed env key ttl1 w w1 hclaim
  have hlive2 : ∀ now2 : Time, (0 < ttl1 → now2 < w.now + redis.ttlSent ttl1) →
      ∀ t, (if ttl1 = 0 ∨ ttl1 = redis.KeepTTL then none
        else some (w.now + redis.ttlSent ttl1)) = some t → now2 < t :=
    fun now2 hl => live_of_claimed ttl1 w.now now2 hv hl
  have hheld : w2.holds key = true := holds_of_kept key _ w2 hkept (hlive2 _ hlive)
  refine ⟨?_, ?_, ?_, ?_, ?_⟩
  · simp [idempotency.Manager.Do, worker.idempotencyManager, idempotency.NewManager,
      NewRedisIdempotencyStorage, hclaim]
  · rw [hw1]
    exact List.mem_append.mpr (Or.inr (List.mem_singleton.mpr rfl))
  · intro ttl2
    cases hr : env.redis w2.trace.length with
    | some err =>
      simp [idempotency.Manager.Do, worker.idempotencyManager, idempotency.NewManager,
        NewRedisIdempotencyStorage, checkAndSet_error env key ttl2 w2 err hr]
    | none =>
      by_cases hv2 : ttl2 < 0 ∧ ttl2 ≠ redis.KeepTTL
      · simp [idempotency.Manager.Do, worker.idempotencyManager, idempotency.NewManager,
          NewRedisIdempotencyStorage, checkAndSet_rejected env key ttl2 w2 hr hv2]
      · simp [idempotency.Manager.Do, worker.idempotencyManager, idempotency.NewManager,
          NewRedisIdempotencyStorage, checkAndSet_held env key ttl2 w2 hr hv2 hheld]
  · intro ttl2 hr hv2
    simp [idempotency.Manager.Do, worker.idempotencyManager, idempotency.NewManager,
      NewRedisIdempotencyStorage, checkAndSet_held env key ttl2 w2 hr hv2 hheld]
  · intro key3 ttl3 w3 hm hl
    exact checkAndSet_keeps env key key3 ttl3 _ w3 hm (hlive2 _ hl)

/-- C20. When the Redis command of `CheckAndSet` fails: `Manager.Do` returns the error of
`CheckAndSet` wrapped, whatever `fn` is, which is not run; the iteration of `Notify`
on the delivery only issues that command, so nothing is sent, no status is updated,
the deliveries (and the Redis keys) are as before; and in any later world in which
Redis works and the key is not held, the iteration of `Notify` on that delivery claims
the key and runs the guarded closure. -/
theorem C20_guard_error_leaves_delivery_pending (env : Env) (w : World) (d : domain.Delivery)
    (err : Error) (herr : env.redis w.trace.length = some err) :
    (∀ (key : String) (ttl : Duration) (fn : World → Option Error × World),
      (worker.idempotencyManager env).Do key ttl fn w =
        (some (Error.wrap "idempotency check failed: "
          (Error.wrap "failed to setnx key in redis: " err)), w.emit (Event.setNX key ttl))) ∧
    Notify.body env (worker.idempotencyManager env) w d =
      w.emit (Event.setNX (Notify.idempotencyKey d) (10 * Minute)) ∧
    (Notify.body env (worker.idempotencyManager env) w d).deliveries = w.deliveries ∧
    World.sent env (Notify.body env (worker.idempotencyManager env) w d) = World.sent env w ∧
    (Notify.body env (worker.idempotencyManager env) w d).holds (Notify.idempotencyKey d) =
      w.holds (Notify.idempotencyKey d) ∧
    ∀ w2 : World, env.redis w2.trace.length = none →
      w2.holds (Notify.idempotencyKey d) = false →
      ∃ w3, RedisIdempotencyStorage.CheckAndSet env (Notify.idempotencyKey d) (10 * Minute) w2 =
          ((true, none), w3) ∧
        Notify.body env (worker.idempotencyManager env) w2 d = (Notify.fn env d w3).2 := by
  have hdo : ∀ (key : String) (ttl : Duration) (fn : World → Option Error × World),
      (worker.idempotencyManager env).Do key ttl fn w =
        (some (Error.wrap "idempotency check failed: "
          (Error.wrap "failed to setnx key in redis: " err)), w.emit (Event.setNX key ttl)) :=
    fun key ttl fn => do_storage_error (worker.idempotencyManager env) key ttl fn w _ false _
      (checkAndSet_error env key ttl w err herr)
  have hbody : Notify.body env (worker.idempotencyManager env) w d =
      w.emit (Event.setNX (Notify.idempotencyKey d) (10 * Minute)) := by
    unfold Notify.body
    rw [hdo]
  refine ⟨hdo, hbody, by rw [hbody]; rfl, ?_, by rw [hbody]; rfl, ?_⟩
  · rw [hbody]
    simp [World.sent, sentFrom_append, sentFrom]
  · intro w2 hr2 hfree
    exact ⟨_, checkAndSet_free env _ _ w2 hr2 (by decide) hfree,
      notify_body_claimed env (worker.idempotencyManager env) w2 _ d
        (checkAndSet_free env _ _ w2 hr2 (by decide) hfree)⟩

/-- Evaluation on the example world.  Redis is down at the first cycle and back at the second: the first
`Notify` leaves the delivery pending and sends nothing, the second sends the message
and marks the delivery sent. -/
theorem notify_after_redis_outage :
    (Notify Example.envRedisDownOnce (worker.idempotencyManager Example.envRedisDownOnce)
      Example.notifyWorld).2.deliveries = [Example.delivery] ∧
    World.sent Example.envRedisDownOnce
      (Notify Example.envRedisDownOnce (worker.idempotencyManager Example.envRedisDownOnce)
        Example.notifyWorld).2 = [] ∧
    (Notify Example.envRedisDownOnce (worker.idempotencyManager Example.envRedisDownOnce)
      (Notify Example.envRedisDownOnce (worker.idempotencyManager Example.envRedisDownOnce)
        Example.notifyWorld).2).2.deliveries.map (fun d => (d.ID, d.Status)) =
      [(Example.delivery.ID, "sent")] ∧
    World.sent Example.envRedisDownOnce
      (Notify Example.envRedisDownOnce (worker.idempotencyManager Example.envRedisDownOnce)
        (Notify Example.envRedisDownOnce (worker.idempotencyManager Example.envRedisDownOnce)
          Example.notifyWorld).2).2 = [("chan", Notify.message Example.release)] := by
  decide

/-- C11 (witness). The guard of the example delivery claimed over Redis around the marking
closure, which fails: its result is returned and the key is held afterwards. -/
theorem C11_witness :
    (worker.idempotencyManager Example.env).Do (Notify.idempotencyKey Example.delivery)
      (10 * Minute) Example.mark Example.notifyWorld =
      Example.mark (Example.claimed Example.notifyWorld) ∧
    ∀ env : Env, (worker.idempotencyManager Example.env).storage.CheckAndSet =
        RedisIdempotencyStorage.CheckAndSet env →
      (Example.claimed Example.notifyWorld).trace = Example.notifyWorld.trace ++
        [Event.setNX (Notify.idempotencyKey Example.delivery) (10 * Minute)] ∧
      (Example.claimed Example.notifyWorld).holds (Notify.idempotencyKey Example.delivery) =
        true ∧
      ((Example.mark (Example.claimed Example.notifyWorld)).2.redis =
          (Example.claimed Example.notifyWorld).redis →
        (0 < 10 * Minute → (Example.mark (Example.claimed Example.notifyWorld)).2.now <
          Example.notifyWorld.now + redis.ttlSent (10 * Minute)) →
        ((worker.idempotencyManager Example.env).Do (Notify.idempotencyKey Example.delivery)
          (10 * Minute) Example.mark Example.notifyWorld).2.holds
          (Notify.idempotencyKey Example.delivery) = true) ∧
      (0 < 10 * Minute → 10 * Minute % Millisecond = 0 →
        redis.ttlSent (10 * Minute) = 10 * Minute) :=
  C11_do_runs_fn_once_and_keeps_key (worker.idempotencyManager Example.env)
    (Notify.idempotencyKey Example.delivery) (10 * Minute) Example.mark Example.notifyWorld
    (Example.claimed Example.notifyWorld) (by rfl)

/-- C12 (witness). Two guards of the example delivery: the first claims the key and runs its
closure; another key is claimed; the second guard, reaching Redis after that, does not
run its closure and returns nil. -/
theorem C12_witness :
    (worker.idempotencyManager Example.env).Do (Notify.idempotencyKey Example.delivery)
      (10 * Minute) Example.mark Example.notifyWorld =
      Example.mark (Example.claimed Example.notifyWorld) ∧
    (Notify.idempotencyKey Example.delivery,
      if 10 * Minute = 0 ∨ 10 * Minute = redis.KeepTTL then none
      else some (Example.notifyWorld.now + redis.ttlSent (10 * Minute))) ∈
      (Example.claimed Example.notifyWorld).redis ∧
    (∀ ttl2 : Duration,
      ((worker.idempotencyManager Example.env).Do (Notify.idempotencyKey Example.delivery)
        ttl2 Example.mark (Example.later Example.notifyWorld)).2 =
      (Example.later Example.notifyWorld).emit
        (Event.setNX (Notify.idempotencyKey Example.delivery) ttl2)) ∧
    (∀ ttl2 : Duration,
      Example.env.redis (Example.later Example.notifyWorld).trace.length = none →
      ¬ (ttl2 < 0 ∧ ttl2 ≠ redis.KeepTTL) →
      (worker.idempotencyManager Example.env).Do (Notify.idempotencyKey Example.delivery)
        ttl2 Example.mark (Example.later Example.notifyWorld) =
        (none, (Example.later Example.notifyWorld).emit
          (Event.setNX (Notify.idempotencyKey Example.delivery) ttl2))) ∧
    (∀ (key3 : String) (ttl3 : Duration) (w3 : World),
      (Notify.idempotencyKey Example.delivery,
        if 10 * Minute = 0 ∨ 10 * Minute = redis.KeepTTL then none
        else some (Example.notifyWorld.now + redis.ttlSent (10 * Minute))) ∈ w3.redis →
      (0 < 10 * Minute → w3.now < Example.notifyWorld.now + redis.ttlSent (10 * Minute)) →
      (Notify.idempotencyKey Example.delivery,
        if 10 * Minute = 0 ∨ 10 * Minute = redis.KeepTTL then none
        else some (Example.notifyWorld.now + redis.ttlSent (10 * Minute))) ∈
        (RedisIdempotencyStorage.CheckAndSet Example.env key3 ttl3 w3).2.redis) :=
  C12_two_invocations_run_fn_once Example.env (Notify.idempotencyKey Example.delivery)
    (10 * Minute) Example.mark Example.mark Example.notifyWorld
    (Example.claimed Example.notifyWorld) (Example.later Example.notifyWorld) (by rfl)
    (by decide) (by decide)

/-- C20 (witness). The iteration of `Notify` on the example delivery at the position of the
trace where Redis is down. -/
theorem C20_witness :
    (∀ (key : String) (ttl : Duration) (fn : World → Option Error × World),
      (worker.idempotencyManager Example.envRedisDownOnce).Do key ttl fn
        (Example.notifyWorld.emit Event.listPendingDeliveries) =
        (some (Error.wrap "idempotency check failed: "
          (Error.wrap "failed to setnx key in redis: "
            { text := "connection refused", notFound := false })),
          (Example.notifyWorld.emit Event.listPendingDeliveries).emit (Event.setNX key ttl))) ∧
    Notify.body Example.envRedisDownOnce (worker.idempotencyManager Example.envRedisDownOnce)
      (Example.notifyWorld.emit Event.listPendingDeliveries) Example.delivery =
      (Example.notifyWorld.emit Event.listPendingDeliveries).emit
        (Event.setNX (Notify.idempotencyKey Example.delivery) (10 * Minute)) ∧
    (Notify.body Example.envRedisDownOnce (worker.idempotencyManager Example.envRedisDownOnce)
      (Example.notifyWorld.emit Event.listPendingDeliveries) Example.delivery).deliveries =
      (Example.notifyWorld.emit Event.listPendingDeliveries).deliveries ∧
    World.sent Example.envRedisDownOnce
      (Notify.body Example.envRedisDownOnce (worker.idempotencyManager Example.envRedisDownOnce)
        (Example.notifyWorld.emit Event.listPendingDeliveries) Example.delivery) =
      World.sent Example.envRedisDownOnce
        (Example.notifyWorld.emit Event.listPendingDeliveries) ∧
    (Notify.body Example.envRedisDownOnce (worker.idempotencyManager Example.envRedisDownOnce)
      (Example.notifyWorld.emit Event.listPendingDeliveries) Example.delivery).holds
      (Notify.idempotencyKey Example.delivery) =
      (Example.notifyWorld.emit Event.listPendingDeliveries).holds
        (Notify.idempotencyKey Example.delivery) ∧
    ∀ w2 : World, Example.envRedisDownOnce.redis w2.trace.length = none →
      w2.holds (Notify.idempotencyKey Example.delivery) = false →
      ∃ w3, RedisIdempotencyStorage.CheckAndSet Example.envRedisDownOnce
          (Notify.idempotencyKey Example.delivery) (10 * Minute) w2 = ((true, none), w3) ∧
        Notify.body Example.envRedisDownOnce
          (worker.idempotencyManager Example.envRedisDownOnce) w2 Example.delivery =
          (Notify.fn Example.envRedisDownOnce Example.delivery w3).2 :=
  C20_guard_error_leaves_delivery_pending Example.envRedisDownOnce
    (Example.notifyWorld.emit Event.listPendingDeliveries) Example.delivery
    { text := "connection refused", notFound := false } (by rfl)

/-! ## What the poll writes back, and when -/

/-- The retry loop keeps every relation on worlds that is reflexive, transitive and kept by
sleeping and by the retried function. -/
theorem retry_loop_rel {α : Type} (R : World → World → Prop) (hrefl : ∀ w, R w w)
    (htrans : ∀ a b c, R a b → R b c → R a c) (hsleep : ∀ d w, R (time.Sleep d w) w)
    (fn : α → World → Option Error × α × World) (hfn : ∀ a w, R (fn a w).2.2 w) (n : Nat) :
    ∀ (i : Nat) (sleep : Duration) (err : Option Error) (a : α) (w : World),
      R (retry.loop fn n i sleep err a w).2.2 w := by
  induction n with
  | zero => intro i sleep err a w; exact hrefl w
  | succ n ih =>
    intro i sleep err a w
    unfold retry.loop
    have hw1 : R (if 0 < i then time.Sleep sleep w else w) w := by
      split
      · exact hsleep sleep w
      · exact hrefl w
    have h2 := hfn a (if 0 < i then time.Sleep sleep w else w)
    simp only []
    split
    · rename_i heq
      rw [heq] at h2
      exact htrans _ _ _ h2 hw1
    · rename_i heq
      rw [heq] at h2
      exact htrans _ _ _ (ih _ _ _ _ _) (htrans _ _ _ h2 hw1)

/-- C16 (evaluation). Three runs of `PollReleases`, ten minutes into the example.  With two
due repos listed, only the first is asked of the API and written back, the second
is left as it was.  A repo checked a minute ago, not due for the five-minute period,
is polled all the same.  A due repo that belongs to a user is not polled: a dummy
user and the dummy repo `golang/go` are created and that one is polled. -/
theorem C16_polls_one_repo_whether_due_or_not :
    (Example.repo.LastCheckedAt + worker.pollerInterval ≤ Example.twoDue.now ∧
      Example.gadget.LastCheckedAt + worker.pollerInterval ≤ Example.twoDue.now ∧
      apiCalls (PollReleases Example.env Example.twoDue).2.trace = [("acme", "widget")] ∧
      (repoWrites (PollReleases Example.env Example.twoDue).2.trace).map (fun r => r.Name) =
        ["widget"] ∧
      (PollReleases Example.env Example.twoDue).2.repos.filter
        (fun r => r.ID == Example.gadget.ID) = [Example.gadget]) ∧
    (¬ (9 * Minute + worker.pollerInterval ≤ Example.notDue.now) ∧
      Example.notDue.repos.map (fun r => (r.Name, r.LastCheckedAt)) =
        [("widget", 9 * Minute)] ∧
      apiCalls (PollReleases Example.env Example.notDue).2.trace = [("acme", "widget")] ∧
      (PollReleases Example.env Example.notDue).2.repos.map
        (fun r => (r.Name, r.LastCheckedAt)) = [("widget", 10 * Minute)]) ∧
    (Example.owned.repos.map (fun r => (r.Name, r.UserID, r.LastCheckedAt)) =
        [("widget", Example.user.ID, 0)] ∧
      (0 : Time) + worker.pollerInterval ≤ Example.owned.now ∧
      apiCalls (PollReleases Example.env Example.owned).2.trace = [("golang", "go")] ∧
      (PollReleases Example.env Example.owned).2.repos.map
        (fun r => (r.Owner, r.Name, r.LastCheckedAt)) =
        [("acme", "widget", 0), ("golang", "go", 10 * Minute)]) := by
  decide

/-- Evaluation on the example world.  The lookup of the existing release (position 2 of the trace), or the
insert of the new release (position 4), fails: `PollReleases` returns the error and the
stores are as before. -/
theorem poll_aborts_on_lookup_or_insert_failure :
    ((PollReleases (Example.envDbFailsAt 2) Example.world).1 =
        some (Error.wrap "PollerUseCase.PollReleases: failed to check for existing release: "
          Example.dbError) ∧
      (PollReleases (Example.envDbFailsAt 2) Example.world).2.repos = Example.world.repos ∧
      (PollReleases (Example.envDbFailsAt 2) Example.world).2.releases = []) ∧
    ((PollReleases (Example.envDbFailsAt 4) Example.world).1 =
        some (Error.wrap "PollerUseCase.PollReleases: failed to create new release: "
          Example.dbError) ∧
      (PollReleases (Example.envDbFailsAt 4) Example.world).2.repos = Example.world.repos ∧
      (PollReleases (Example.envDbFailsAt 4) Example.world).2.releases = []) := by
  decide

/-- C27. For `attempts ≤ 0`, `retry.Do` returns nil and leaves the captured variables and
the world as they were: `fn` is not called (the log of calls is empty) and nothing
is slept. -/
theorem C27_retry_without_attempts_returns_nil {α : Type} (attempts : Int) (sleep : Duration)
    (fn : α → World → Option Error × α × World) (a : α) (w : World) (h : attempts ≤ 0) :
    retry.Do attempts sleep fn a w = (none, a, w) ∧
    retry.Do attempts sleep (retry.logged fn) ([], a) w = (none, ([], a), w) ∧
    sleeps (retry.Do attempts sleep fn a w).2.2.trace = sleeps w.trace := by
  have h0 : attempts.toNat = 0 := by omega
  refine ⟨?_, ?_, ?_⟩
  · unfold retry.Do
    rw [h0]
    rfl
  · unfold retry.Do
    rw [h0]
    rfl
  · unfold retry.Do
    rw [h0]
    rfl

/-- C27 (witness). A function that always fails, retried zero times: nil. -/
theorem C27_witness :
    retry.Do 0 (2 * Second) Example.failing () Example.world = (none, (), Example.world) ∧
    retry.Do 0 (2 * Second) (retry.logged Example.failing) ([], ()) Example.world =
      (none, ([], ()), Example.world) ∧
    sleeps (retry.Do 0 (2 * Second) Example.failing () Example.world).2.2.trace =
      sleeps Example.world.trace :=
  C27_retry_without_attempts_returns_nil 0 (2 * Second) Example.failing () Example.world
    (by decide)

/-! ## The idempotency key of the notifier -/

theorem hexDigit_mod (n : Nat) : hexDigit n = hexDigit (n % 16) := by
  simp [hexDigit, Nat.mod_mod]

theorem hexDigit_inj_lt :
    ∀ a : Fin 16, ∀ b : Fin 16, hexDigit a.val = hexDigit b.val → a = b := by decide

theorem hexDigit_inj (a b : Nat) (h : hexDigit a = hexDigit b) : a % 16 = b % 16 := by
  rw [hexDigit_mod a, hexDigit_mod b] at h
  exact congrArg Fin.val
    (hexDigit_inj_lt ⟨a % 16, Nat.mod_lt _ (by decide)⟩ ⟨b % 16, Nat.mod_lt _ (by decide)⟩ h)

theorem hexDigits_length (k n : Nat) : (hexDigits k n).length = k := by
  induction k generalizing n with
  | zero => rfl
  | succ k ih => simp [hexDigits, ih]

theorem hexDigits_inj (k : Nat) :
    ∀ n m, hexDigits k n = hexDigits k m → n % 16 ^ k = m % 16 ^ k := by
  induction k with
  | zero => intro n m _; simp [Nat.mod_one]
  | succ k ih =>
    intro n m h
    simp only [hexDigits] at h
    have h2 := List.append_inj h (by simp [hexDigits_length])
    have h3 := ih _ _ h2.1
    have h4 := hexDigit_inj n m (by simpa using h2.2)
    rw [pow_succ, Nat.mul_comm, Nat.mod_mul, Nat.mod_mul, h3, h4]

/-- The rendering of a UUID has 36 characters. -/
theorem uuid_string_length (u : UUID) : u.String.length = 36 := by
  simp [UUID.String, String.length, hexDigits_length]

/-- A list of 32 digits is recovered from its five groups. -/
theorem groups_eq (h : List Char) :
    h = h.take 8 ++ ((h.drop 8).take 4 ++ ((h.drop 12).take 4 ++ ((h.drop 16).take 4 ++
      h.drop 20))) := by
  have e1 := List.take_append_drop 8 h
  have e2 := List.take_append_drop 4 (h.drop 8)
  have e3 := List.take_append_drop 4 (h.drop 12)
  have e4 := List.take_append_drop 4 (h.drop 16)
  rw [List.drop_drop] at e2 e3 e4
  simp only [Nat.reduceAdd] at e2 e3 e4
  rw [e4, e3, e2, e1]

/-- The five groups of a rendering determine the 32 digits. -/
theorem groups_inj (a b : List Char) (la : a.length = 32) (lb : b.length = 32)
    (h : a.take 8 ++ '-' :: (a.drop 8).take 4 ++ '-' :: (a.drop 12).take 4 ++ '-' ::
        (a.drop 16).take 4 ++ '-' :: a.drop 20 =
      b.take 8 ++ '-' :: (b.drop 8).take 4 ++ '-' :: (b.drop 12).take 4 ++ '-' ::
        (b.drop 16).take 4 ++ '-' :: b.drop 20) : a = b := by
  have h1 := List.append_inj' h (by simp [la, lb])
  have h2 := List.append_inj' h1.1 (by simp [la, lb])
  have h3 := List.append_inj' h2.1 (by simp [la, lb])
  have h4 := List.append_inj' h3.1 (by simp [la, lb])
  rw [groups_eq a, groups_eq b, h4.1, (List.cons.inj h4.2).2, (List.cons.inj h3.2).2,
    (List.cons.inj h2.2).2, (List.cons.inj h1.2).2]

/-- Two UUIDs with the same rendering are equal. -/
theorem uuid_string_inj (u v : UUID) (h : u.String = v.String) : u = v := by
  have hd := congrArg String.data h
  simp only [UUID.String] at hd
  have e := hexDigits_inj 32 _ _
    (groups_inj _ _ (hexDigits_length 32 u.val.val) (hexDigits_length 32 v.val.val) hd)
  have hu : u.val.val % 16 ^ 32 = u.val.val := Nat.mod_eq_of_lt (by
    have := u.val.isLt
    norm_num at this ⊢
    exact this)
  have hv : v.val.val % 16 ^ 32 = v.val.val := Nat.mod_eq_of_lt (by
    have := v.val.isLt
    norm_num at this ⊢
    exact this)
  rw [hu, hv] at e
  cases u with
  | mk x =>
    cases v with
    | mk y =>
      have : x = y := Fin.ext e
      rw [this]

/-- Equal keys come from equal release ids, user ids and channels. -/
theorem idempotencyKey_inj (d1 d2 : domain.Delivery)
    (h : Notify.idempotencyKey d1 = Notify.idempotencyKey d2) :
    d1.ReleaseID = d2.ReleaseID ∧ d1.UserID = d2.UserID ∧ d1.Channel = d2.Channel := by
  have hd := congrArg String.data h
  simp only [Notify.idempotencyKey, String.data_append] at hd
  have h1 := List.append_inj hd (by simp [uuid_string_length])
  have h2 := List.append_inj' h1.1 rfl
  have h3 := List.append_inj' h2.1 (by simp [uuid_string_length])
  have h4 := List.append_inj' h3.1 rfl
  have h5 := List.append_inj' h4.1 (by simp [uuid_string_length])
  exact ⟨uuid_string_inj _ _ (String.ext h5.2), uuid_string_inj _ _ (String.ext h3.2),
    String.ext h1.2⟩

/-- C26. Two deliveries have the same idempotency key only if they have the same release
id, the same user id and the same channel, whatever characters the channel holds; each
id is rendered in 36 characters. -/
theorem C26_idempotency_key_injective (d1 d2 : domain.Delivery)
    (h : Notify.idempotencyKey d1 = Notify.idempotencyKey d2) :
    d1.ReleaseID = d2.ReleaseID ∧ d1.UserID = d2.UserID ∧ d1.Channel = d2.Channel ∧
    d1.ReleaseID.String.length = 36 ∧ d1.UserID.String.length = 36 :=
  ⟨(idempotencyKey_inj d1 d2 h).1, (idempotencyKey_inj d1 d2 h).2.1,
    (idempotencyKey_inj d1 d2 h).2.2, uuid_string_length _, uuid_string_length _⟩

/-- C26 (witness). The example delivery and its duplicate under another id have the same key,
and the same release, user and channel. -/
theorem C26_witness :
    Example.delivery.ReleaseID = Example.duplicate.ReleaseID ∧
    Example.delivery.UserID = Example.duplicate.UserID ∧
    Example.delivery.Channel = Example.duplicate.Channel ∧
    Example.delivery.ReleaseID.String.length = 36 ∧
    Example.delivery.UserID.String.length = 36 :=
  C26_idempotency_key_injective Example.delivery Example.duplicate rfl

/-! ## What one iteration of the notifier does

The closure of `Notify` is a sequence of lookups and sends, which touch no store,
followed by at most one `UpdateDeliveryStatus` with one of the statuses sent, failed,
skipped. -/

theorem guardCalls_append (a b : List Event) :
    guardCalls (a ++ b) = guardCalls a ++ guardCalls b := by
  induction a with
  | nil => rfl
  | cons e t ih =>
    cases e with
    | setNX k x => simp [guardCalls, ih]
    | _ => simp [guardCalls, ih]

theorem statusWrites_append (a b : List Event) :
    statusWrites (a ++ b) = statusWrites a ++ statusWrites b := by
  induction a with
  | nil => rfl
  | cons e t ih =>
    cases e with
    | updateDeliveryStatus i s l n => simp [statusWrites, ih]
    | _ => simp [statusWrites, ih]

theorem World.quiet_refl (w : World) : w.quiet w :=
  ⟨World.sameStores_refl w, rfl, rfl, Int.le_refl _⟩

theorem World.quiet_trans {a b c : World} (h1 : a.quiet b) (h2 : b.quiet c) : a.quiet c :=
  ⟨World.sameStores_trans h2.1 h1.1, h2.2.1.trans h1.2.1, h2.2.2.1.trans h1.2.2.1,
    Int.le_trans h1.2.2.2 h2.2.2.2⟩

theorem World.quiet_emit (w : World) (e : Event) (h1 : guardCalls [e] = [])
    (h2 : statusWrites [e] = []) : w.quiet (w.emit e) := by
  refine ⟨World.sameStores_emit _ _, ?_, ?_, Int.le_refl _⟩
  · simp [guardCalls_append, h1]
  · simp [statusWrites_append, h2]

theorem World.quiet_sleep (d : Duration) (w : World) : w.quiet (time.Sleep d w) := by
  refine ⟨time_Sleep_sameStores d w, ?_, ?_, ?_⟩
  · simp [time.Sleep, guardCalls_append, guardCalls]
  · simp [time.Sleep, statusWrites_append, statusWrites]
  · simp only [time.Sleep]
    exact Int.le_add_of_nonneg_right (le_max_right _ _)

/-- The Telegram adapter only sends and sleeps. -/
theorem sendMessage_quiet (env : Env) (chatID text : String) (w : World) :
    w.quiet (telegram.telegramClient.SendMessage env chatID text w).2 := by
  unfold telegram.telegramClient.SendMessage retry.Do
  exact retry_loop_rel (fun a b => b.quiet a) World.quiet_refl
    (fun _ _ _ h1 h2 => World.quiet_trans h2 h1) (fun d w => World.quiet_sleep d w) _
    (fun a w0 => by
      simp only []
      split <;> exact World.quiet_emit _ _ rfl rfl) _ _ _ _ _ _

theorem getReleaseByID_quiet (env : Env) (id : UUID) (w : World) :
    w.quiet (PostgresStore.GetReleaseByID env id w).2 := by
  unfold PostgresStore.GetReleaseByID
  split <;> exact World.quiet_emit _ _ rfl rfl

theorem getUserByID_quiet (env : Env) (id : UUID) (w : World) :
    w.quiet (PostgresStore.GetUserByID env id w).2 := by
  unfold PostgresStore.GetUserByID
  split <;> exact World.quiet_emit _ _ rfl rfl

/-- The closure of `Notify` for a delivery: lookups and sends, then either nothing more or
one `UpdateDeliveryStatus` of the delivery's id with a status among sent, failed,
skipped and the attempt count plus one. -/
theorem notify_fn_effect (env : Env) (d : domain.Delivery) (w : World) :
    ∃ wq, w.quiet wq ∧ ((Notify.fn env d w).2 = wq ∨
      ∃ s e, terminalStatus s ∧ Notify.fn env d w =
        PostgresStore.UpdateDeliveryStatus env d.ID s e (wrapInt64 (d.Attempt + 1)) wq) := by
  unfold Notify.fn
  have q1 := getReleaseByID_quiet env d.ReleaseID w
  split
  · rename_i h
    rw [h] at q1
    exact ⟨_, q1, Or.inl rfl⟩
  · rename_i h
    rw [h] at q1
    exact ⟨_, q1, Or.inr ⟨"skipped", _, Or.inr (Or.inr rfl), rfl⟩⟩
  · rename_i release w1 h
    rw [h] at q1
    have q2 := getUserByID_quiet env d.UserID w1
    split
    · rename_i h2
      rw [h2] at q2
      exact ⟨_, World.quiet_trans q1 q2, Or.inl rfl⟩
    · rename_i h2
      rw [h2] at q2
      exact ⟨_, World.quiet_trans q1 q2, Or.inr ⟨"skipped", _, Or.inr (Or.inr rfl), rfl⟩⟩
    · rename_i u w2 h2
      rw [h2] at q2
      have q3 := sendMessage_quiet env d.Channel (Notify.message release) w2
      split
      · rename_i h3
        rw [h3] at q3
        exact ⟨_, World.quiet_trans q1 (World.quiet_trans q2 q3),
          Or.inr ⟨"failed", _, Or.inr (Or.inl rfl), rfl⟩⟩
      · rename_i h3
        rw [h3] at q3
        exact ⟨_, World.quiet_trans q1 (World.quiet_trans q2 q3),
          Or.inr ⟨"sent", _, Or.inl rfl, rfl⟩⟩

/-- One iteration of the loop of `Notify` over the Redis guard: either only the `SETNX` is
issued (the command failed or the key is held), or the key was free, is claimed for
ten minutes, and the closure runs. -/
theorem notify_body_effect (env : Env) (d : domain.Delivery) (w : World) :
    Notify.body env (worker.idempotencyManager env) w d =
      w.emit (Event.setNX (Notify.idempotencyKey d) (10 * Minute)) ∨
    (env.redis w.trace.length = none ∧ w.holds (Notify.idempotencyKey d) = false ∧
      ∃ wq, World.quiet { w.emit (Event.setNX (Notify.idempotencyKey d) (10 * Minute)) with
          redis := w.redis.filter (fun e => !(e.1 == Notify.idempotencyKey d)) ++
            [(Notify.idempotencyKey d, some (w.now + 10 * Minute))] } wq ∧
        (Notify.body env (worker.idempotencyManager env) w d = wq ∨
          ∃ s e, terminalStatus s ∧ Notify.body env (worker.idempotencyManager env) w d =
            (PostgresStore.UpdateDeliveryStatus env d.ID s e
              (wrapInt64 (d.Attempt + 1)) wq).2)) := by
  unfold Notify.body worker.idempotencyManager idempotency.NewManager
    NewRedisIdempotencyStorage idempotency.Manager.Do
  simp only []
  cases hr : env.redis w.trace.length with
  | some err =>
    left
    rw [checkAndSet_error env _ _ w err hr]
  | none =>
    cases hh : w.holds (Notify.idempotencyKey d) with
    | true =>
      left
      rw [checkAndSet_held env _ _ w hr (by decide) hh]
    | false =>
      right
      refine ⟨rfl, rfl, ?_⟩
      rw [checkAndSet_free_ten env _ w hr hh]
      simp only []
      obtain ⟨wq, hq, hcase⟩ := notify_fn_effect env d
        { w.emit (Event.setNX (Notify.idempotencyKey d) (10 * Minute)) with
          redis := w.redis.filter (fun e => !(e.1 == Notify.idempotencyKey d)) ++
            [(Notify.idempotencyKey d, some (w.now + 10 * Minute))] }
      refine ⟨wq, hq, ?_⟩
      rcases hcase with h | ⟨s, e, hs, h⟩
      · exact Or.inl h
      · exact Or.inr ⟨s, e, hs, by rw [h]⟩

/-- The effect of `UpdateDeliveryStatus`: one event; Redis and the clock untouched; the
deliveries either untouched (the statement failed) or the rows with that id
rewritten. -/
theorem updateDeliveryStatus_effect (env : Env) (id : UUID) (s e : String) (a : Int)
    (w : World) :
    (PostgresStore.UpdateDeliveryStatus env id s e a w).2.trace =
      w.trace ++ [Event.updateDeliveryStatus id s e a] ∧
    (PostgresStore.UpdateDeliveryStatus env id s e a w).2.redis = w.redis ∧
    (PostgresStore.UpdateDeliveryStatus env id s e a w).2.now = w.now ∧
    ((PostgresStore.UpdateDeliveryStatus env id s e a w).2.deliveries = w.deliveries ∨
      (PostgresStore.UpdateDeliveryStatus env id s e a w).2.deliveries =
        w.deliveries.map (fun d =>
          if d.ID = id then
            { d with Status := s, LastError := e, Attempt := a, UpdatedAt := time.Now w }
          else d)) := by
  unfold PostgresStore.UpdateDeliveryStatus
  split
  · exact ⟨rfl, rfl, rfl, Or.inl rfl⟩
  · exact ⟨rfl, rfl, rfl, Or.inr rfl⟩

/-- What one iteration of the loop of `Notify` does, over the Redis guard and whatever
fails: exactly one idempotency claim, for the key of the delivery; at most one status
update, of the delivery's id and with a status among sent, failed, skipped; the
deliveries table untouched or the rows with that id rewritten with such a status;
the clock never goes back; a key that is held with an expiry in the future stays. -/
theorem notify_body_summary (env : Env) (d : domain.Delivery) (w : World) :
    guardCalls (Notify.body env (worker.idempotencyManager env) w d).trace =
      guardCalls w.trace ++ [(Notify.idempotencyKey d, 10 * Minute)] ∧
    (statusWrites (Notify.body env (worker.idempotencyManager env) w d).trace =
        statusWrites w.trace ∨
      ∃ s, terminalStatus s ∧
        statusWrites (Notify.body env (worker.idempotencyManager env) w d).trace =
          statusWrites w.trace ++ [(d.ID, s)]) ∧
    ((Notify.body env (worker.idempotencyManager env) w d).deliveries = w.deliveries ∨
      ∃ s e t, terminalStatus s ∧
        (Notify.body env (worker.idempotencyManager env) w d).deliveries =
          w.deliveries.map (fun x =>
            if x.ID = d.ID then
              { x with Status := s, LastError := e, Attempt := wrapInt64 (d.Attempt + 1),
                       UpdatedAt := t }
            else x)) ∧
    w.now ≤ (Notify.body env (worker.idempotencyManager env) w d).now ∧
    (∀ key t, (key, some t) ∈ w.redis → w.now < t →
      (key, some t) ∈ (Notify.body env (worker.idempotencyManager env) w d).redis) := by
  rcases notify_body_effect env d w with h | ⟨_, hfree, wq, hq, hcase⟩
  · rw [h]
    refine ⟨?_, Or.inl ?_, Or.inl rfl, Int.le_refl _, fun _ _ hm _ => hm⟩
    · simp [guardCalls_append, guardCalls]
    · simp [statusWrites_append, statusWrites]
  · obtain ⟨hst, hg, hs, hn⟩ := hq
    obtain ⟨_, _, _, _, hdel, hred⟩ := hst
    simp only [World.emit_trace, World.emit_deliveries, World.emit_now] at hg hs hn hdel
    have hg2 : guardCalls wq.trace =
        guardCalls w.trace ++ [(Notify.idempotencyKey d, 10 * Minute)] := by
      rw [hg]; simp [guardCalls_append, guardCalls]
    have hs2 : statusWrites wq.trace = statusWrites w.trace := by
      rw [hs]; simp [statusWrites_append, statusWrites]
    have hkeep : ∀ key t, (key, some t) ∈ w.redis → w.now < t → (key, some t) ∈ wq.redis := by
      intro key t hm hlt
      rw [hred]
      refine List.mem_append.mpr (Or.inl (List.mem_filter.mpr ⟨hm, ?_⟩))
      by_cases hk : key = Notify.idempotencyKey d
      · exfalso
        have : w.holds (Notify.idempotencyKey d) = true := by
          unfold World.holds
          exact List.any_eq_true.mpr ⟨(key, some t), hm, by simp [hk, hlt]⟩
        rw [hfree] at this
        cases this
      · simp [hk]
    rcases hcase with hb | ⟨s, e, hterm, hb⟩
    · rw [hb]
      exact ⟨hg2, Or.inl hs2, Or.inl hdel, hn, hkeep⟩
    · rw [hb]
      obtain ⟨ht, hr, hnow, hd⟩ := updateDeliveryStatus_effect env d.ID s e
        (wrapInt64 (d.Attempt + 1)) wq
      refine ⟨?_, Or.inr ⟨s, hterm, ?_⟩, ?_, ?_, ?_⟩
      · rw [ht, guardCalls_append, hg2]; simp [guardCalls]
      · rw [ht, statusWrites_append, hs2]; simp [statusWrites]
      · rcases hd with hd | hd
        · exact Or.inl (hd.trans hdel)
        · exact Or.inr ⟨s, e, time.Now wq, hterm, by rw [hd, hdel]⟩
      · rw [hnow]; exact hn
      · intro key t hm hlt
        rw [hr]
        exact hkeep key t hm hlt

/-! ## Every listed delivery is attempted -/

/-- The loop of `Notify` issues one idempotency claim per delivery, in list order. -/
theorem notify_fold_guardCalls (env : Env) (ds : List domain.Delivery) :
    ∀ w : World,
      guardCalls (ds.foldl (Notify.body env (worker.idempotencyManager env)) w).trace =
        guardCalls w.trace ++ ds.map (fun d => (Notify.idempotencyKey d, 10 * Minute)) := by
  induction ds with
  | nil => intro w; simp
  | cons d t ih =>
    intro w
    rw [List.foldl_cons, ih, (notify_body_summary env d w).1]
    simp

/-- C21. Whenever listing the pending deliveries succeeds and returns `deliveries`,
`Notify` returns nil and issues exactly one idempotency claim per listed delivery, for
the key of that delivery and ten minutes, in list order, whatever fails while the
deliveries are processed (the guard, the lookups, the sends, the status updates). -/
theorem C21_notify_attempts_every_listed_delivery (env : Env) (w : World)
    (deliveries : List domain.Delivery)
    (hlist : (PostgresStore.ListPendingDeliveries env w).1 = (deliveries, none)) :
    (Notify env (worker.idempotencyManager env) w).1 = none ∧
    guardCalls (Notify env (worker.idempotencyManager env) w).2.trace =
      guardCalls w.trace ++
        deliveries.map (fun d => (Notify.idempotencyKey d, 10 * Minute)) := by
  have hdb : env.db w.trace.length = none := by
    unfold PostgresStore.ListPendingDeliveries at hlist
    split at hlist
    · cases hlist
    · assumption
  have hds : deliveries = w.deliveries.filter (fun d => d.Status == "pending") := by
    simp only [PostgresStore.ListPendingDeliveries, hdb] at hlist
    exact (Prod.mk.inj hlist).1.symm
  rw [notify_loop env _ w hdb, ← hds]
  refine ⟨rfl, ?_⟩
  rw [notify_fold_guardCalls]
  simp [guardCalls_append, guardCalls]

/-- C21 (witness). Two pending deliveries and every send failing: both are attempted. -/
theorem C21_witness :
    (Notify Example.envSendFails (worker.idempotencyManager Example.envSendFails)
      Example.twoPending).1 = none ∧
    guardCalls (Notify Example.envSendFails (worker.idempotencyManager Example.envSendFails)
      Example.twoPending).2.trace =
      guardCalls Example.twoPending.trace ++
        [Example.delivery, Example.second].map
          (fun d => (Notify.idempotencyKey d, 10 * Minute)) :=
  C21_notify_attempts_every_listed_delivery Example.envSendFails Example.twoPending
    [Example.delivery, Example.second] (by rfl)

/-! ## The release the lookup returns -/

/-- C23. The lookup returns the row of least id, not the most recently created one.  The
store holds for (acme/widget, 2.0.0) an older row with hash "old" and a newer row
whose hash is that of the upstream content; the older row has the smaller id.  The
lookup returns the older row, so `PollReleases` compares against it, finds the hashes
different, and creates a third release row, with the hash of the newer one, and a
delivery for it.  When the older row has the greater id the lookup returns the newer
row and nothing is created. -/
theorem C23_lookup_returns_least_id_not_most_recent :
    Example.older.CreatedAt < Example.release.CreatedAt ∧
    Example.release.Hash = Example.env.sha256hex (Example.upstream.Body ++
      Example.upstream.Tag ++ Example.upstream.Title ++ Example.upstream.URL) ∧
    (PostgresStore.GetReleaseByRepoIDAndTag Example.env Example.repo.ID Example.upstream.Tag
      Example.tagReused).1 = (some Example.older, none) ∧
    (PollReleases Example.env Example.tagReused).1 = none ∧
    (PollReleases Example.env Example.tagReused).2.releases =
      [Example.older, Example.release,
        { Example.release with ID := Example.uuidOf 1003, CreatedAt := 100,
                               UpdatedAt := 100 }] ∧
    (PollReleases Example.env Example.tagReused).2.deliveries.length = 1 ∧
    (PostgresStore.GetReleaseByRepoIDAndTag Example.env Example.repo.ID Example.upstream.Tag
      Example.tagReusedGreaterId).1 = (some Example.release, none) ∧
    (PollReleases Example.env Example.tagReusedGreaterId).2.releases =
      Example.tagReusedGreaterId.releases := by
  decide

/-! ## Deliveries lost by a failed enqueue -/

/-- C24. The older row of (acme/widget, 2.0.0) is stored, with the least id.  A first poll
in which the listing of the subscriptions fails persists the new release, creates no
delivery, returns nil and advances `LastCheckedAt`.  The next poll, of the same
upstream content and with the database working, looks up the row of least id, the
older one, does not find the hash of the release just stored, and so creates one more
release row and a delivery for it.  From the example store, which holds no older row,
the next poll finds the hash and creates nothing. -/
theorem C24_later_poll_creates_delivery_after_failed_enqueue :
    (PollReleases (Example.envDbFailsAt 5) Example.tagSeen).1 = none ∧
    (PollReleases (Example.envDbFailsAt 5) Example.tagSeen).2.releases =
      [Example.older,
        { Example.release with ID := Example.uuidOf 1003, CreatedAt := 100,
                               UpdatedAt := 100 }] ∧
    (PollReleases (Example.envDbFailsAt 5) Example.tagSeen).2.deliveries = [] ∧
    (PollReleases (Example.envDbFailsAt 5) Example.tagSeen).2.repos.map
      (fun r => r.LastCheckedAt) = [100] ∧
    (PollReleases (Example.envDbFailsAt 5)
      (PollReleases (Example.envDbFailsAt 5) Example.tagSeen).2).1 = none ∧
    (PollReleases (Example.envDbFailsAt 5)
      (PollReleases (Example.envDbFailsAt 5) Example.tagSeen).2).2.releases.map
        (fun r => (r.ID, r.Hash)) =
      [(Example.uuidOf 59, "old"), (Example.uuidOf 1003, "notes2.0.0titleurl"),
        (Example.uuidOf 1010, "notes2.0.0titleurl")] ∧
    (PollReleases (Example.envDbFailsAt 5)
      (PollReleases (Example.envDbFailsAt 5) Example.tagSeen).2).2.deliveries.map
        (fun d => (d.ReleaseID, d.Status)) = [(Example.uuidOf 1010, "pending")] ∧
    (PollReleases (Example.envDbFailsAt 5) Example.world).2.deliveries = [] ∧
    (PollReleases (Example.envDbFailsAt 5)
      (PollReleases (Example.envDbFailsAt 5) Example.world).2).2.deliveries = [] ∧
    (PollReleases (Example.envDbFailsAt 5)
      (PollReleases (Example.envDbFailsAt 5) Example.world).2).2.releases.length = 1 := by
  decide

/-! ## The statuses of deliveries -/

theorem World.addsPending_of_eq {a b : World} (h : b.deliveries = a.deliveries) :
    a.addsPending b :=
  ⟨[], by simp [h], by simp⟩

theorem World.addsPending_trans {a b c : World} (h1 : a.addsPending b)
    (h2 : b.addsPending c) : a.addsPending c := by
  obtain ⟨c1, e1, p1⟩ := h1
  obtain ⟨c2, e2, p2⟩ := h2
  refine ⟨c1 ++ c2, by rw [e2, e1, List.append_assoc], ?_⟩
  intro x hx
  rcases List.mem_append.mp hx with hx | hx
  · exact p1 x hx
  · exact p2 x hx

/-- One iteration of the enqueue loop creates at most one delivery, a pending one,
whatever fails. -/
theorem enqueue_body_addsPending (env : Env) (release : domain.Release) (w : World)
    (sub : domain.Subscription) :
    w.addsPending (EnqueueDeliveries.body env release w sub) := by
  unfold EnqueueDeliveries.body PostgresStore.CreateDelivery
  simp only [uuid.New]
  split
  · exact World.addsPending_of_eq rfl
  · exact ⟨[EnqueueDeliveries.delivery env release w sub], rfl, by
      intro x hx
      rw [List.mem_singleton.mp hx]
      rfl⟩

/-- The poller's `EnqueueDeliveries` only appends pending deliveries, whatever fails. -/
theorem enqueue_addsPending (env : Env) (release : domain.Release) (w : World) :
    w.addsPending (EnqueueDeliveries env release w).2 := by
  have hloop : ∀ (subs : List domain.Subscription) (w0 : World),
      w0.addsPending (subs.foldl (EnqueueDeliveries.body env release) w0) := by
    intro subs
    induction subs with
    | nil => intro w0; exact World.addsPending_of_eq rfl
    | cons s t ih =>
      intro w0
      rw [List.foldl_cons]
      exact World.addsPending_trans (enqueue_body_addsPending env release w0 s) (ih _)
  unfold EnqueueDeliveries PostgresStore.ListSubscriptionsByRepoID
  split
  · rename_i h
    split at h
    · cases h; exact World.addsPending_of_eq rfl
    · cases h
  · rename_i h
    split at h
    · cases h
    · cases h
      exact World.addsPending_trans (World.addsPending_of_eq rfl) (hloop _ _)

/-- A transaction whose function touches no delivery touches none, committed or rolled
back. -/
theorem withinTransaction_deliveries {α : Type} (env : Env)
    (txFunc : α → World → Option Error × α × World) (a : α) (w : World)
    (hfn : ∀ b tx, (txFunc b tx).2.2.deliveries = tx.deliveries) :
    (PostgresStore.WithinTransaction env txFunc a w).2.2.deliveries = w.deliveries := by
  unfold PostgresStore.WithinTransaction
  split
  · rfl
  · have h := hfn a (w.emit Event.txBegin)
    split
    · rfl
    · rename_i heq
      rw [heq] at h
      split
      · rfl
      · exact h

/-- The choice of the repo to poll, dummy user and repo included, touches no delivery. -/
theorem stub_deliveries (env : Env) (repos : List domain.Repo) (w : World) :
    (PollReleases.stub env repos w).2.2.deliveries = w.deliveries := by
  unfold PollReleases.stub
  cases repos with
  | cons r t => rfl
  | nil =>
    simp only []
    split
    all_goals
      rename_i h
      have key := congrArg (fun r => r.2.2.deliveries) h
      simp only [] at key
      rw [withinTransaction_deliveries] at key
      · exact key.symm
      · intro b tx
        simp only [PostgresStore.CreateUser, PostgresStore.CreateRepo, uuid.New]
        cases env.db tx.trace.length with
        | some err => rfl
        | none =>
          simp only []
          split
          · rename_i h2
            split at h2
            · cases h2; rfl
            · cases h2
          · rename_i h2
            split at h2
            · cases h2
            · cases h2; rfl

/-- The detection step only appends pending deliveries, whatever fails. -/
theorem detect_addsPending (env : Env) (repo : domain.Repo) (g : Option github.Release)
    (w : World) : w.addsPending (PollReleases.detect env repo g w).2 := by
  cases g with
  | none => exact World.addsPending_of_eq rfl
  | some gr =>
    have hget : (PostgresStore.GetReleaseByRepoIDAndTag env repo.ID gr.Tag w).2 =
        w.emit (Event.getReleaseByRepoIDAndTag repo.ID gr.Tag) := by
      unfold PostgresStore.GetReleaseByRepoIDAndTag
      split <;> rfl
    unfold PollReleases.detect
    simp only []
    split
    · rw [hget]
      exact World.addsPending_of_eq rfl
    · split
      · rw [hget]
        unfold PostgresStore.CreateRelease
        simp only [uuid.New]
        split
        · rename_i h
          split at h
          · cases h; exact World.addsPending_of_eq rfl
          · cases h
        · rename_i h
          split at h
          · cases h
          · cases h
            exact World.addsPending_trans (World.addsPending_of_eq rfl)
              (enqueue_addsPending _ _ _)
      · rw [hget]
        exact World.addsPending_of_eq rfl

/-- The poller only appends pending deliveries, whatever fails. -/
theorem pollReleases_addsPending (env : Env) (w : World) :
    w.addsPending (PollReleases env w).2 := by
  have hpoll : ∀ (repo : domain.Repo) (w0 : World),
      w0.addsPending (PollReleases.poll env repo w0).2 := by
    intro repo w0
    have hs := getLatestRelease_sameStores env repo.Owner repo.Name repo.ETag w0
    unfold PollReleases.poll
    split
    · rename_i h
      rw [h] at hs
      exact World.addsPending_of_eq hs.2.2.2.2.1
    · rename_i g newETag w1 h
      rw [h] at hs
      have hd := detect_addsPending env repo g w1
      split
      · rename_i h2
        rw [h2] at hd
        exact World.addsPending_trans (World.addsPending_of_eq hs.2.2.2.2.1) hd
      · rename_i h2
        rw [h2] at hd
        refine World.addsPending_trans (World.addsPending_of_eq hs.2.2.2.2.1)
          (World.addsPending_trans hd (World.addsPending_of_eq ?_))
        rw [finish_snd, (updateRepo_frame _ _ _).2.1]
  unfold PollReleases PostgresStore.ListRepos
  cases env.db w.trace.length with
  | some err =>
    simp only []
    split
    · exact World.addsPending_of_eq rfl
    · have hst := stub_deliveries env [] (w.emit (Event.listRepos uuid.Nil))
      split
      · rename_i h
        rw [h] at hst
        exact World.addsPending_of_eq hst
      · rename_i h
        rw [h] at hst
        exact World.addsPending_of_eq hst
      · rename_i h
        rw [h] at hst
        exact World.addsPending_trans (World.addsPending_of_eq hst) (hpoll _ _)
  | none =>
    simp only []
    split
    · exact World.addsPending_of_eq rfl
    · have hst := stub_deliveries env (w.repos.filter (fun r => r.UserID == uuid.Nil))
        (w.emit (Event.listRepos uuid.Nil))
      split
      · rename_i h
        rw [h] at hst
        exact World.addsPending_of_eq hst
      · rename_i h
        rw [h] at hst
        exact World.addsPending_of_eq hst
      · rename_i h
        rw [h] at hst
        exact World.addsPending_trans (World.addsPending_of_eq hst) (hpoll _ _)

/-- The status updates of the loop of `Notify` over the deliveries `ds`: each is of the id
of one of `ds` and writes a status among sent, failed, skipped. -/
theorem notify_fold_writes (env : Env) (ds : List domain.Delivery) :
    ∀ w : World, ∃ writes : List (UUID × String),
      statusWrites (ds.foldl (Notify.body env (worker.idempotencyManager env)) w).trace =
        statusWrites w.trace ++ writes ∧
      ∀ p ∈ writes, terminalStatus p.2 ∧ ∃ d ∈ ds, d.ID = p.1 := by
  induction ds with
  | nil => intro w; exact ⟨[], by simp, by simp⟩
  | cons d t ih =>
    intro w
    obtain ⟨ws, h1, h2⟩ := ih (Notify.body env (worker.idempotencyManager env) w d)
    have h2x : ∀ p ∈ ws, terminalStatus p.2 ∧ ∃ d0 ∈ d :: t, d0.ID = p.1 := by
      intro p hp
      obtain ⟨ht, d0, hd0, hid⟩ := h2 p hp
      exact ⟨ht, d0, List.mem_cons_of_mem _ hd0, hid⟩
    rcases (notify_body_summary env d w).2.1 with hs | ⟨s, hterm, hs⟩
    · exact ⟨ws, by rw [List.foldl_cons, h1, hs], h2x⟩
    · refine ⟨(d.ID, s) :: ws, by rw [List.foldl_cons, h1, hs]; simp, ?_⟩
      intro p hp
      rcases List.mem_cons.mp hp with rfl | hp
      · exact ⟨hterm, d, List.mem_cons_self _ _, rfl⟩
      · exact h2x p hp

/-- The rows after the loop of `Notify` over the deliveries `ds`: each row of the table is
either untouched, or has kept its id, carries a status among sent, failed, skipped and
has the id of one of `ds`. -/
theorem notify_fold_rows (env : Env) (ds : List domain.Delivery) :
    ∀ w : World, ∃ f : domain.Delivery → domain.Delivery,
      (ds.foldl (Notify.body env (worker.idempotencyManager env)) w).deliveries =
        w.deliveries.map f ∧
      ∀ x, f x = x ∨
        ((f x).ID = x.ID ∧ terminalStatus (f x).Status ∧ ∃ d ∈ ds, d.ID = x.ID) := by
  induction ds with
  | nil => intro w; exact ⟨id, by simp, fun x => Or.inl rfl⟩
  | cons d t ih =>
    intro w
    obtain ⟨f1, h1, h2⟩ := ih (Notify.body env (worker.idempotencyManager env) w d)
    have h2x : ∀ x, f1 x = x ∨
        ((f1 x).ID = x.ID ∧ terminalStatus (f1 x).Status ∧ ∃ d0 ∈ d :: t, d0.ID = x.ID) := by
      intro x
      rcases h2 x with h | ⟨ha, hb, d0, hd0, hid⟩
      · exact Or.inl h
      · exact Or.inr ⟨ha, hb, d0, List.mem_cons_of_mem _ hd0, hid⟩
    rcases (notify_body_summary env d w).2.2.1 with hd | ⟨s, e, tm, hterm, hd⟩
    · exact ⟨f1, by rw [List.foldl_cons, h1, hd], h2x⟩
    · obtain ⟨g, hgd, hgid, hgne, hgst⟩ : ∃ g : domain.Delivery → domain.Delivery,
          (Notify.body env (worker.idempotencyManager env) w d).deliveries =
            w.deliveries.map g ∧
          (∀ x, (g x).ID = x.ID) ∧ (∀ x, x.ID ≠ d.ID → g x = x) ∧
          (∀ x, x.ID = d.ID → (g x).Status = s) :=
        ⟨_, hd, fun x => by by_cases h : x.ID = d.ID <;> simp [h],
          fun x h => by simp [h], fun x h => by simp [h]⟩
      refine ⟨fun x => f1 (g x), ?_, ?_⟩
      · rw [List.foldl_cons, h1, hgd, List.map_map]
        rfl
      · intro x
        by_cases hx : x.ID = d.ID
        · right
          rcases h2 (g x) with h | ⟨ha, hb, _⟩
          · simp only [h]
            exact ⟨hgid x, by rw [hgst x hx]; exact hterm, d, List.mem_cons_self _ _, hx.symm⟩
          · exact ⟨ha.trans (hgid x), hb, d, List.mem_cons_self _ _, hx.symm⟩
        · simp only [hgne x hx]
          exact h2x x

/-- What `Notify` does is the loop body run over deliveries that are rows of the table with
status pending (none when the listing fails). -/
theorem notify_eq_fold (env : Env) (m : idempotency.Manager) (w : World) :
    ∃ ds : List domain.Delivery,
      (∀ d ∈ ds, d ∈ w.deliveries ∧ d.Status = "pending") ∧
      (Notify env m w).2 = ds.foldl (Notify.body env m) (w.emit Event.listPendingDeliveries) := by
  cases hdb : env.db w.trace.length with
  | some err =>
    refine ⟨[], by simp, ?_⟩
    simp [Notify, PostgresStore.ListPendingDeliveries, hdb]
  | none =>
    refine ⟨w.deliveries.filter (fun d => d.Status == "pending"), ?_, ?_⟩
    · intro d hd
      simpa using List.mem_filter.mp hd
    · rw [notify_loop env m w hdb]

/-- C22. The status of a delivery stays among pending, sent, failed, skipped.
`EnqueueDeliveries` only appends rows, all with status pending, whatever fails.  Every
status `Notify` writes is one of sent, failed, skipped and is written to the id of a
delivery stored as pending when the cycle began; every row `Notify` leaves is either
untouched or has kept its id, carries one of these three statuses and has the id of
such a pending delivery, so that, ids being unique in the table, no row whose status
was not pending is modified.  Hence `Notify`, `EnqueueDeliveries` and `PollReleases`
keep every status among the four. -/
theorem C22_delivery_status_stays_known (env : Env) (w : World) :
    (∀ release : domain.Release, ∃ created : List domain.Delivery,
      (EnqueueDeliveries env release w).2.deliveries = w.deliveries ++ created ∧
      ∀ x ∈ created, x.Status = "pending") ∧
    (∃ writes : List (UUID × String),
      statusWrites (Notify env (worker.idempotencyManager env) w).2.trace =
        statusWrites w.trace ++ writes ∧
      ∀ p ∈ writes, terminalStatus p.2 ∧
        ∃ d ∈ w.deliveries, d.Status = "pending" ∧ d.ID = p.1) ∧
    (∃ f : domain.Delivery → domain.Delivery,
      (Notify env (worker.idempotencyManager env) w).2.deliveries = w.deliveries.map f ∧
      (∀ x, f x = x ∨ ((f x).ID = x.ID ∧ terminalStatus (f x).Status ∧
        ∃ d ∈ w.deliveries, d.Status = "pending" ∧ d.ID = x.ID)) ∧
      ((w.deliveries.map (fun d => d.ID)).Nodup →
        ∀ x ∈ w.deliveries, x.Status ≠ "pending" → f x = x)) ∧
    ((∀ x ∈ w.deliveries, knownStatus x.Status) →
      (∀ x ∈ (Notify env (worker.idempotencyManager env) w).2.deliveries,
        knownStatus x.Status) ∧
      (∀ release : domain.Release, ∀ x ∈ (EnqueueDeliveries env release w).2.deliveries,
        knownStatus x.Status) ∧
      (∀ x ∈ (PollReleases env w).2.deliveries, knownStatus x.Status)) := by
  obtain ⟨ds, hds, hfold⟩ := notify_eq_fold env (worker.idempotencyManager env) w
  obtain ⟨writes, hw1, hw2⟩ := notify_fold_writes env ds (w.emit Event.listPendingDeliveries)
  obtain ⟨f, hf1, hf2⟩ := notify_fold_rows env ds (w.emit Event.listPendingDeliveries)
  have hrows : ∀ x, f x = x ∨ ((f x).ID = x.ID ∧ terminalStatus (f x).Status ∧
      ∃ d ∈ w.deliveries, d.Status = "pending" ∧ d.ID = x.ID) := by
    intro x
    rcases hf2 x with h | ⟨ha, hb, d, hd, hid⟩
    · exact Or.inl h
    · exact Or.inr ⟨ha, hb, d, (hds d hd).1, (hds d hd).2, hid⟩
  have hkeep : ∀ (a b : World), a.addsPending b → (∀ x ∈ a.deliveries, knownStatus x.Status) →
      ∀ x ∈ b.deliveries, knownStatus x.Status := by
    intro a b hab hk x hx
    obtain ⟨created, e1, e2⟩ := hab
    rw [e1] at hx
    rcases List.mem_append.mp hx with hx | hx
    · exact hk x hx
    · exact Or.inl (e2 x hx)
  refine ⟨fun release => enqueue_addsPending env release w, ⟨writes, ?_, ?_⟩,
    ⟨f, ?_, hrows, ?_⟩, ?_⟩
  · rw [hfold, hw1]
    simp [statusWrites_append, statusWrites]
  · intro p hp
    obtain ⟨ht, d, hd, hid⟩ := hw2 p hp
    exact ⟨ht, d, (hds d hd).1, (hds d hd).2, hid⟩
  · rw [hfold, hf1]
    rfl
  · intro hnd x hx hnp
    rcases hrows x with h | ⟨_, _, d, hd, hp, hid⟩
    · exact h
    · exfalso
      have hxd : d = x := List.inj_on_of_nodup_map hnd hd hx hid
      exact hnp (hxd ▸ hp)
  · intro hk
    refine ⟨?_, fun release => hkeep _ _ (enqueue_addsPending env release w) hk,
      hkeep _ _ (pollReleases_addsPending env w) hk⟩
    intro x hx
    rw [hfold, hf1] at hx
    obtain ⟨y, hy, rfl⟩ := List.mem_map.mp hx
    rcases hrows y with h | ⟨_, hb, _⟩
    · rw [h]
      exact hk y hy
    · exact Or.inr hb

/-- C22 (witness). A pending delivery and one already sent, with different ids: after
`Notify` the statuses are among the four, and the row that was sent is as it was. -/
theorem C22_witness :
    (Example.oneSent.deliveries.map (fun d => d.ID)).Nodup ∧
    (∀ x ∈ Example.oneSent.deliveries, knownStatus x.Status) ∧
    (∀ x ∈ (Notify Example.env (worker.idempotencyManager Example.env)
      Example.oneSent).2.deliveries, knownStatus x.Status) ∧
    (Notify Example.env (worker.idempotencyManager Example.env)
      Example.oneSent).2.deliveries.map (fun d => (d.ID, d.Status, d.Attempt)) =
      [(Example.uuidOf 50, "sent", 1), (Example.uuidOf 51, "sent", 1)] :=
  ⟨by decide, by decide,
    ((C22_delivery_status_stays_known Example.env Example.oneSent).2.2.2 (by decide)).1,
    by decide⟩

/-! ## Deliveries with the same release, user and channel -/

/-- A held key: the iteration only issues the `SETNX`, whether the command works or not. -/
theorem notify_body_held (env : Env) (d : domain.Delivery) (w : World)
    (hheld : w.holds (Notify.idempotencyKey d) = true) :
    Notify.body env (worker.idempotencyManager env) w d =
      w.emit (Event.setNX (Notify.idempotencyKey d) (10 * Minute)) := by
  rcases notify_body_effect env d w with h | ⟨_, hfree, _⟩
  · exact h
  · rw [hheld] at hfree
    cases hfree

/-- A free key, Redis working: after the iteration the key is in Redis with an expiry ten
minutes after the claim. -/
theorem notify_body_claims (env : Env) (d : domain.Delivery) (w : World)
    (hr : env.redis w.trace.length = none)
    (hfree : w.holds (Notify.idempotencyKey d) = false) :
    (Notify.idempotencyKey d, some (w.now + 10 * Minute)) ∈
      (Notify.body env (worker.idempotencyManager env) w d).redis := by
  have hmem : (Notify.idempotencyKey d, some (w.now + 10 * Minute)) ∈
      w.redis.filter (fun e => !(e.1 == Notify.idempotencyKey d)) ++
        [(Notify.idempotencyKey d, some (w.now + 10 * Minute))] := by simp
  have hfn := notify_fn_effect env d
    { w.emit (Event.setNX (Notify.idempotencyKey d) (10 * Minute)) with
      redis := w.redis.filter (fun e => !(e.1 == Notify.idempotencyKey d)) ++
        [(Notify.idempotencyKey d, some (w.now + 10 * Minute))] }
  have hbody : Notify.body env (worker.idempotencyManager env) w d =
      (Notify.fn env d
        { w.emit (Event.setNX (Notify.idempotencyKey d) (10 * Minute)) with
          redis := w.redis.filter (fun e => !(e.1 == Notify.idempotencyKey d)) ++
            [(Notify.idempotencyKey d, some (w.now + 10 * Minute))] }).2 := by
    have hc := checkAndSet_free_ten env (Notify.idempotencyKey d) w hr hfree
    exact notify_body_claimed env (worker.idempotencyManager env) w _ d hc
  obtain ⟨wq, hq, hcase⟩ := hfn
  rw [hbody]
  rcases hcase with h | ⟨s, e, _, h⟩
  · rw [h, hq.1.2.2.2.2.2]
    exact hmem
  · rw [h, (updateDeliveryStatus_effect env d.ID s e _ wq).2.1, hq.1.2.2.2.2.2]
    exact hmem

/-- The clock never goes back in the loop of `Notify`. -/
theorem notify_fold_now (env : Env) (ds : List domain.Delivery) :
    ∀ w : World, w.now ≤ (ds.foldl (Notify.body env (worker.idempotencyManager env)) w).now := by
  induction ds with
  | nil => intro w; exact Int.le_refl _
  | cons d t ih =>
    intro w
    rw [List.foldl_cons]
    exact Int.le_trans (notify_body_summary env d w).2.2.2.1 (ih _)

/-- A key in Redis whose expiry is after the clock at the end of the loop is there at the
end of the loop. -/
theorem notify_fold_keeps (env : Env) (ds : List domain.Delivery) (key : String) (t : Time) :
    ∀ w : World, (key, some t) ∈ w.redis →
      (ds.foldl (Notify.body env (worker.idempotencyManager env)) w).now < t →
      (key, some t) ∈ (ds.foldl (Notify.body env (worker.idempotencyManager env)) w).redis := by
  induction ds with
  | nil => intro w hm _; exact hm
  | cons d r ih =>
    intro w hm hlt
    rw [List.foldl_cons] at hlt ⊢
    have h1 := (notify_body_summary env d w).2.2.2.1
    have h2 := notify_fold_now env r (Notify.body env (worker.idempotencyManager env) w d)
    exact ih _ ((notify_body_summary env d w).2.2.2.2 key t hm
      (Int.lt_of_le_of_lt (Int.le_trans h1 h2) hlt)) hlt

/-- C25 (amended). In one cycle of `Notify` over the Redis guard, let the pending deliveries
be `pre ++ d1 :: (mid ++ d2 :: post)` with `d2` of the release, user and channel of
`d1`.  When `d1` claims its key (Redis working, the key free at its turn) and the
clock, when `d2` is reached, is still before the expiry of that claim, ten minutes
after it was made, then the iteration on `d2` only issues the `SETNX` of the guard:
no message is sent for `d2`, no status is updated, its row stays as it was; and the
cycle goes on with the deliveries after `d2`. -/
theorem C25_duplicate_triple_skipped_while_claim_lasts (env : Env) (w0 : World)
    (pre mid post : List domain.Delivery) (d1 d2 : domain.Delivery)
    (hdb : env.db w0.trace.length = none)
    (hlist : w0.deliveries.filter (fun x => x.Status == "pending") =
      pre ++ d1 :: (mid ++ d2 :: post))
    (hsame : d2.ReleaseID = d1.ReleaseID ∧ d2.UserID = d1.UserID ∧ d2.Channel = d1.Channel)
    (hr : env.redis (pre.foldl (Notify.body env (worker.idempotencyManager env))
      (w0.emit Event.listPendingDeliveries)).trace.length = none)
    (hfree : (pre.foldl (Notify.body env (worker.idempotencyManager env))
      (w0.emit Event.listPendingDeliveries)).holds (Notify.idempotencyKey d1) = false)
    (hlive : (mid.foldl (Notify.body env (worker.idempotencyManager env))
        (Notify.body env (worker.idempotencyManager env)
          (pre.foldl (Notify.body env (worker.idempotencyManager env))
            (w0.emit Event.listPendingDeliveries)) d1)).now <
      (pre.foldl (Notify.body env (worker.idempotencyManager env))
        (w0.emit Event.listPendingDeliveries)).now + 10 * Minute) :
    Notify.body env (worker.idempotencyManager env)
        (mid.foldl (Notify.body env (worker.idempotencyManager env))
          (Notify.body env (worker.idempotencyManager env)
            (pre.foldl (Notify.body env (worker.idempotencyManager env))
              (w0.emit Event.listPendingDeliveries)) d1)) d2 =
      (mid.foldl (Notify.body env (worker.idempotencyManager env))
        (Notify.body env (worker.idempotencyManager env)
          (pre.foldl (Notify.body env (worker.idempotencyManager env))
            (w0.emit Event.listPendingDeliveries)) d1)).emit
        (Event.setNX (Notify.idempotencyKey d2) (10 * Minute)) ∧
    Notify env (worker.idempotencyManager env) w0 =
      (none, post.foldl (Notify.body env (worker.idempotencyManager env))
        ((mid.foldl (Notify.body env (worker.idempotencyManager env))
          (Notify.body env (worker.idempotencyManager env)
            (pre.foldl (Notify.body env (worker.idempotencyManager env))
              (w0.emit Event.listPendingDeliveries)) d1)).emit
          (Event.setNX (Notify.idempotencyKey d2) (10 * Minute)))) := by
  have hkey : Notify.idempotencyKey d2 = Notify.idempotencyKey d1 := by
    simp only [Notify.idempotencyKey, hsame.1, hsame.2.1, hsame.2.2]
  have hmem := notify_fold_keeps env mid (Notify.idempotencyKey d1) _ _
    (notify_body_claims env d1 _ hr hfree) hlive
  have hheld : (mid.foldl (Notify.body env (worker.idempotencyManager env))
      (Notify.body env (worker.idempotencyManager env)
        (pre.foldl (Notify.body env (worker.idempotencyManager env))
          (w0.emit Event.listPendingDeliveries)) d1)).holds (Notify.idempotencyKey d2) = true := by
    rw [hkey]
    unfold World.holds
    exact List.any_eq_true.mpr ⟨_, hmem, by simpa using hlive⟩
  have hbody := notify_body_held env d2 _ hheld
  refine ⟨hbody, ?_⟩
  rw [notify_loop env _ w0 hdb, hlist, List.foldl_append, List.foldl_cons, List.foldl_append,
    List.foldl_cons, hbody]

/-- C25 (witness). The example delivery, one other delivery whose sends fail, then the
duplicate of the first: six seconds after the claim the duplicate is skipped. -/
theorem C25_witness :
    Notify.body Example.envSendFails (worker.idempotencyManager Example.envSendFails)
        ([Example.queued 0].foldl
          (Notify.body Example.envSendFails (worker.idempotencyManager Example.envSendFails))
          (Notify.body Example.envSendFails (worker.idempotencyManager Example.envSendFails)
            (([] : List domain.Delivery).foldl
              (Notify.body Example.envSendFails
                (worker.idempotencyManager Example.envSendFails))
              ((Example.queue 1).emit Event.listPendingDeliveries)) Example.delivery))
        Example.duplicate =
      ([Example.queued 0].foldl
        (Notify.body Example.envSendFails (worker.idempotencyManager Example.envSendFails))
        (Notify.body Example.envSendFails (worker.idempotencyManager Example.envSendFails)
          (([] : List domain.Delivery).foldl
            (Notify.body Example.envSendFails
              (worker.idempotencyManager Example.envSendFails))
            ((Example.queue 1).emit Event.listPendingDeliveries)) Example.delivery)).emit
        (Event.setNX (Notify.idempotencyKey Example.duplicate) (10 * Minute)) ∧
    Notify Example.envSendFails (worker.idempotencyManager Example.envSendFails)
        (Example.queue 1) =
      (none, ([] : List domain.Delivery).foldl
        (Notify.body Example.envSendFails (worker.idempotencyManager Example.envSendFails))
        (([Example.queued 0].foldl
          (Notify.body Example.envSendFails (worker.idempotencyManager Example.envSendFails))
          (Notify.body Example.envSendFails (worker.idempotencyManager Example.envSendFails)
            (([] : List domain.Delivery).foldl
              (Notify.body Example.envSendFails
                (worker.idempotencyManager Example.envSendFails))
              ((Example.queue 1).emit Event.listPendingDeliveries)) Example.delivery)).emit
          (Event.setNX (Notify.idempotencyKey Example.duplicate) (10 * Minute)))) :=
  C25_duplicate_triple_skipped_while_claim_lasts Example.envSendFails (Example.queue 1)
    [] [Example.queued 0] [] Example.delivery Example.duplicate rfl (by decide)
    ⟨rfl, rfl, rfl⟩ rfl (by decide) (by decide)

/-! ## A cycle that outlasts the claim -/

/-- The closure of `Notify` on a delivery whose release and user are found and whose sends
all fail, the database working: six seconds pass and the rows of the delivery are
marked failed by one status update. -/
theorem notify_fn_failed (env : Env) (d : domain.Delivery) (w : World)
    (release : domain.Release) (user : domain.User) (e : Error)
    (hdb : ∀ k, env.db k = none) (hbot : ∀ k, env.botSend k = some e)
    (hrel : w.releases.find? (fun r => r.ID == d.ReleaseID) = some release)
    (husr : w.users.find? (fun u => u.ID == d.UserID) = some user) :
    (Notify.fn env d w).2.now = w.now + 6000000000 ∧
    (Notify.fn env d w).2.releases = w.releases ∧
    (Notify.fn env d w).2.users = w.users ∧
    (Notify.fn env d w).2.redis = w.redis ∧
    (Notify.fn env d w).2.deliveries =
      w.deliveries.map (fun x =>
        if x.ID = d.ID then
          { x with Status := "failed", LastError := "telegram client error: " ++ e.text,
                   Attempt := wrapInt64 (d.Attempt + 1), UpdatedAt := w.now + 6000000000 }
        else x) ∧
    statusWrites (Notify.fn env d w).2.trace = statusWrites w.trace ++ [(d.ID, "failed")] := by
  have hf := sendMessage_all_fail env d.Channel (Notify.message release)
    ((w.emit (Event.getReleaseByID d.ReleaseID)).emit (Event.getUserByID d.UserID)) e e e
    (hbot _) (hbot _) (hbot _)
  simp only [Notify.fn, PostgresStore.GetReleaseByID, PostgresStore.GetUserByID, hdb, hrel,
    husr, World.emit_releases, World.emit_users, hf, PostgresStore.UpdateDeliveryStatus,
    World.emit_trace]
  refine ⟨by simp [World.emit], by simp [World.emit], by simp [World.emit],
    by simp [World.emit], by simp [World.emit, Error.wrap, time.Now], ?_⟩
  simp [World.emit, statusWrites_append, statusWrites]

/-- An iteration on a delivery whose key is free, whose release and user are found and whose
sends all fail, database and Redis working: six seconds pass, the key is claimed for
ten minutes, the rows of the delivery are marked failed by one status update. -/
theorem notify_body_failed (env : Env) (d : domain.Delivery) (w : World)
    (release : domain.Release) (user : domain.User) (e : Error)
    (hdb : ∀ k, env.db k = none) (hr : env.redis w.trace.length = none)
    (hbot : ∀ k, env.botSend k = some e)
    (hfree : w.holds (Notify.idempotencyKey d) = false)
    (hrel : w.releases.find? (fun r => r.ID == d.ReleaseID) = some release)
    (husr : w.users.find? (fun u => u.ID == d.UserID) = some user) :
    (Notify.body env (worker.idempotencyManager env) w d).now = w.now + 6000000000 ∧
    (Notify.body env (worker.idempotencyManager env) w d).releases = w.releases ∧
    (Notify.body env (worker.idempotencyManager env) w d).users = w.users ∧
    (Notify.body env (worker.idempotencyManager env) w d).redis =
      w.redis.filter (fun x => !(x.1 == Notify.idempotencyKey d)) ++
        [(Notify.idempotencyKey d, some (w.now + 10 * Minute))] ∧
    (Notify.body env (worker.idempotencyManager env) w d).deliveries =
      w.deliveries.map (fun x =>
        if x.ID = d.ID then
          { x with Status := "failed", LastError := "telegram client error: " ++ e.text,
                   Attempt := wrapInt64 (d.Attempt + 1), UpdatedAt := w.now + 6000000000 }
        else x) ∧
    statusWrites (Notify.body env (worker.idempotencyManager env) w d).trace =
      statusWrites w.trace ++ [(d.ID, "failed")] := by
  have hc := checkAndSet_free_ten env (Notify.idempotencyKey d) w hr hfree
  rw [notify_body_claimed env (worker.idempotencyManager env) w _ d hc]
  obtain ⟨h1, h2, h3, h4, h5, h6⟩ := notify_fn_failed env d _ release user e hdb hbot
    (show ({ w.emit (Event.setNX (Notify.idempotencyKey d) (10 * Minute)) with
        redis := w.redis.filter (fun x => !(x.1 == Notify.idempotencyKey d)) ++
          [(Notify.idempotencyKey d, some (w.now + 10 * Minute))] } : World).releases.find?
        (fun r => r.ID == d.ReleaseID) = some release from hrel)
    (show ({ w.emit (Event.setNX (Notify.idempotencyKey d) (10 * Minute)) with
        redis := w.redis.filter (fun x => !(x.1 == Notify.idempotencyKey d)) ++
          [(Notify.idempotencyKey d, some (w.now + 10 * Minute))] } : World).users.find?
        (fun u => u.ID == d.UserID) = some user from husr)
  refine ⟨h1, h2, h3, h4, h5, ?_⟩
  rw [h6]
  simp [statusWrites_append, statusWrites]

/-- The loop of `Notify` over deliveries whose release and user are found, whose keys are
distinct from each other and not in Redis, when every send fails and the database and
Redis work: each delivery takes six seconds, and the Redis entries of every other key
are as before. -/
theorem notify_fold_failed (env : Env) (release : domain.Release) (user : domain.User)
    (e : Error) (hdb : ∀ k, env.db k = none) (hredis : ∀ k, env.redis k = none)
    (hbot : ∀ k, env.botSend k = some e) (qs : List domain.Delivery) :
    ∀ w : World,
      (∀ d ∈ qs, w.releases.find? (fun r => r.ID == d.ReleaseID) = some release) →
      (∀ d ∈ qs, w.users.find? (fun u => u.ID == d.UserID) = some user) →
      (∀ d ∈ qs, ∀ x ∈ w.redis, x.1 ≠ Notify.idempotencyKey d) →
      (qs.map Notify.idempotencyKey).Nodup →
      (qs.foldl (Notify.body env (worker.idempotencyManager env)) w).now =
        w.now + 6000000000 * qs.length ∧
      (qs.foldl (Notify.body env (worker.idempotencyManager env)) w).releases = w.releases ∧
      (qs.foldl (Notify.body env (worker.idempotencyManager env)) w).users = w.users ∧
      ∀ x : String × Option Time, (∀ d ∈ qs, Notify.idempotencyKey d ≠ x.1) →
        (x ∈ (qs.foldl (Notify.body env (worker.idempotencyManager env)) w).redis ↔
          x ∈ w.redis) := by
  induction qs with
  | nil => intro w _ _ _ _; simp
  | cons d t ih =>
    intro w hrel husr hfresh hnd
    have hfree : w.holds (Notify.idempotencyKey d) = false := by
      unfold World.holds
      rw [Bool.eq_false_iff]
      intro h
      obtain ⟨x, hx, hp⟩ := List.any_eq_true.mp h
      have hk : x.1 = Notify.idempotencyKey d := by
        simp only [Bool.and_eq_true, beq_iff_eq] at hp
        exact hp.1
      exact hfresh d (List.mem_cons_self _ _) x hx hk
    obtain ⟨b1, b2, b3, b4, -, -⟩ := notify_body_failed env d w release user e hdb
      (hredis _) hbot hfree (hrel d (List.mem_cons_self _ _)) (husr d (List.mem_cons_self _ _))
    have hnd2 := List.nodup_cons.mp hnd
    obtain ⟨i1, i2, i3, i4⟩ := ih (Notify.body env (worker.idempotencyManager env) w d)
      (fun d0 h0 => by rw [b2]; exact hrel d0 (List.mem_cons_of_mem _ h0))
      (fun d0 h0 => by rw [b3]; exact husr d0 (List.mem_cons_of_mem _ h0))
      (fun d0 h0 x hx => by
        rw [b4] at hx
        rcases List.mem_append.mp hx with hx | hx
        · exact hfresh d0 (List.mem_cons_of_mem _ h0) x (List.mem_filter.mp hx).1
        · rw [List.mem_singleton.mp hx]
          intro heq
          simp only [] at heq
          exact hnd2.1 (List.mem_map.mpr ⟨d0, h0, heq.symm⟩))
      hnd2.2
    rw [List.foldl_cons]
    refine ⟨?_, i2.trans b2, i3.trans b3, ?_⟩
    · rw [i1, b1, List.length_cons]
      push_cast
      ring
    · intro x hx
      rw [i4 x (fun d0 h0 => hx d0 (List.mem_cons_of_mem _ h0)), b4]
      have hne : x.1 ≠ Notify.idempotencyKey d := fun h => hx d (List.mem_cons_self _ _) h.symm
      constructor
      · intro h
        rcases List.mem_append.mp h with h | h
        · exact (List.mem_filter.mp h).1
        · rw [List.mem_singleton.mp h] at hne
          exact absurd rfl hne
      · intro h
        exact List.mem_append.mpr (Or.inl (List.mem_filter.mpr ⟨h, by simp [hne]⟩))

/-- The key of a delivery of the long queue is not the key of the example delivery. -/
theorem queued_key_ne (i : Nat) :
    Notify.idempotencyKey Example.delivery ≠ Notify.idempotencyKey (Example.queued i) := by
  intro h
  have hc := congrArg String.data (idempotencyKey_inj _ _ h).2.2
  simp [Example.queued, Example.delivery, List.replicate_succ] at hc

/-- The deliveries of the long queue have keys of their own. -/
theorem queued_key_inj (i j : Nat)
    (h : Notify.idempotencyKey (Example.queued i) = Notify.idempotencyKey (Example.queued j)) :
    i = j := by
  have hc := congrArg (fun s => s.data.length) (idempotencyKey_inj _ _ h).2.2
  simpa [Example.queued] using hc

/-- C25 (counterexample). A cycle that outlasts the claim.  The pending deliveries are the
example delivery, a hundred deliveries on other channels, and a duplicate of the
first (same release, user and channel, another id); every send fails, so each delivery
takes six seconds.  When the duplicate is reached, 606 seconds after the claim of the
first, the claim has expired: the duplicate claims the key again and is processed, so
the cycle makes two status updates for the one triple and the duplicate does not
stay pending. -/
theorem C25_counterexample_claim_expires_within_cycle :
    Example.duplicate.ReleaseID = Example.delivery.ReleaseID ∧
    Example.duplicate.UserID = Example.delivery.UserID ∧
    Example.duplicate.Channel = Example.delivery.Channel ∧
    Example.delivery ∈ (Example.queue 100).deliveries ∧
    Example.duplicate ∈ (Example.queue 100).deliveries ∧
    Example.duplicate.Status = "pending" ∧
    (Example.delivery.ID, "failed") ∈
      statusWrites (Notify Example.envSendFails
        (worker.idempotencyManager Example.envSendFails) (Example.queue 100)).2.trace ∧
    (Example.duplicate.ID, "failed") ∈
      statusWrites (Notify Example.envSendFails
        (worker.idempotencyManager Example.envSendFails) (Example.queue 100)).2.trace ∧
    ∃ row ∈ (Notify Example.envSendFails
        (worker.idempotencyManager Example.envSendFails) (Example.queue 100)).2.deliveries,
      row.ID = Example.duplicate.ID ∧ row.Status = "failed" := by
  have hdb : ∀ k, Example.envSendFails.db k = none := fun _ => rfl
  have hredis : ∀ k, Example.envSendFails.redis k = none := fun _ => rfl
  have hbot : ∀ k, Example.envSendFails.botSend k = some Example.sendError := fun _ => rfl
  have hfilter : (Example.queue 100).deliveries.filter (fun d => d.Status == "pending") =
      Example.delivery :: ((List.range 100).map Example.queued ++ [Example.duplicate]) := by
    apply List.filter_eq_self.mpr
    intro d hd
    simp only [Example.queue, List.cons_append, List.mem_cons, List.mem_append, List.mem_map,
      List.not_mem_nil, or_false] at hd
    rcases hd with rfl | ⟨i, _, rfl⟩ | rfl <;> rfl
  -- the first delivery
  obtain ⟨a1, a2, a3, a4, -, a6⟩ := notify_body_failed Example.envSendFails Example.delivery
    ((Example.queue 100).emit Event.listPendingDeliveries) Example.release Example.user
    Example.sendError hdb (hredis _) hbot rfl rfl rfl
  -- the hundred deliveries after it
  obtain ⟨b1, b2, b3, b4⟩ := notify_fold_failed Example.envSendFails Example.release
    Example.user Example.sendError hdb hredis hbot ((List.range 100).map Example.queued)
    (Notify.body Example.envSendFails (worker.idempotencyManager Example.envSendFails)
      ((Example.queue 100).emit Event.listPendingDeliveries) Example.delivery)
    (fun d hd => by
      obtain ⟨i, _, rfl⟩ := List.mem_map.mp hd
      rw [a2]; rfl)
    (fun d hd => by
      obtain ⟨i, _, rfl⟩ := List.mem_map.mp hd
      rw [a3]; rfl)
    (fun d hd x hx => by
      obtain ⟨i, _, rfl⟩ := List.mem_map.mp hd
      rw [a4] at hx
      have hx2 : x = (Notify.idempotencyKey Example.delivery,
          some (((Example.queue 100).emit Event.listPendingDeliveries).now + 10 * Minute)) := by
        simpa [Example.queue, Example.world] using hx
      rw [hx2]
      exact queued_key_ne i)
    (by
      rw [List.map_map]
      exact List.Nodup.map_on (fun i _ j _ h => queued_key_inj i j h) (List.nodup_range 100))
  obtain ⟨ws, c1, -⟩ := notify_fold_writes Example.envSendFails
    ((List.range 100).map Example.queued)
    (Notify.body Example.envSendFails (worker.idempotencyManager Example.envSendFails)
      ((Example.queue 100).emit Event.listPendingDeliveries) Example.delivery)
  -- the duplicate
  have hfree : ((List.foldl
      (Notify.body Example.envSendFails (worker.idempotencyManager Example.envSendFails))
      (Notify.body Example.envSendFails (worker.idempotencyManager Example.envSendFails)
        ((Example.queue 100).emit Event.listPendingDeliveries) Example.delivery)
      ((List.range 100).map Example.queued))).holds
        (Notify.idempotencyKey Example.duplicate) = false := by
    unfold World.holds
    rw [Bool.eq_false_iff]
    intro h
    obtain ⟨x, hx, hp⟩ := List.any_eq_true.mp h
    simp only [Bool.and_eq_true, beq_iff_eq] at hp
    have hk : x.1 = Notify.idempotencyKey Example.delivery := hp.1
    rw [b4 x (fun d hd => by
      obtain ⟨i, _, rfl⟩ := List.mem_map.mp hd
      rw [hk]
      exact (queued_key_ne i).symm), a4] at hx
    have hx2 : x = (Notify.idempotencyKey Example.delivery,
        some (((Example.queue 100).emit Event.listPendingDeliveries).now + 10 * Minute)) := by
      simpa [Example.queue, Example.world] using hx
    have hlive := hp.2
    rw [hx2, b1, a1] at hlive
    revert hlive
    decide
  obtain ⟨d1, -, -, -, d5, d6⟩ := notify_body_failed Example.envSendFails Example.duplicate _
    Example.release Example.user Example.sendError hdb (hredis _) hbot hfree
    (by rw [b2, a2]; rfl) (by rw [b3, a3]; rfl)
  -- the row of the duplicate is untouched until its turn
  obtain ⟨f, f1, f2⟩ := notify_fold_rows Example.envSendFails
    (Example.delivery :: (List.range 100).map Example.queued)
    ((Example.queue 100).emit Event.listPendingDeliveries)
  have hdup : Example.duplicate ∈ (List.foldl
      (Notify.body Example.envSendFails (worker.idempotencyManager Example.envSendFails))
      (Notify.body Example.envSendFails (worker.idempotencyManager Example.envSendFails)
        ((Example.queue 100).emit Event.listPendingDeliveries) Example.delivery)
      ((List.range 100).map Example.queued)).deliveries := by
    rw [List.foldl_cons] at f1
    rw [f1]
    refine List.mem_map.mpr ⟨Example.duplicate, by simp [Example.queue], ?_⟩
    rcases f2 Example.duplicate with h | ⟨_, _, d, hd, hid⟩
    · exact h
    · exfalso
      rcases List.mem_cons.mp hd with rfl | hd
      · revert hid
        decide
      · obtain ⟨i, hi, rfl⟩ := List.mem_map.mp hd
        have hi2 := List.mem_range.mp hi
        have hv := congrArg (fun u : UUID => u.val.val) hid
        simp only [Example.queued, Example.duplicate, Example.uuidOf] at hv
        omega
  refine ⟨rfl, rfl, rfl, by simp [Example.queue], by simp [Example.queue], rfl, ?_, ?_, ?_⟩
  · rw [notify_loop _ _ _ (hdb _), hfilter, List.foldl_cons, List.foldl_append,
      List.foldl_cons, List.foldl_nil, d6, c1, a6]
    simp
  · rw [notify_loop _ _ _ (hdb _), hfilter, List.foldl_cons, List.foldl_append,
      List.foldl_cons, List.foldl_nil, d6]
    simp
  · rw [notify_loop _ _ _ (hdb _), hfilter, List.foldl_cons, List.foldl_append,
      List.foldl_cons, List.foldl_nil, d5]
    exact ⟨_, List.mem_map.mpr ⟨Example.duplicate, hdup, rfl⟩, by simp, by simp⟩

/-! ## A not-modified answer of the release source -/

/-- A transaction whose function touches no release touches none, committed or rolled
back. -/
theorem withinTransaction_releases {α : Type} (env : Env)
    (txFunc : α → World → Option Error × α × World) (a : α) (w : World)
    (hfn : ∀ b tx, (txFunc b tx).2.2.releases = tx.releases) :
    (PostgresStore.WithinTransaction env txFunc a w).2.2.releases = w.releases := by
  unfold PostgresStore.WithinTransaction
  split
  · rfl
  · have h := hfn a (w.emit Event.txBegin)
    split
    · rfl
    · rename_i heq
      rw [heq] at h
      split
      · rfl
      · exact h

/-- The choice of the repo to poll, dummy user and repo included, touches no release. -/
theorem stub_releases (env : Env) (repos : List domain.Repo) (w : World) :
    (PollReleases.stub env repos w).2.2.releases = w.releases := by
  unfold PollReleases.stub
  cases repos with
  | cons r t => rfl
  | nil =>
    simp only []
    split
    all_goals
      rename_i h
      have key := congrArg (fun r => r.2.2.releases) h
      simp only [] at key
      rw [withinTransaction_releases] at key
      · exact key.symm
      · intro b tx
        simp only [PostgresStore.CreateUser, PostgresStore.CreateRepo, uuid.New]
        cases env.db tx.trace.length with
        | some err => rfl
        | none =>
          simp only []
          split
          · rename_i h2
            split at h2
            · cases h2; rfl
            · cases h2
          · rename_i h2
            split at h2
            · cases h2
            · cases h2; rfl

/-- One call of the GitHub API by the adapter, when the client library returns a release
with every answer that carries no error: a failing call keeps the captured variables,
and a call that succeeds either keeps them (the not-modified branch) or captures a
release. -/
theorem github_fn_cap (env : Env) (owner repo : String)
    (hlib : ∀ k, (env.api k owner repo).err = none → (env.api k owner repo).rel ≠ none)
    (cap : Option github.Release × String) (w : World) :
    ((github.githubClient.GetLatestRelease.fn env owner repo cap w).1 ≠ none →
      (github.githubClient.GetLatestRelease.fn env owner repo cap w).2.1 = cap) ∧
    ((github.githubClient.GetLatestRelease.fn env owner repo cap w).1 = none →
      (github.githubClient.GetLatestRelease.fn env owner repo cap w).2.1 = cap ∨
      (github.githubClient.GetLatestRelease.fn env owner repo cap w).2.1.1 ≠ none) := by
  have hl := hlib w.trace.length
  unfold github.githubClient.GetLatestRelease.fn
  simp only []
  cases herr : (env.api w.trace.length owner repo).err with
  | some err =>
    simp only []
    split
    · split
      · exact ⟨fun _ => rfl, fun _ => Or.inl rfl⟩
      · exact ⟨fun _ => rfl, fun _ => Or.inl rfl⟩
    · exact ⟨fun _ => rfl, fun _ => Or.inl rfl⟩
  | none =>
    simp only []
    refine ⟨fun h => absurd rfl h, fun _ => Or.inr ?_⟩
    have hr := hl herr
    cases hrel : (env.api w.trace.length owner repo).rel with
    | none => exact absurd hrel hr
    | some rel => simp

/-- The retry loop of the adapter started with nothing captured: when it ends without error
and without a release, nothing has been captured. -/
theorem github_loop_nil (env : Env) (owner repo : String)
    (hlib : ∀ k, (env.api k owner repo).err = none → (env.api k owner repo).rel ≠ none)
    (n : Nat) :
    ∀ (i : Nat) (sleep : Duration) (w : World) (cap : Option github.Release × String)
      (w1 : World),
      retry.loop (github.githubClient.GetLatestRelease.fn env owner repo) n i sleep none
        (none, "") w = (none, cap, w1) ∨
      (∃ e, retry.loop (github.githubClient.GetLatestRelease.fn env owner repo) n i sleep
        (some e) (none, "") w = (none, cap, w1)) →
      cap.1 = none → cap = (none, "") := by
  induction n with
  | zero =>
    intro i sleep w cap w1 h _
    rcases h with h | ⟨e, h⟩
    · exact ((Prod.mk.inj (Prod.mk.inj h).2).1).symm
    · cases (Prod.mk.inj h).1
  | succ n ih =>
    intro i sleep w cap w1 h hnil
    have hstep : ∀ err0, retry.loop (github.githubClient.GetLatestRelease.fn env owner repo)
        (n + 1) i sleep err0 (none, "") w = (none, cap, w1) → cap = (none, "") := by
      intro err0 h0
      unfold retry.loop at h0
      simp only [] at h0
      have hc := github_fn_cap env owner repo hlib (none, "")
        (if 0 < i then time.Sleep sleep w else w)
      split at h0
      · rename_i a2 w2 heq
        rw [heq] at hc
        have ha : a2 = cap := (Prod.mk.inj (Prod.mk.inj h0).2).1
        rcases hc.2 rfl with h1 | h1
        · rw [← ha]; exact h1
        · exact absurd (by rw [ha]; exact hnil) h1
      · rename_i e a2 w2 heq
        rw [heq] at hc
        have ha : a2 = (none, "") := hc.1 (by simp)
        rw [ha] at h0
        exact ih _ _ _ _ _ (Or.inr ⟨e, h0⟩) hnil
    rcases h with h | ⟨e, h⟩
    · exact hstep _ h
    · exact hstep _ h

/-- Under the contract of the client library, the adapter answers (nil release, no error)
only with an empty validator. -/
theorem getLatestRelease_nil_release (env : Env) (owner repo etag : String) (w w1 : World)
    (newETag : String)
    (hlib : ∀ k, (env.api k owner repo).err = none → (env.api k owner repo).rel ≠ none)
    (hsrc : github.githubClient.GetLatestRelease env owner repo etag w =
      ((none, newETag, none), w1)) :
    newETag = "" := by
  unfold github.githubClient.GetLatestRelease retry.Do at hsrc
  split at hsrc
  · cases (Prod.mk.inj (Prod.mk.inj (Prod.mk.inj hsrc).1).2).2
  · rename_i cap w2 heq
    have h1 : cap.1 = none := (Prod.mk.inj (Prod.mk.inj hsrc).1).1
    have h2 : cap.2 = newETag := (Prod.mk.inj (Prod.mk.inj (Prod.mk.inj hsrc).1).2).1
    have h3 := github_loop_nil env owner repo hlib _ _ _ _ cap w2 (Or.inl heq) h1
    rw [← h2, h3]

/-- C3. For the repo that `PollReleases` selects, when the release source answers nil release
and no error (which the GitHub adapter does only on a not-modified response, and then
with an empty validator, the client library returning a release with every answer
that carries no error): `PollReleases` creates no release and no delivery, and its
one effect after the call of the source is to write the repo back with the stored
validator and `LastCheckedAt` set to the current time.  When that statement works
`PollReleases` returns nil and the stored row carries the validator it had and the
new `LastCheckedAt`; when it fails `PollReleases` returns its error and the repos are
as before. -/
theorem C3_not_modified_keeps_validator (env : Env) (w0 w w1 : World) (repo : domain.Repo)
    (newETag : String)
    (hlist : env.db w0.trace.length = none)
    (hstub : PollReleases.stub env (w0.repos.filter (fun r => r.UserID == uuid.Nil))
      (w0.emit (Event.listRepos uuid.Nil)) = (none, some repo, w))
    (hlib : ∀ k, (env.api k repo.Owner repo.Name).err = none →
      (env.api k repo.Owner repo.Name).rel ≠ none)
    (hsrc : github.githubClient.GetLatestRelease env repo.Owner repo.Name repo.ETag w =
      ((none, newETag, none), w1)) :
    newETag = "" ∧
    (PollReleases env w0).2.releases = w0.releases ∧
    (PollReleases env w0).2.deliveries = w0.deliveries ∧
    (PollReleases env w0).2.trace =
      w1.trace ++ [Event.updateRepo { repo with LastCheckedAt := w1.now }] ∧
    (env.db w1.trace.length = none →
      (PollReleases env w0).1 = none ∧
      (repo.ID ≠ uuid.Nil → (∃ r ∈ w.repos, r.ID = repo.ID) →
        (PollReleases env w0).2.repos = w.repos.map (fun r =>
          if r.ID = repo.ID then { repo with LastCheckedAt := w1.now, UpdatedAt := w1.now }
          else r))) ∧
    (∀ err : Error, env.db w1.trace.length = some err →
      (PollReleases env w0).1 =
        some (Error.wrap ("PollerUseCase.PollReleases: failed to update repo " ++
          repo.ID.String ++ " ETag/LastCheckedAt: ") err) ∧
      (PollReleases env w0).2.repos = w.repos) := by
  have he := getLatestRelease_nil_release env repo.Owner repo.Name repo.ETag w w1 newETag
    hlib hsrc
  subst he
  have hs := getLatestRelease_sameStores env repo.Owner repo.Name repo.ETag w
  rw [hsrc] at hs
  have hrel := stub_releases env (w0.repos.filter (fun r => r.UserID == uuid.Nil))
    (w0.emit (Event.listRepos uuid.Nil))
  have hdel := stub_deliveries env (w0.repos.filter (fun r => r.UserID == uuid.Nil))
    (w0.emit (Event.listRepos uuid.Nil))
  rw [hstub] at hrel hdel
  have hpoll : PollReleases env w0 = PollReleases.finish env repo "" w1 := by
    simp [PollReleases, PostgresStore.ListRepos, hlist, hstub, PollReleases.poll, hsrc,
      PollReleases.detect]
  have hwr : PollReleases.written repo "" w1 = { repo with LastCheckedAt := w1.now } := by
    rw [written_eq]
    simp
  have hfr := updateRepo_frame env (PollReleases.written repo "" w1) w1
  refine ⟨rfl, ?_, ?_, ?_, ?_, ?_⟩
  · rw [hpoll, finish_snd, hfr.1, hs.2.2.2.1]
    exact hrel
  · rw [hpoll, finish_snd, hfr.2.1, hs.2.2.2.2.1]
    exact hdel
  · rw [hpoll, finish_snd, hfr.2.2.2, hwr]
  · intro hdb
    refine ⟨by rw [hpoll]; exact finish_fst _ _ _ _ hdb, ?_⟩
    intro hid hmem
    have hin : ∃ r ∈ w1.repos, r.ID = (PollReleases.written repo "" w1).ID := by
      obtain ⟨r, hr, hrid⟩ := hmem
      exact ⟨r, by rw [hs.2.1]; exact hr, by rw [hwr]; exact hrid⟩
    rw [hpoll, finish_snd, updateRepo_rows env _ w1 hdb (by rw [hwr]; exact hid) hin, hwr,
      hs.2.1]
  · intro err herr
    have hfst := updateRepo_fst env (PollReleases.written repo "" w1) w1
    have hrepos : (PostgresStore.UpdateRepo env (PollReleases.written repo "" w1) w1).2.repos =
        w1.repos := by
      simp [PostgresStore.UpdateRepo, herr]
    refine ⟨?_, by rw [hpoll, finish_snd, hrepos, hs.2.1]⟩
    rw [hpoll]
    unfold PollReleases.finish
    rw [herr] at hfst
    split
    · rename_i e2 w2 heq
      rw [heq] at hfst
      cases hfst
      rfl
    · rename_i w2 heq
      rw [heq] at hfst
      cases hfst

/-- C3 (witness). The example repo with validator "v1" and the API answering 304: no release,
no delivery, "v1" written back with the new `LastCheckedAt`. -/
theorem C3_witness :
    "" = "" ∧
    (PollReleases Example.envNotModified Example.world).2.releases = Example.world.releases ∧
    (PollReleases Example.envNotModified Example.world).2.deliveries =
      Example.world.deliveries ∧
    (PollReleases Example.envNotModified Example.world).2.trace =
      Example.asked.trace ++
        [Event.updateRepo { Example.repo with LastCheckedAt := Example.asked.now }] ∧
    (Example.envNotModified.db Example.asked.trace.length = none →
      (PollReleases Example.envNotModified Example.world).1 = none ∧
      (Example.repo.ID ≠ uuid.Nil →
        (∃ r ∈ (Example.world.emit (Event.listRepos uuid.Nil)).repos, r.ID = Example.repo.ID) →
        (PollReleases Example.envNotModified Example.world).2.repos =
          (Example.world.emit (Event.listRepos uuid.Nil)).repos.map (fun r =>
            if r.ID = Example.repo.ID then
              { Example.repo with LastCheckedAt := Example.asked.now,
                                  UpdatedAt := Example.asked.now }
            else r))) ∧
    (∀ err : Error, Example.envNotModified.db Example.asked.trace.length = some err →
      (PollReleases Example.envNotModified Example.world).1 =
        some (Error.wrap ("PollerUseCase.PollReleases: failed to update repo " ++
          Example.repo.ID.String ++ " ETag/LastCheckedAt: ") err) ∧
      (PollReleases Example.envNotModified Example.world).2.repos =
        (Example.world.emit (Event.listRepos uuid.Nil)).repos) :=
  C3_not_modified_keeps_validator Example.envNotModified Example.world
    (Example.world.emit (Event.listRepos uuid.Nil)) Example.asked Example.repo ""
    (by rfl) (by rfl) (fun _ h => by cases h) (by rfl)

/-! ## Two polls of a store whose repos belong to users -/

/-- C1. The only stored repo, `acme/widget`, belongs to a user, as every repo added through
`AddRepo` does, and no release is stored; the source answers every request with the
same release.  Each run of `PollReleases` lists the repos of the nil user id, finds
none, creates a dummy user and a new repo golang/go, and polls that: both runs return
nil and each persists a release for its own new repo.  After the second run two
release rows hold the same upstream content, the second run has created one of them,
and `acme/widget` has not been polled at all. -/
theorem C1_second_poll_creates_release_for_new_dummy_repo :
    Example.owned.releases = [] ∧
    Example.owned.repos.map (fun r => (r.ID, r.UserID, r.Owner, r.Name)) =
      [(Example.uuidOf 7, Example.uuidOf 3, "acme", "widget")] ∧
    (PollReleases Example.env Example.owned).1 = none ∧
    (PollReleases Example.env Example.owned).2.releases.map
      (fun r => (r.ID, r.RepoID, r.Tag, r.Hash)) =
      [(Example.uuidOf 1009, Example.uuidOf 1004, "2.0.0", "notes2.0.0titleurl")] ∧
    (PollReleases Example.env (PollReleases Example.env Example.owned).2).1 = none ∧
    (PollReleases Example.env (PollReleases Example.env Example.owned).2).2.releases.map
      (fun r => (r.ID, r.RepoID, r.Tag, r.Hash)) =
      [(Example.uuidOf 1009, Example.uuidOf 1004, "2.0.0", "notes2.0.0titleurl"),
        (Example.uuidOf 1022, Example.uuidOf 1017, "2.0.0", "notes2.0.0titleurl")] ∧
    (PollReleases Example.env (PollReleases Example.env Example.owned).2).2.repos.map
      (fun r => (r.ID, r.UserID, r.Owner, r.Name)) =
      [(Example.uuidOf 7, Example.uuidOf 3, "acme", "widget"),
        (Example.uuidOf 1004, Example.uuidOf 1001, "golang", "go"),
        (Example.uuidOf 1017, Example.uuidOf 1014, "golang", "go")] ∧
    apiCalls (PollReleases Example.env (PollReleases Example.env Example.owned).2).2.trace =
      [("golang", "go"), ("golang", "go")] := by
  decide

/-! ## A status update that fails after the send -/

end RR
